import Mathlib

/-!
Verification development for the jupyterlab-autoplot IPython extension
(`src/ipython-extension/autoplot/`).  The Python modules are shallowly
embedded as executable Lean definitions:

* pandas Series / DataFrames become `PSeries` / `PObj` values carrying the
  attributes the code actually inspects (index dtype flag, numeric dtype
  flag, the index values, and the data values with their real/imaginary
  parts);
* Python dicts become insertion-ordered association lists with the update,
  insert and pop semantics of `dict` (`dictSet`, `dictInsert`, `dictErase`);
* toast notifications become an explicit event log (`ToastMsg` values built
  from the exact message strings of `autoplot/extensions/toast.py`);
* classes (`Trace`, `Plotter`, `PlotterModel`, `DTaler`) become structures,
  and their mutating methods become functions from state to state.

Where a Python method would raise `KeyError` on a missing key, call sites in
the reconciliation flow guarantee the key is present; the embedding makes
those lookups total (no-op on `none`) and each such spot is marked with a
comment.
-/

namespace Autoplot

/-! ## Ordered dictionaries (Python `dict`) and sets (Python `set`)

A Python `dict` is modelled as an insertion-ordered association list.
`dictSet` is `d[k] = v` for a key already present (in-place value update,
order preserved); `dictInsert` is `d[k] = v` in general (append when the key
is new); `dictErase` is `d.pop(k)`.  A Python `set` of strings is modelled
as a duplicate-free list with insertion order (`listInsertSet` is `s.add`,
`listRemove` is `s.remove`/`discard`). -/

abbrev Dict (α : Type) := List (String × α)

def dictLookup {α : Type} (k : String) : Dict α → Option α
  | [] => none
  | p :: d => if p.1 = k then some p.2 else dictLookup k d

def dictContains {α : Type} (k : String) (d : Dict α) : Bool :=
  (dictLookup k d).isSome

def dictSet {α : Type} (k : String) (v : α) (d : Dict α) : Dict α :=
  d.map (fun p => if p.1 = k then (k, v) else p)

def dictInsert {α : Type} (k : String) (v : α) (d : Dict α) : Dict α :=
  if dictContains k d then dictSet k v d else d ++ [(k, v)]

def dictErase {α : Type} (k : String) (d : Dict α) : Dict α :=
  d.filter (fun p => ¬ p.1 = k)

def dictKeys {α : Type} (d : Dict α) : List String := d.map Prod.fst

def listInsertSet (x : String) (l : List String) : List String :=
  if x ∈ l then l else l ++ [x]

def listRemove (x : String) (l : List String) : List String :=
  l.filter (fun y => ¬ y = x)

/-! ## The pandas value model

`autoplot` only ever inspects: whether a value is a Series or a DataFrame,
whether `series.index` is a `pd.DatetimeIndex`, whether `series.dtype` is a
numpy number dtype, whether each value is real (`np.isreal`), the index
values themselves, the data values, and the length.  `PSeries` carries
exactly these.  Index entries are timestamps modelled as integers
(nanoseconds since epoch); data values carry a real and an imaginary part
(`np.isreal v` is `v.im = 0`). -/

structure Cpx where
  re : Int
  im : Int
deriving DecidableEq, Repr

structure PSeries where
  /-- `isinstance(series.index, pd.DatetimeIndex)` -/
  datetimeIndexed : Bool
  /-- `np.issubdtype(series.dtype, np.number)` -/
  numericDtype : Bool
  index : List Int
  values : List Cpx
deriving DecidableEq, Repr

/-- A namespace value as seen by the extension: a Series, a DataFrame
(with the column name → column-Series mapping produced by
`{col: var[col] for col in var.columns}`), or anything else. -/
inductive PObj
  | series (s : PSeries)
  | dataframe (cols : List (String × PSeries))
  | other
deriving DecidableEq, Repr

/-! ## The classifier (`autoplot/cell_events/variable_utils.py`) -/

/-- `_is_numeric`: `np.issubdtype(series.dtype, np.number) and all(np.isreal(series))`. -/
def isNumericSeries (s : PSeries) : Bool :=
  s.numericDtype && s.values.all (fun v => v.im == 0)

/-- `_is_datetime_indexed`: `isinstance(series.index, pd.DatetimeIndex)`. -/
def isDatetimeIndexedSeries (s : PSeries) : Bool :=
  s.datetimeIndexed

/-- `is_plottable` restricted to an actual Series argument:
`_is_datetime_indexed(series) and _is_numeric(series) and len(series) > 1`. -/
def isPlottableSeries (s : PSeries) : Bool :=
  isDatetimeIndexedSeries s && isNumericSeries s && decide (1 < s.values.length)

/-- `is_plottable` on an arbitrary value.  For a DataFrame, `series.dtype`
raises `AttributeError` (caught, returning `False`); for any other object
`series.index` or `series.dtype` raises `AttributeError` likewise. -/
def is_plottable : PObj → Bool
  | PObj.series s => isPlottableSeries s
  | PObj.dataframe _ => false
  | PObj.other => false

/-- `DF_COLUMN_FORMAT_STRING = "{} ({})"`: the display name of a dataframe
column (`autoplot/utils/constants.py`). -/
def compositeName (dfName colName : String) : String :=
  dfName ++ " (" ++ colName ++ ")"

/-! ## Downsampling (`Trace._get_downsampled`)

The code computes `np.round(np.linspace(0, length - 1, max_length)).astype(int)`.
`np.linspace(0, length-1, max_length)` places `max_length` evenly spaced
sample positions `i * (length-1) / (max_length-1)`, and `np.round` rounds to
the nearest integer with ties going to the even neighbour (IEEE
round-half-to-even, numpy's rounding rule).  The embedding computes the same
positions in exact rational arithmetic. -/

/-- Round `p / q` to the nearest natural number, ties to even (numpy
`np.round` semantics on non-negative rationals). -/
def npRound (p q : Nat) : Nat :=
  if 2 * (p % q) < q then p / q
  else if q < 2 * (p % q) then p / q + 1
  else if (p / q) % 2 == 0 then p / q else p / q + 1

/-- The positional indices selected by
`np.round(np.linspace(0, length - 1, maxLength)).astype(int)`. -/
def downsampleIndices (length maxLength : Nat) : List Nat :=
  (List.range maxLength).map (fun i => npRound (i * (length - 1)) (maxLength - 1))

/-! ## Toasts (`autoplot/extensions/toast.py`)

`Toast.show` dispatches a DOM event whose payload embeds the message between
backtick delimiters, guarded by `assert "`" not in message`.  Every emitted
toast is recorded as a `ToastMsg` (the message string and the severity);
the message strings below are exactly the f-strings of `toast.py`. -/

inductive ToastType
  | error
  | warning
  | success
  | info
deriving DecidableEq, Repr

structure ToastMsg where
  message : String
  toastType : ToastType
deriving DecidableEq, Repr

/-- The reserved delimiter character of `Toast.show` (a backtick, `U+0060`). -/
def backtick : Char := Char.ofNat 96

/-- `Toast.show`'s guard: `assert "`" not in message`.  Returns `none` when
the assertion fails. -/
def toastShow (message : String) (toastType : ToastType) : Option ToastMsg :=
  if backtick ∈ message.data then none else some ⟨message, toastType⟩

/-- `Toast.downsample_warning` message text. -/
def downsampleWarningMsg (varName : String) (oldSize newSize : Nat) : String :=
  "Time series '" ++ varName ++ "' has " ++ toString oldSize
    ++ " data points, thus has been downsampled to " ++ toString newSize ++ " points."

def downsampleWarningToast (varName : String) (oldSize newSize : Nat) : ToastMsg :=
  ⟨downsampleWarningMsg varName oldSize newSize, ToastType.warning⟩

/-- `Toast.no_downsample_info` message text. -/
def noDownsampleMsg (varName : String) : String :=
  "Time series '" ++ varName ++ "' is now being displayed in full."

def noDownsampleToast (varName : String) : ToastMsg :=
  ⟨noDownsampleMsg varName, ToastType.info⟩

/-- `Toast.invalid_trace_colour` message text. -/
def invalidColourMsg (colour : String) : String :=
  "'" ++ colour ++ "' is not a valid matplotlib colour."

/-- `Toast.invalid_max_length` message text. -/
def invalidMaxLengthMsg (maxLength : Int) : String :=
  "Maximum series length before downsampling must be >= 0, not '" ++ toString maxLength
    ++ "'. Set to 0 for no downsampling."

/-- `Toast.unrecognised_variable` message text. -/
def unrecognisedVariableMsg (varName : String) : String :=
  "Cannot find variable '" ++ varName
    ++ "'. Make sure you are using its actual name, not its legend label."

def unrecognisedVariableToast (varName : String) : ToastMsg :=
  ⟨unrecognisedVariableMsg varName, ToastType.error⟩

/-! ## `Trace` (`autoplot/plotter/trace.py`)

A `Trace` stores the series, display attributes, the downsampling hysteresis
flag `_been_warned`, the effective `_max_length`, and the `Line2D` data
(`line_x`/`line_y`/`line_label`/`line_colour`) plus `_step_size`.
Methods that may toast return the list of toasts they emitted. -/

/-- `np.iinfo(np.int64).max`, the sentinel `_max_length` used when
downsampling is disabled (`max_length == 0`). -/
def maxInt64 : Nat := 9223372036854775807

structure Trace where
  name : String
  series : PSeries
  df_name : Option String
  colour : String
  label : String
  visible : Bool
  been_warned : Bool
  max_length : Nat
  line_x : List Int
  line_y : List Cpx
  line_label : String
  line_colour : String
  step_size : Int
deriving DecidableEq, Repr

namespace Trace

/-- `Trace._get_downsampled`: returns the (possibly downsampled) series for
display, updating `_been_warned` and emitting the downsample warning on the
transition into the downsampled state.  `self._series[index]` with an
integer ndarray is positional fancy indexing. -/
def getDownsampled (tr : Trace) : PSeries × Trace × List ToastMsg :=
  let length := tr.series.values.length
  if tr.max_length < length then
    let idx := downsampleIndices length tr.max_length
    let ds : PSeries :=
      { tr.series with
        index := idx.map (fun i => tr.series.index.getD i 0)
        values := idx.map (fun i => tr.series.values.getD i ⟨0, 0⟩) }
    if tr.been_warned then (ds, tr, [])
    else (ds, { tr with been_warned := true },
          [downsampleWarningToast tr.name length tr.max_length])
  else
    (tr.series, { tr with been_warned := false }, [])

/-- `Trace._build_line_with_props`: rebuild the `Line2D` from the
downsampled series and recompute `_step_size` (the difference of the first
two downsampled index values; the code indexes `[1]` and `[0]` directly,
valid because tracked series have length ≥ 2). -/
def buildLineWithProps (tr : Trace) : Trace × List ToastMsg :=
  let r := tr.getDownsampled
  let s := r.1
  let tr1 := r.2.1
  ({ tr1 with
      step_size := s.index.getD 1 0 - s.index.getD 0 0
      line_x := s.index
      line_y := s.values
      line_label := tr1.label
      line_colour := tr1.colour }, r.2.2)

/-- `Trace.__init__`.  `index` is the number of pre-existing traces;
the colour is `f"C{index % 10}"`. -/
def init (name : String) (series : PSeries) (index : Nat) (max_length : Nat)
    (visible : Bool) (df_name : Option String) : Trace × List ToastMsg :=
  let ml := if max_length == 0 then maxInt64 else max_length
  let colour := "C" ++ toString (index % 10)
  let tr : Trace :=
    { name := name, series := series, df_name := df_name
      colour := colour, label := name, visible := visible
      been_warned := false, max_length := ml
      line_x := [], line_y := [], line_label := name, line_colour := colour
      step_size := 1 }
  tr.buildLineWithProps

/-- `Trace.update_series`.  Returns whether the trace changed, the new
trace, and the emitted toasts.  `series.index.equals(...)` and
`np.array_equal` are value comparisons. -/
def update_series (tr : Trace) (series : PSeries) : Bool × Trace × List ToastMsg :=
  let index_equal := series.index = tr.series.index
  let values_equal := series.values = tr.series.values
  if index_equal ∧ values_equal then (false, tr, [])
  else
    let tr0 := { tr with series := series }
    if index_equal then
      let r := tr0.getDownsampled
      (true, { r.2.1 with line_y := r.1.values }, r.2.2)
    else if values_equal then
      let r := tr0.getDownsampled
      (true, { r.2.1 with line_x := r.1.index }, r.2.2)
    else
      let r := tr0.buildLineWithProps
      (true, r.1, r.2)

/-- `Trace.update_max_series_length`. -/
def update_max_series_length (tr : Trace) (max_length : Nat) :
    Bool × Trace × List ToastMsg :=
  let ml := if max_length == 0 then maxInt64 else max_length
  if tr.max_length = ml then (false, tr, [])
  else
    let length := tr.series.values.length
    if length ≤ tr.max_length ∧ length ≤ ml then
      (false, { tr with max_length := ml }, [])
    else
      let infoToasts :=
        if tr.max_length < length ∧ length ≤ ml then [noDownsampleToast tr.name] else []
      let tr0 := { tr with max_length := ml }
      let r := tr0.buildLineWithProps
      (true, r.1, infoToasts ++ r.2)

/-- `Trace.update_visible`. -/
def update_visible (tr : Trace) (visible : Bool) : Bool × Trace :=
  if tr.visible = visible then (false, tr) else (true, { tr with visible := visible })

end Trace

/-! ## `Plotter` (`autoplot/plotter/__init__.py`)

`Plotter` owns the name → `Trace` dict, the `force_shown` set, the
`_changed` flag, the `_frozen` flag and `_max_series_length`.  Emitted
toasts accumulate in `log`.  Methods whose only effect would be to write a
structurally identical object back into the dict are modelled as returning
the state unchanged (Python mutates the same `Trace` object in place). -/

structure Plotter where
  traces : Dict Trace
  force_shown : List String
  changed : Bool
  frozen : Bool
  max_series_length : Nat
  log : List ToastMsg
deriving DecidableEq, Repr

namespace Plotter

/-- `Plotter.__init__` (with the default `DEFAULT_MAX_SERIES_LENGTH = 1000`;
`_changed` starts `True` for the placeholder). -/
def init : Plotter :=
  { traces := [], force_shown := [], changed := true, frozen := false
    max_series_length := 1000, log := [] }

/-- `Plotter.update_trace_series`.  `self[name]` raises `KeyError` on a
missing name in Python; call sites guarantee presence, the embedding is a
no-op on `none`. -/
def update_trace_series (p : Plotter) (name : String) (series : PSeries) : Plotter :=
  match dictLookup name p.traces with
  | none => p
  | some tr =>
    let r := tr.update_series series
    if r.1 then
      { p with
        traces := dictSet name r.2.1 p.traces
        log := p.log ++ r.2.2
        changed := if r.2.1.visible then true else p.changed }
    else p

/-- `Plotter.add_trace`: overwrite-and-reshow an existing trace, or append a
new one coloured by creation order.  Note the unconditional assignment
`self._changed = not self._frozen`. -/
def add_trace (p : Plotter) (name : String) (series : PSeries)
    (df_name : Option String) : Plotter :=
  if dictContains name p.traces then
    let p1 := p.update_trace_series name series
    let p2 :=
      match dictLookup name p1.traces with
      | none => p1
      | some tr =>
        let r := tr.update_visible (!p1.frozen)
        if r.1 then { p1 with traces := dictSet name r.2 p1.traces } else p1
    { p2 with changed := !p2.frozen }
  else
    let r := Trace.init name series p.traces.length p.max_series_length (!p.frozen) df_name
    { p with
      traces := p.traces ++ [(name, r.1)]
      log := p.log ++ r.2
      changed := !p.frozen }

/-- `Plotter.hide_trace` (no-op on a missing name; Python raises `KeyError`
there, which `PlotterModel` call sites either rule out or catch). -/
def hide_trace (p : Plotter) (name : String) : Plotter :=
  match dictLookup name p.traces with
  | none => p
  | some tr =>
    let r := tr.update_visible false
    if r.1 then
      { p with
        traces := dictSet name r.2 p.traces
        force_shown := listRemove name p.force_shown
        changed := true }
    else p

/-- `Plotter.force_show_trace` (no-op on a missing name; Python raises
`KeyError` there, caught by `PlotterModel.show_variable`). -/
def force_show_trace (p : Plotter) (name : String) : Plotter :=
  match dictLookup name p.traces with
  | none => p
  | some tr =>
    let r := tr.update_visible true
    if r.1 then
      { p with
        traces := dictSet name r.2 p.traces
        force_shown := listInsertSet name p.force_shown
        changed := true }
    else p

def frozenInfoToast : ToastMsg :=
  ⟨"Plot has been 'frozen'. New series will not be plotted, but old ones will still be updated.",
   ToastType.info⟩

def defrostedInfoToast : ToastMsg :=
  ⟨"Plot has been 'defrosted'. Series defined while it was frozen must be manually shown with '--show'",
   ToastType.info⟩

/-- `Plotter.freeze`. -/
def freeze (p : Plotter) : Plotter :=
  let p1 := if p.frozen then p else { p with log := p.log ++ [frozenInfoToast] }
  { p1 with frozen := true }

/-- `Plotter.defrost`. -/
def defrost (p : Plotter) : Plotter :=
  let p1 := if p.frozen then { p with log := p.log ++ [defrostedInfoToast] } else p
  { p1 with frozen := false }

/-- `Plotter.get_visible` (as a list in trace insertion order; the code
builds a `set` over `self._traces.keys()`). -/
def get_visible (p : Plotter) : List String :=
  (p.traces.filter (fun x => x.2.visible)).map Prod.fst

/-- `Plotter.plot`: does nothing unless `self._changed or force`; after
actually plotting, clears `_changed`.  The rendering itself (matplotlib
figures, mpld3 plugins) is outside the reconciliation state and is not
modelled. -/
def plot (p : Plotter) (force : Bool) : Plotter :=
  if !p.changed && !force then p else { p with changed := false }

end Plotter

/-! ## `PlotterModel` (`autoplot/plotter/__init__.py`)

The trace view's reconciler.  `series_dict` maps tracked series names to the
series last seen; `plotted_dfs` maps a dataframe name to the set of its
plotted column names; `ns_with_series` is the set of names seen in the
current namespace snapshot (dataframe column names included). -/

structure PlotterModel where
  plotter : Plotter
  series_dict : Dict PSeries
  plotted_dfs : Dict (List String)
  ns_with_series : List String
deriving DecidableEq, Repr

/-- A namespace snapshot as delivered by `ViewManager.redraw`: the
underscore-free, unreserved names bound to pandas objects, in dict order. -/
abbrev Snapshot := List (String × PObj)

namespace PlotterModel

def init : PlotterModel :=
  { plotter := Plotter.init, series_dict := [], plotted_dfs := [], ns_with_series := [] }

/-- `PlotterModel._update_trace_if_changed`.  The group bookkeeping uses
`self[df_name].add(name)` through `__getitem__`, which prefers
`_plotted_dfs` and falls back to `_series_dict`; when the name only exists
in `_series_dict` the attribute call is a pandas `Series.add` whose result
is discarded (that branch raises `TypeError` in Python and is unreachable
from the reconciliation flow, which removes the dataframe's series entry
first). -/
def updateTraceIfChanged (m : PlotterModel) (name : String) (series : PSeries)
    (df_name : Option String) : PlotterModel :=
  let m1 :=
    match df_name with
    | none => m
    | some d =>
      match dictLookup d m.plotted_dfs with
      | some mems =>
        { m with plotted_dfs := dictSet d (listInsertSet name mems) m.plotted_dfs }
      | none =>
        if dictContains d m.series_dict then m
        else { m with plotted_dfs := m.plotted_dfs ++ [(d, [name])] }
  if dictContains name m1.series_dict then
    { m1 with
      series_dict := dictSet name series m1.series_dict
      plotter := m1.plotter.update_trace_series name series }
  else
    { m1 with
      series_dict := m1.series_dict ++ [(name, series)]
      plotter := m1.plotter.add_trace name series df_name }

/-- `PlotterModel._delete_trace`: hide the trace(s) of a series or dataframe
name and drop the bookkeeping entries.  Set iteration over a dataframe's
member names follows the stored insertion order.  Lookups the Python code
performs with `[]`/`remove` (raising `KeyError` when absent) are total here;
the reconciliation flow only reaches them with the key present. -/
def deleteTrace (m : PlotterModel) (name : String) : PlotterModel :=
  match dictLookup name m.plotted_dfs with
  | some mems =>
    let m1 := mems.foldl
      (fun acc sn =>
        { acc with
          plotter := acc.plotter.hide_trace sn
          series_dict := dictErase sn acc.series_dict }) m
    { m1 with plotted_dfs := dictErase name m1.plotted_dfs }
  | none =>
    let m1 :=
      { m with
        plotter := m.plotter.hide_trace name
        series_dict := dictErase name m.series_dict }
    match dictLookup name m1.plotter.traces with
    | none => m1
    | some tr =>
      match tr.df_name with
      | none => m1
      | some d =>
        match dictLookup d m1.plotted_dfs with
        | none => m1
        | some mems =>
          let mems1 := listRemove name mems
          if mems1.isEmpty then { m1 with plotted_dfs := dictErase d m1.plotted_dfs }
          else { m1 with plotted_dfs := dictSet d mems1 m1.plotted_dfs }

/-- `PlotterModel._add_trace_for_series`: handle a value that is a plottable
Series (deleting a stale dataframe of the same name first).  Returns whether
the value was consumed. -/
def addTraceForSeries (m : PlotterModel) (name : String) (var : PObj) :
    Bool × PlotterModel :=
  match var with
  | PObj.series s =>
    if isPlottableSeries s then
      let m1 := if dictContains name m.plotted_dfs then m.deleteTrace name else m
      (true, m1.updateTraceIfChanged name s none)
    else (false, m)
  | _ => (false, m)

/-- `PlotterModel._add_traces_for_dataframe`: handle a DataFrame value
(deleting a stale series of the same name first); each column is recorded in
`ns_with_series`, plotted if plottable, and deleted if it went stale. -/
def addTracesForDataframe (m : PlotterModel) (name : String) (var : PObj) :
    Bool × PlotterModel :=
  match var with
  | PObj.dataframe cols =>
    let m1 := if dictContains name m.series_dict then m.deleteTrace name else m
    let m2 := cols.foldl
      (fun acc cs =>
        let sname := compositeName name cs.1
        let acc1 := { acc with ns_with_series := listInsertSet sname acc.ns_with_series }
        if isPlottableSeries cs.2 then acc1.updateTraceIfChanged sname cs.2 (some name)
        else if dictContains sname acc1.series_dict then acc1.deleteTrace sname
        else acc1) m1
    (true, m2)
  | _ => (false, m)

/-- Processing of one namespace variable inside
`PlotterModel._add_traces_for_namespace_vars`. -/
def addVarStep (m : PlotterModel) (nv : String × PObj) : PlotterModel :=
  let m1 := { m with ns_with_series := listInsertSet nv.1 m.ns_with_series }
  let r := m1.addTraceForSeries nv.1 nv.2
  if r.1 then r.2
  else
    let r2 := m1.addTracesForDataframe nv.1 nv.2
    if r2.1 then r2.2
    else if dictContains nv.1 m1.series_dict || dictContains nv.1 m1.plotted_dfs then
      m1.deleteTrace nv.1
    else m1

/-- `PlotterModel._add_traces_for_namespace_vars`: clear `ns_with_series`
and process every namespace variable in snapshot order. -/
def addPass (m : PlotterModel) (snap : Snapshot) : PlotterModel :=
  snap.foldl addVarStep { m with ns_with_series := [] }

/-- `PlotterModel._hide_traces_for_deleted_vars`: the deleted-name set
`get_visible() - ns_with_series - force_shown` is computed once up front,
then each name is deleted. -/
def hidePass (m : PlotterModel) : PlotterModel :=
  let deleted := (m.plotter.get_visible).filter
    (fun n => !(n ∈ m.ns_with_series) && !(n ∈ m.plotter.force_shown))
  deleted.foldl (fun acc n => acc.deleteTrace n) m

/-- `PlotterModel.update_variables`. -/
def update_variables (m : PlotterModel) (snap : Snapshot) : PlotterModel :=
  (m.addPass snap).hidePass

/-- `PlotterModel.draw` (delegating to `Plotter.plot`). -/
def draw (m : PlotterModel) (force : Bool) : PlotterModel :=
  { m with plotter := m.plotter.plot force }

end PlotterModel

/-! ## `DTaler` (`autoplot/dtaler/__init__.py`)

The dtale view reconciles against an out-of-process store that can delete
records independently.  The store is modelled as the set of live data ids
plus a fresh-id counter; `dtale.get_instance(id)` is a membership test and
`dtale.global_state.cleanup(id)` removes the id.  A pandas value is
represented by its object-identity token (a `Nat`): `vardata.pdf is not var`
is inequality of tokens.  A dtale `Snapshot` is the name → identity-token
assignment of the namespace. -/

structure DtStore where
  live : List Nat
  nextId : Nat
deriving DecidableEq, Repr

/-- `VarData`: the tracked pandas object (by identity) and its dtale data id. -/
structure VarData where
  pdf : Nat
  dataId : Nat
deriving DecidableEq, Repr

abbrev DtSnapshot := List (String × Nat)

structure DTaler where
  tracked : Dict VarData
  ignored : List String
  frozen : Bool
  ignore_next : List String
  show_next : List String
  newNames : List String
  force_show : List String
  updated : List Nat
  deleted : List Nat
  first_show : Bool
  store : DtStore
  log : List ToastMsg
deriving DecidableEq, Repr

namespace DTaler

def init : DTaler :=
  { tracked := [], ignored := [], frozen := false, ignore_next := [], show_next := []
    newNames := [], force_show := [], updated := [], deleted := [], first_show := true
    store := { live := [], nextId := 0 }, log := [] }

/-- `DTaler._remove_tracked_var`: pop the name, clean its dtale record up
and record the deleted data id. -/
def removeTrackedVar (d : DTaler) (name : String) : DTaler :=
  match dictLookup name d.tracked with
  | none => d
  | some vd =>
    { d with
      tracked := dictErase name d.tracked
      store := { d.store with live := d.store.live.filter (fun i => ¬ i = vd.dataId) }
      deleted := d.deleted ++ [vd.dataId] }

/-- `DTaler._add_tracked_var`: `dtale.show` creates a fresh record (the
one-time settling `sleep` after the first show has no state content beyond
the `_first_show` flag). -/
def addTrackedVar (d : DTaler) (name : String) (pdf : Nat) : DTaler :=
  let id := d.store.nextId
  { d with
    store := { live := d.store.live ++ [id], nextId := id + 1 }
    first_show := false
    tracked := dictInsert name ⟨pdf, id⟩ d.tracked
    newNames := d.newNames ++ [name] }

/-- `_removed_in_dtale`: tracked names whose dtale instance vanished
(listed in tracked order; the Python `set` iteration order is immaterial,
each name is removed independently). -/
def removedInDtale (d : DTaler) : List String :=
  (d.tracked.filter (fun p => ¬ p.2.dataId ∈ d.store.live)).map Prod.fst

/-- Reset of the per-cycle difference lists at the top of
`update_variables`. -/
def resetDiffs (d : DTaler) : DTaler :=
  { d with updated := [], newNames := [], deleted := [], force_show := [] }

/-- Step 1.a: remove (and ignore) the variables whose dtale record vanished
independently. -/
def dtStep1a (d : DTaler) : DTaler :=
  (removedInDtale d).foldl
    (fun acc n =>
      let acc1 := acc.removeTrackedVar n
      { acc1 with ignored := listInsertSet n acc1.ignored }) d

/-- Step 1.b: forget every name (tracked or ignored) gone from the
namespace, dropping it from the ignore list rather than keeping a permanent
entry. -/
def dtStep1b (snapKeys : List String) (d : DTaler) : DTaler :=
  ((d.ignored ++ dictKeys d.tracked).filter (fun n => ¬ n ∈ snapKeys)).foldl
    (fun acc n =>
      let acc1 := acc.removeTrackedVar n
      { acc1 with ignored := listRemove n acc1.ignored }) d

/-- Step 2: when frozen, auto-ignore all non-tracked snapshot names; then
apply the pending ignore intents, then subtract the pending show intents
(show wins over an ignore issued in the same cycle), record the shows for
draw-time precedence, and clear the consumed intents. -/
def dtStep2 (snapKeys : List String) (d : DTaler) : DTaler :=
  let frozenNew := snapKeys.filter (fun n => ¬ dictContains n d.tracked)
  let d3 :=
    if d.frozen then
      { d with ignored := frozenNew.foldl (fun acc n => listInsertSet n acc) d.ignored }
    else d
  let d4 := { d3 with ignored := d3.ignore_next.foldl (fun acc n => listInsertSet n acc) d3.ignored }
  let d5 := { d4 with ignored := d4.ignored.filter (fun n => ¬ n ∈ d4.show_next) }
  { d5 with force_show := d5.show_next, ignore_next := [], show_next := [] }

/-- Step 3: make sure no ignored name is tracked. -/
def dtStep3 (d : DTaler) : DTaler :=
  d.ignored.foldl (fun acc n => acc.removeTrackedVar n) d

/-- Step 4: start tracking the unignored new names (snapshot order; the
Python `set` iteration order only permutes the fresh data-id assignment). -/
def dtStep4 (snap : DtSnapshot) (d : DTaler) : DTaler :=
  (snap.filter (fun nv => ¬ (dictContains nv.1 d.tracked || nv.1 ∈ d.ignored))).foldl
    (fun acc nv => acc.addTrackedVar nv.1 nv.2) d

/-- Step 5: push updates for tracked names whose pandas object identity
changed (`vardata.pdf is not var`). -/
def dtStep5 (snap : DtSnapshot) (d : DTaler) : DTaler :=
  snap.foldl
    (fun acc nv =>
      match dictLookup nv.1 acc.tracked with
      | some vd =>
        if ¬ vd.pdf = nv.2 then
          { acc with
            tracked := dictSet nv.1 ⟨nv.2, vd.dataId⟩ acc.tracked
            updated := acc.updated ++ [vd.dataId] }
        else acc
      | none => acc) d

/-- `DTaler.update_variables`, steps 1–5 of the source in order. -/
def update_variables (d : DTaler) (snap : DtSnapshot) : DTaler :=
  dtStep5 snap (dtStep4 snap (dtStep3 (dtStep2 (snap.map Prod.fst)
    (dtStep1b (snap.map Prod.fst) (dtStep1a (resetDiffs d))))))

/-- `DTaler.ignore_variable`: queue the intent for the next cycle. -/
def ignore_variable (d : DTaler) (name : String) : DTaler :=
  { d with ignore_next := d.ignore_next ++ [name] }

/-- `DTaler.show_variable`: queue the intent for the next cycle. -/
def show_variable (d : DTaler) (name : String) : DTaler :=
  { d with show_next := d.show_next ++ [name] }

/-- An external deletion of a dtale record (another client calling the
dtale backend), happening between reconciliation cycles. -/
def externalDelete (d : DTaler) (id : Nat) : DTaler :=
  { d with store := { d.store with live := d.store.live.filter (fun i => ¬ i = id) } }

end DTaler

/-! ## `ViewManager` dispatch (`autoplot/view_manager/__init__.py`)

Each per-operation handler calls the active view inside
`try ... except NotImplementedError` and converts the unsupported case into
a single warning toast built from a fixed f-string.  A view is modelled by
the set of operations it implements. -/

inductive VMOp
  | ignoreVariable
  | showVariable
  | changeColour
  | renameVariable
  | freezeView
  | defrostView
  | updateMaxSeriesLength
  | setYlabel
  | setPlotHeight
  | setPlotWidth
deriving DecidableEq, Repr

/-- The warning text of each `except NotImplementedError` handler, verbatim
from the source (note `set_plot_width`'s handler says "setting the plot
height"). -/
def unsupportedWarningMsg (active : String) : VMOp → String
  | VMOp.ignoreVariable => active ++ " does not implement ignoring variables"
  | VMOp.showVariable => active ++ " does not implement showing variables"
  | VMOp.changeColour => active ++ " does not implement changing colours"
  | VMOp.renameVariable => active ++ " does not implement variable renaming"
  | VMOp.freezeView => active ++ " does not implement freeze"
  | VMOp.defrostView => active ++ " does not implement defrost"
  | VMOp.updateMaxSeriesLength => active ++ " does not implement max series length"
  | VMOp.setYlabel => active ++ " does not implement changing ylabel"
  | VMOp.setPlotHeight => active ++ " does not implement setting the plot height"
  | VMOp.setPlotWidth => active ++ " does not implement setting the plot height"

/-- Toasts emitted by a `ViewManager` handler: none when the active view
implements the operation (the call is delegated), exactly one warning when
the view raises `NotImplementedError`.  No exception escapes the handler. -/
def vmDispatchToasts (supports : VMOp → Bool) (active : String) (op : VMOp) :
    List ToastMsg :=
  if supports op then []
  else [⟨unsupportedWarningMsg active op, ToastType.warning⟩]

/-- The operations `DTaler` implements (it overrides `ignore_variable`,
`show_variable`, `freeze` and `defrost`; the remaining `View` defaults raise
`NotImplementedError`). -/
def dtalerSupports : VMOp → Bool
  | VMOp.ignoreVariable => true
  | VMOp.showVariable => true
  | VMOp.freezeView => true
  | VMOp.defrostView => true
  | _ => false

/-! ## Arithmetic facts about the downsampling grid -/

theorem npRound_zero (q : Nat) : npRound 0 q = 0 := by
  unfold npRound
  simp only [Nat.zero_div, Nat.zero_mod, Nat.mul_zero]
  split
  · rfl
  · split
    · omega
    · simp

theorem npRound_le {p q b : Nat} (hq : 0 < q) (hpb : p ≤ q * b) : npRound p q ≤ b := by
  have hmod := Nat.div_add_mod p q
  have hlt : p % q < q := Nat.mod_lt _ hq
  have hdiv : p / q ≤ b := by
    by_contra hgt
    push_neg at hgt
    have h1 : q * (b + 1) ≤ q * (p / q) := Nat.mul_le_mul_left _ hgt
    have h2 : q * (b + 1) = q * b + q := Nat.mul_succ _ _
    omega
  have hup : 0 < p % q → p / q < b := by
    intro hr
    by_contra hge
    push_neg at hge
    have hfb : p / q = b := le_antisymm hdiv hge
    rw [hfb] at hmod
    omega
  unfold npRound
  split
  · exact hdiv
  · split
    · omega
    · split
      · omega
      · omega

theorem npRound_mul_self {q b : Nat} (hq : 0 < q) : npRound (q * b) q = b := by
  unfold npRound
  have h1 : q * b / q = b := Nat.mul_div_cancel_left _ hq
  have h2 : q * b % q = 0 := Nat.mul_mod_right _ _
  simp only [h1, h2]
  split
  · rfl
  · omega

theorem downsampleIndices_length (n M : Nat) : (downsampleIndices n M).length = M := by
  simp [downsampleIndices]

theorem downsampleIndices_get {n M i : Nat} (hi : i < M) :
    (downsampleIndices n M).getD i 0 = npRound (i * (n - 1)) (M - 1) := by
  simp [downsampleIndices, List.getD_eq_getElem?_getD, List.getElem?_map,
        List.getElem?_range, hi]

theorem getD_map_downsampleIndices {β : Type} {n M i : Nat} (hi : i < M)
    (f : Nat → β) (d : β) :
    ((downsampleIndices n M).map f).getD i d = f (npRound (i * (n - 1)) (M - 1)) := by
  simp [downsampleIndices, List.getD_eq_getElem?_getD, List.getElem?_map,
        List.getElem?_range, hi]

/-- The series `Trace._get_downsampled` returns when the stored series is
longer than `_max_length`. -/
theorem getDownsampled_fst_of_long {tr : Trace}
    (h : tr.max_length < tr.series.values.length) :
    tr.getDownsampled.1 =
      { tr.series with
        index := (downsampleIndices tr.series.values.length tr.max_length).map
          (fun i => tr.series.index.getD i 0)
        values := (downsampleIndices tr.series.values.length tr.max_length).map
          (fun i => tr.series.values.getD i ⟨0, 0⟩) } := by
  unfold Trace.getDownsampled
  rw [if_pos h]
  split <;> rfl

theorem npRound_grid_lt {n M i : Nat} (hM : 2 ≤ M) (hn : M < n) (hi : i < M) :
    npRound (i * (n - 1)) (M - 1) < n := by
  have hq : 0 < M - 1 := by omega
  have hle : npRound (i * (n - 1)) (M - 1) ≤ n - 1 := by
    apply npRound_le hq
    calc i * (n - 1) ≤ (M - 1) * (n - 1) := Nat.mul_le_mul_right _ (by omega)
    _ = (M - 1) * (n - 1) := rfl
  omega

/-- C2: for a series of length `n > maxLength` with `maxLength ≥ 2`, the
displayed downsampled series has exactly `maxLength` points, its point at
position `i` is the original point at index `round(i * (n-1) / (maxLength-1))`
(`round` being numpy's nearest-with-ties-to-even rounding, as computed by
`np.round(np.linspace(0, n-1, maxLength))`), and its first and last points
equal the original series' first and last points. -/
theorem C2_downsample_round_trip (tr : Trace)
    (hM : 2 ≤ tr.max_length)
    (hlen : tr.max_length < tr.series.values.length)
    (hix : tr.series.index.length = tr.series.values.length) :
    (tr.getDownsampled.1.values.length = tr.max_length ∧
     tr.getDownsampled.1.index.length = tr.max_length) ∧
    (∀ i, i < tr.max_length →
      npRound (i * (tr.series.values.length - 1)) (tr.max_length - 1)
          < tr.series.values.length ∧
      npRound (i * (tr.series.values.length - 1)) (tr.max_length - 1)
          < tr.series.index.length ∧
      tr.getDownsampled.1.values.getD i ⟨0, 0⟩ =
        tr.series.values.getD
          (npRound (i * (tr.series.values.length - 1)) (tr.max_length - 1)) ⟨0, 0⟩ ∧
      tr.getDownsampled.1.index.getD i 0 =
        tr.series.index.getD
          (npRound (i * (tr.series.values.length - 1)) (tr.max_length - 1)) 0) ∧
    (tr.getDownsampled.1.values.getD 0 ⟨0, 0⟩ = tr.series.values.getD 0 ⟨0, 0⟩ ∧
     tr.getDownsampled.1.index.getD 0 0 = tr.series.index.getD 0 0) ∧
    (tr.getDownsampled.1.values.getD (tr.max_length - 1) ⟨0, 0⟩ =
        tr.series.values.getD (tr.series.values.length - 1) ⟨0, 0⟩ ∧
     tr.getDownsampled.1.index.getD (tr.max_length - 1) 0 =
        tr.series.index.getD (tr.series.values.length - 1) 0) := by
  have hds := getDownsampled_fst_of_long hlen
  have hq : 0 < tr.max_length - 1 := by omega
  have hgrid : ∀ i, i < tr.max_length →
      tr.getDownsampled.1.values.getD i ⟨0, 0⟩ =
        tr.series.values.getD
          (npRound (i * (tr.series.values.length - 1)) (tr.max_length - 1)) ⟨0, 0⟩ ∧
      tr.getDownsampled.1.index.getD i 0 =
        tr.series.index.getD
          (npRound (i * (tr.series.values.length - 1)) (tr.max_length - 1)) 0 := by
    intro i hi
    rw [hds]
    exact ⟨getD_map_downsampleIndices hi _ _, getD_map_downsampleIndices hi _ _⟩
  refine ⟨⟨?_, ?_⟩, ?_, ?_, ?_⟩
  · rw [hds]; simp [downsampleIndices_length]
  · rw [hds]; simp [downsampleIndices_length]
  · intro i hi
    refine ⟨npRound_grid_lt hM hlen hi, ?_, hgrid i hi⟩
    rw [hix]
    exact npRound_grid_lt hM hlen hi
  · have h0 := hgrid 0 (by omega)
    rw [Nat.zero_mul, npRound_zero] at h0
    exact h0
  · have hlast := hgrid (tr.max_length - 1) (by omega)
    rw [npRound_mul_self hq] at hlast
    exact hlast

def c2Series : PSeries :=
  { datetimeIndexed := true, numericDtype := true
    index := [0, 10, 20, 30, 40, 50]
    values := [⟨0, 0⟩, ⟨1, 0⟩, ⟨2, 0⟩, ⟨3, 0⟩, ⟨4, 0⟩, ⟨5, 0⟩] }

def c2Trace : Trace :=
  { name := "x", series := c2Series, df_name := none
    colour := "C0", label := "x", visible := true
    been_warned := false, max_length := 3
    line_x := [], line_y := [], line_label := "x", line_colour := "C0"
    step_size := 1 }

theorem C2_downsample_round_trip_witness :
    (2 ≤ c2Trace.max_length ∧ c2Trace.max_length < c2Trace.series.values.length ∧
      c2Trace.series.index.length = c2Trace.series.values.length) ∧
    ((c2Trace.getDownsampled.1.values.length = c2Trace.max_length ∧
      c2Trace.getDownsampled.1.index.length = c2Trace.max_length) ∧
     (∀ i, i < c2Trace.max_length →
       npRound (i * (c2Trace.series.values.length - 1)) (c2Trace.max_length - 1)
           < c2Trace.series.values.length ∧
       npRound (i * (c2Trace.series.values.length - 1)) (c2Trace.max_length - 1)
           < c2Trace.series.index.length ∧
       c2Trace.getDownsampled.1.values.getD i ⟨0, 0⟩ =
         c2Trace.series.values.getD
           (npRound (i * (c2Trace.series.values.length - 1))
             (c2Trace.max_length - 1)) ⟨0, 0⟩ ∧
       c2Trace.getDownsampled.1.index.getD i 0 =
         c2Trace.series.index.getD
           (npRound (i * (c2Trace.series.values.length - 1))
             (c2Trace.max_length - 1)) 0) ∧
     (c2Trace.getDownsampled.1.values.getD 0 ⟨0, 0⟩ =
         c2Trace.series.values.getD 0 ⟨0, 0⟩ ∧
      c2Trace.getDownsampled.1.index.getD 0 0 = c2Trace.series.index.getD 0 0) ∧
     (c2Trace.getDownsampled.1.values.getD (c2Trace.max_length - 1) ⟨0, 0⟩ =
         c2Trace.series.values.getD (c2Trace.series.values.length - 1) ⟨0, 0⟩ ∧
      c2Trace.getDownsampled.1.index.getD (c2Trace.max_length - 1) 0 =
         c2Trace.series.index.getD (c2Trace.series.values.length - 1) 0)) :=
  ⟨by decide, C2_downsample_round_trip c2Trace (by decide) (by decide) (by decide)⟩

/-! ## C4: the classifier -/

/-- Modelled from the spec's words (§4.1): a value qualifies as a trackable
series iff it is a one-dimensional, time-indexed ordered sequence; every
index value is a distinct, monotonically non-decreasing timestamp-like
value; every data value is a real number; and the length is at least 2.
Stated for comparison against the source's `is_plottable`. -/
def specSeriesEligible (s : PSeries) : Prop :=
  s.datetimeIndexed = true ∧
  List.Chain' (fun a b : Int => a ≤ b) s.index ∧
  s.index.Nodup ∧
  (∀ v ∈ s.values, v.im = 0) ∧
  2 ≤ s.values.length

def c4Bad : PSeries :=
  { datetimeIndexed := true, numericDtype := true
    index := [5, 3]
    values := [⟨1, 0⟩, ⟨2, 0⟩] }

/-- C4 counterexample: a datetime-indexed numeric series of length 2 whose
index values decrease (`[5, 3]`) is accepted by `is_plottable` even though
it is not a monotonically non-decreasing sequence of timestamps, so the
claimed "if and only if" fails in the only-if direction. -/
theorem C4_classifier_counterexample :
    is_plottable (PObj.series c4Bad) = true ∧ ¬ specSeriesEligible c4Bad := by
  refine ⟨by decide, ?_⟩
  rintro ⟨-, hchain, -, -, -⟩
  simp only [c4Bad, List.chain'_cons, List.chain'_singleton, and_true] at hchain
  omega

/-- C4 (amended): the classifier accepts a value exactly when it is a
Series that is datetime-indexed, has a numeric dtype, contains only real
values, and has length at least 2; the index values' distinctness and
monotonicity are not checked.  Every non-Series value is not eligible. -/
theorem C4_classifier_amended :
    (∀ s : PSeries, is_plottable (PObj.series s) = true ↔
      s.datetimeIndexed = true ∧ s.numericDtype = true ∧
      (∀ v ∈ s.values, v.im = 0) ∧ 2 ≤ s.values.length) ∧
    (∀ cols, is_plottable (PObj.dataframe cols) = false) ∧
    is_plottable PObj.other = false := by
  refine ⟨?_, fun _ => rfl, rfl⟩
  intro s
  simp only [is_plottable, isPlottableSeries, isDatetimeIndexedSeries, isNumericSeries,
    Bool.and_eq_true, List.all_eq_true, beq_iff_eq, decide_eq_true_eq]
  constructor
  · rintro ⟨⟨hdt, hnum, hreal⟩, hlen⟩
    exact ⟨hdt, hnum, hreal, by omega⟩
  · rintro ⟨hdt, hnum, hreal, hlen⟩
    exact ⟨⟨hdt, hnum, hreal⟩, by omega⟩

/-! ## C9: the reserved delimiter in toast messages -/

theorem string_data_append (s t : String) : (s ++ t).data = s.data ++ t.data := rfl

theorem noBacktick_append {s t : String} (hs : backtick ∉ s.data)
    (ht : backtick ∉ t.data) : backtick ∉ (s ++ t).data := by
  rw [string_data_append, List.mem_append]
  rintro (h | h)
  · exact hs h
  · exact ht h

theorem digitChar_ne_backtick (n : Nat) : Nat.digitChar n ≠ backtick := by
  rcases Nat.lt_or_ge n 16 with h | h
  · interval_cases n <;> decide
  · have hstar : Nat.digitChar n = Char.ofNat 42 := by
      unfold Nat.digitChar
      repeat rw [if_neg (by omega)]
    rw [hstar]; decide

theorem toDigitsCore_ne_backtick (b : Nat) (fuel : Nat) :
    ∀ (n : Nat) (acc : List Char), (∀ c ∈ acc, c ≠ backtick) →
      ∀ c ∈ Nat.toDigitsCore b fuel n acc, c ≠ backtick := by
  induction fuel with
  | zero =>
    intro n acc hacc c hc
    exact hacc c hc
  | succ fuel ih =>
    intro n acc hacc c hc
    simp only [Nat.toDigitsCore] at hc
    have hstep : ∀ d ∈ Nat.digitChar (n % b) :: acc, d ≠ backtick := by
      intro d hd
      rcases List.mem_cons.mp hd with rfl | hd
      · exact digitChar_ne_backtick _
      · exact hacc d hd
    split at hc
    · exact hstep c hc
    · exact ih _ _ hstep c hc

theorem natRepr_no_backtick (n : Nat) : backtick ∉ (Nat.repr n).data := by
  intro hc
  exact toDigitsCore_ne_backtick 10 (n + 1) n [] (by simp) backtick hc rfl

theorem natToString_no_backtick (n : Nat) : backtick ∉ (toString n).data :=
  natRepr_no_backtick n

theorem intToString_no_backtick (n : Int) : backtick ∉ (toString n).data := by
  cases n with
  | ofNat m => exact natRepr_no_backtick m
  | negSucc m =>
    show backtick ∉ ("-" ++ Nat.repr (m + 1)).data
    exact noBacktick_append (by decide) (natRepr_no_backtick (m + 1))

def c9Col : String := "a" ++ String.singleton backtick ++ "b"

def c9Name : String := compositeName "df" c9Col

def c9OldSeries : PSeries :=
  { datetimeIndexed := true, numericDtype := true
    index := [0, 10], values := [⟨0, 0⟩, ⟨1, 0⟩] }

def c9NewSeries : PSeries :=
  { datetimeIndexed := true, numericDtype := true
    index := [0, 10, 20], values := [⟨0, 0⟩, ⟨1, 0⟩, ⟨2, 0⟩] }

def c9Trace : Trace :=
  { name := c9Name, series := c9OldSeries, df_name := some "df"
    colour := "C0", label := c9Name, visible := true
    been_warned := false, max_length := 2
    line_x := [0, 10], line_y := [⟨0, 0⟩, ⟨1, 0⟩], line_label := c9Name
    line_colour := "C0", step_size := 10 }

/-- C9 counterexample: a dataframe column literally named ``a`b`` produces
the composite trace name ``df (a`b)``; growing that trace past
`max_length = 2` emits a downsample warning whose message embeds the name,
and `Toast.show`'s assertion on that message fails (`toastShow` returns
`none`).  So not every notification message is free of the reserved
backtick delimiter. -/
theorem C9_backtick_counterexample :
    (c9Trace.update_series c9NewSeries).2.2 = [downsampleWarningToast c9Name 3 2] ∧
    backtick ∈ (downsampleWarningMsg c9Name 3 2).data ∧
    toastShow (downsampleWarningMsg c9Name 3 2) ToastType.warning = none := by
  refine ⟨by decide, by decide, ?_⟩
  rw [toastShow, if_pos (by decide)]

/-- C9 (amended): every toast message template of `toast.py` is free of the
reserved backtick delimiter provided the interpolated variable name and
colour contain none, and composite dataframe-column names preserve
backtick-freeness; numeric interpolations never introduce one.  Under those
conditions `Toast.show`'s assertion succeeds. -/
theorem C9_no_backtick_amended (name colour df col : String)
    (oldSize newSize : Nat) (ml : Int)
    (hname : backtick ∉ name.data) (hcolour : backtick ∉ colour.data)
    (hdf : backtick ∉ df.data) (hcol : backtick ∉ col.data) :
    backtick ∉ (compositeName df col).data ∧
    toastShow (downsampleWarningMsg name oldSize newSize) ToastType.warning =
      some (downsampleWarningToast name oldSize newSize) ∧
    toastShow (noDownsampleMsg name) ToastType.info = some (noDownsampleToast name) ∧
    toastShow (invalidColourMsg colour) ToastType.error =
      some ⟨invalidColourMsg colour, ToastType.error⟩ ∧
    toastShow (invalidMaxLengthMsg ml) ToastType.error =
      some ⟨invalidMaxLengthMsg ml, ToastType.error⟩ ∧
    toastShow (unrecognisedVariableMsg name) ToastType.error =
      some (unrecognisedVariableToast name) := by
  have hcomp : backtick ∉ (compositeName df col).data := by
    unfold compositeName
    exact noBacktick_append (noBacktick_append (noBacktick_append hdf (by decide)) hcol)
      (by decide)
  have h1 : backtick ∉ (downsampleWarningMsg name oldSize newSize).data := by
    unfold downsampleWarningMsg
    exact noBacktick_append (noBacktick_append (noBacktick_append (noBacktick_append
      (noBacktick_append (noBacktick_append (by decide) hname) (by decide))
      (natToString_no_backtick oldSize)) (by decide))
      (natToString_no_backtick newSize)) (by decide)
  have h2 : backtick ∉ (noDownsampleMsg name).data := by
    unfold noDownsampleMsg
    exact noBacktick_append (noBacktick_append (by decide) hname) (by decide)
  have h3 : backtick ∉ (invalidColourMsg colour).data := by
    unfold invalidColourMsg
    exact noBacktick_append (noBacktick_append (by decide) hcolour) (by decide)
  have h4 : backtick ∉ (invalidMaxLengthMsg ml).data := by
    unfold invalidMaxLengthMsg
    exact noBacktick_append (noBacktick_append (by decide)
      (intToString_no_backtick ml)) (by decide)
  have h5 : backtick ∉ (unrecognisedVariableMsg name).data := by
    unfold unrecognisedVariableMsg
    exact noBacktick_append (noBacktick_append (by decide) hname) (by decide)
  refine ⟨hcomp, ?_, ?_, ?_, ?_, ?_⟩
  · rw [toastShow, if_neg h1]; rfl
  · rw [toastShow, if_neg h2]; rfl
  · rw [toastShow, if_neg h3]
  · rw [toastShow, if_neg h4]
  · rw [toastShow, if_neg h5]; rfl

theorem C9_no_backtick_amended_witness :
    (backtick ∉ ("x" : String).data ∧ backtick ∉ ("red" : String).data ∧
     backtick ∉ ("df" : String).data ∧ backtick ∉ ("colA" : String).data) ∧
    (backtick ∉ (compositeName "df" "colA").data ∧
     toastShow (downsampleWarningMsg "x" 1500 1000) ToastType.warning =
       some (downsampleWarningToast "x" 1500 1000) ∧
     toastShow (noDownsampleMsg "x") ToastType.info = some (noDownsampleToast "x") ∧
     toastShow (invalidColourMsg "red") ToastType.error =
       some ⟨invalidColourMsg "red", ToastType.error⟩ ∧
     toastShow (invalidMaxLengthMsg (-3)) ToastType.error =
       some ⟨invalidMaxLengthMsg (-3), ToastType.error⟩ ∧
     toastShow (unrecognisedVariableMsg "x") ToastType.error =
       some (unrecognisedVariableToast "x")) :=
  ⟨by decide,
   C9_no_backtick_amended "x" "red" "df" "colA" 1500 1000 (-3)
     (by decide) (by decide) (by decide) (by decide)⟩

/-! ## Structural lemmas about `Trace` methods -/

theorem getDownsampled_frame (tr : Trace) :
    tr.getDownsampled.2.1.name = tr.name ∧
    tr.getDownsampled.2.1.series = tr.series ∧
    tr.getDownsampled.2.1.df_name = tr.df_name ∧
    tr.getDownsampled.2.1.colour = tr.colour ∧
    tr.getDownsampled.2.1.label = tr.label ∧
    tr.getDownsampled.2.1.visible = tr.visible ∧
    tr.getDownsampled.2.1.max_length = tr.max_length ∧
    tr.getDownsampled.2.1.line_x = tr.line_x ∧
    tr.getDownsampled.2.1.line_y = tr.line_y ∧
    tr.getDownsampled.2.1.line_label = tr.line_label ∧
    tr.getDownsampled.2.1.line_colour = tr.line_colour ∧
    tr.getDownsampled.2.1.step_size = tr.step_size := by
  by_cases hlen : tr.max_length < tr.series.values.length
  · by_cases hw : tr.been_warned
    · simp [Trace.getDownsampled, hlen, hw]
    · simp [Trace.getDownsampled, hlen, hw]
  · simp [Trace.getDownsampled, hlen]

/-- `_get_downsampled` on a long series with the user not yet warned: warn
once and set the flag. -/
theorem getDownsampled_warn {tr : Trace}
    (hlen : tr.max_length < tr.series.values.length)
    (hw : tr.been_warned = false) :
    tr.getDownsampled.2.2 =
      [downsampleWarningToast tr.name tr.series.values.length tr.max_length] ∧
    tr.getDownsampled.2.1.been_warned = true := by
  unfold Trace.getDownsampled
  rw [if_pos hlen, if_neg (by simp [hw])]
  exact ⟨rfl, rfl⟩

/-- `_get_downsampled` on a long series with the user already warned: no
toast, state untouched. -/
theorem getDownsampled_already_warned {tr : Trace}
    (hlen : tr.max_length < tr.series.values.length)
    (hw : tr.been_warned = true) :
    tr.getDownsampled.2.2 = [] ∧ tr.getDownsampled.2.1 = tr := by
  unfold Trace.getDownsampled
  rw [if_pos hlen, if_pos (by simp [hw])]
  exact ⟨rfl, rfl⟩

/-- `_get_downsampled` on a short series: no toast, flag reset, series
returned in full. -/
theorem getDownsampled_short {tr : Trace}
    (hlen : tr.series.values.length ≤ tr.max_length) :
    tr.getDownsampled.2.2 = [] ∧
    tr.getDownsampled.2.1 = { tr with been_warned := false } ∧
    tr.getDownsampled.1 = tr.series := by
  unfold Trace.getDownsampled
  rw [if_neg (by omega)]
  exact ⟨rfl, rfl, rfl⟩

theorem buildLineWithProps_frame (tr : Trace) :
    tr.buildLineWithProps.1.name = tr.name ∧
    tr.buildLineWithProps.1.series = tr.series ∧
    tr.buildLineWithProps.1.df_name = tr.df_name ∧
    tr.buildLineWithProps.1.colour = tr.colour ∧
    tr.buildLineWithProps.1.label = tr.label ∧
    tr.buildLineWithProps.1.visible = tr.visible ∧
    tr.buildLineWithProps.1.max_length = tr.max_length ∧
    tr.buildLineWithProps.1.been_warned = tr.getDownsampled.2.1.been_warned ∧
    tr.buildLineWithProps.2 = tr.getDownsampled.2.2 := by
  have hf := getDownsampled_frame tr
  unfold Trace.buildLineWithProps
  exact ⟨hf.1, hf.2.1, hf.2.2.1, hf.2.2.2.1, hf.2.2.2.2.1, hf.2.2.2.2.2.1,
    hf.2.2.2.2.2.2.1, rfl, rfl⟩

/-- `update_series` on an unchanged series: report `False`, mutate nothing,
toast nothing. -/
theorem update_series_skip {tr : Trace} {s : PSeries}
    (hix : s.index = tr.series.index) (hv : s.values = tr.series.values) :
    tr.update_series s = (false, tr, []) := by
  unfold Trace.update_series
  rw [if_pos ⟨hix, hv⟩]

/-- `update_series` on a changed series: report `True`, store the series,
and behave on `_been_warned` and the toast log exactly as
`_get_downsampled` of the updated trace does; display attributes are
untouched. -/
theorem update_series_changed {tr : Trace} {s : PSeries}
    (hne : ¬ (s.index = tr.series.index ∧ s.values = tr.series.values)) :
    (tr.update_series s).1 = true ∧
    (tr.update_series s).2.1.series = s ∧
    (tr.update_series s).2.1.been_warned =
      ({ tr with series := s } : Trace).getDownsampled.2.1.been_warned ∧
    (tr.update_series s).2.2 = ({ tr with series := s } : Trace).getDownsampled.2.2 ∧
    (tr.update_series s).2.1.name = tr.name ∧
    (tr.update_series s).2.1.df_name = tr.df_name ∧
    (tr.update_series s).2.1.colour = tr.colour ∧
    (tr.update_series s).2.1.label = tr.label ∧
    (tr.update_series s).2.1.visible = tr.visible ∧
    (tr.update_series s).2.1.max_length = tr.max_length := by
  have hg := getDownsampled_frame ({ tr with series := s } : Trace)
  have hb := buildLineWithProps_frame ({ tr with series := s } : Trace)
  by_cases hix : s.index = tr.series.index
  · simp only [Trace.update_series, if_neg hne, if_pos hix]
    exact ⟨trivial, hg.2.1, trivial, trivial, hg.1, hg.2.2.1, hg.2.2.2.1, hg.2.2.2.2.1,
      hg.2.2.2.2.2.1, hg.2.2.2.2.2.2.1⟩
  · by_cases hv : s.values = tr.series.values
    · simp only [Trace.update_series, if_neg hne, if_neg hix, if_pos hv]
      exact ⟨trivial, hg.2.1, trivial, trivial, hg.1, hg.2.2.1, hg.2.2.2.1, hg.2.2.2.2.1,
        hg.2.2.2.2.2.1, hg.2.2.2.2.2.2.1⟩
    · simp only [Trace.update_series, if_neg hne, if_neg hix, if_neg hv]
      exact ⟨trivial, hb.2.1, hb.2.2.2.2.2.2.2.1, hb.2.2.2.2.2.2.2.2, hb.1, hb.2.2.1,
        hb.2.2.2.1, hb.2.2.2.2.1, hb.2.2.2.2.2.1, hb.2.2.2.2.2.2.1⟩

/-! ## C8: unsupported-capability dispatch -/

/-- C8: dispatching an operation the active view does not implement emits
exactly one warning toast and propagates no error — but the warning emitted
for `set_plot_width` reads "does not implement setting the plot height",
identical to `set_plot_height`'s warning, so it does not name the
unsupported operation.  (`DTaler` implements neither width nor height
setting, so this is reachable with the dtale view active.) -/
theorem C8_dispatch_width_bug :
    (∀ active : String,
      vmDispatchToasts dtalerSupports active VMOp.setPlotWidth =
        [⟨active ++ " does not implement setting the plot height", ToastType.warning⟩] ∧
      (vmDispatchToasts dtalerSupports active VMOp.setPlotWidth).length = 1 ∧
      unsupportedWarningMsg active VMOp.setPlotWidth =
        unsupportedWarningMsg active VMOp.setPlotHeight) ∧
    dtalerSupports VMOp.setPlotWidth = false ∧
    dtalerSupports VMOp.setPlotHeight = false := by
  exact ⟨fun active => ⟨rfl, rfl, rfl⟩, rfl, rfl⟩

/-! ## C3: downsampling hysteresis -/

/-- A run of consecutive `Trace.update_series` calls, with the emitted
toasts concatenated in order. -/
def runUpdates : Trace → List PSeries → Trace × List ToastMsg
  | tr, [] => (tr, [])
  | tr, s :: rest =>
    let r := tr.update_series s
    let next := runUpdates r.2.1 rest
    (next.1, r.2.2 ++ next.2)

theorem values_ne_of_length_ne {a b : List Cpx} (h : a.length ≠ b.length) : a ≠ b := by
  intro hab
  exact h (by rw [hab])

/-- `update_max_series_length` with the threshold already in force does
nothing. -/
theorem update_max_series_length_same {tr : Trace} {ml : Nat}
    (h0 : (ml == 0) = false) (h : tr.max_length = ml) :
    tr.update_max_series_length ml = (false, tr, []) := by
  simp only [Trace.update_max_series_length, h0, Bool.false_eq_true, if_false, if_pos h]

/-- Once `_been_warned` is set, further updates that stay above
`_max_length` emit nothing and leave the flag set. -/
theorem runUpdates_warned (us : List PSeries) :
    ∀ tr : Trace, tr.been_warned = true →
      (∀ s ∈ us, tr.max_length < s.values.length) →
      (runUpdates tr us).2 = [] ∧
      (runUpdates tr us).1.been_warned = true ∧
      (runUpdates tr us).1.max_length = tr.max_length ∧
      (runUpdates tr us).1.name = tr.name := by
  induction us with
  | nil => intro tr hw _; exact ⟨rfl, hw, rfl, rfl⟩
  | cons s rest ih =>
    intro tr hw hall
    have hs : tr.max_length < s.values.length := hall s (List.mem_cons_self s rest)
    by_cases hne : s.index = tr.series.index ∧ s.values = tr.series.values
    · have hskip := update_series_skip hne.1 hne.2
      have step : runUpdates tr (s :: rest) =
          ((runUpdates tr rest).1, (tr.update_series s).2.2 ++ (runUpdates tr rest).2) := by
        show ((runUpdates (tr.update_series s).2.1 rest).1,
          (tr.update_series s).2.2 ++ (runUpdates (tr.update_series s).2.1 rest).2) = _
        rw [hskip]
      have hrest := ih tr hw (fun x hx => hall x (List.mem_cons_of_mem _ hx))
      rw [step, hskip]
      simpa using hrest
    · have hch := update_series_changed hne
      set tr0 : Trace := { tr with series := s } with htr0
      have hg := @getDownsampled_already_warned tr0 (by simpa [htr0] using hs)
        (by simpa [htr0] using hw)
      have hwarned1 : (tr.update_series s).2.1.been_warned = true := by
        rw [hch.2.2.1, hg.2, htr0]
        exact hw
      have hml1 : (tr.update_series s).2.1.max_length = tr.max_length :=
        hch.2.2.2.2.2.2.2.2.2
      have hname1 : (tr.update_series s).2.1.name = tr.name := hch.2.2.2.2.1
      have htoast1 : (tr.update_series s).2.2 = [] := by rw [hch.2.2.2.1, hg.1]
      have hrest := ih (tr.update_series s).2.1 hwarned1
        (fun x hx => by rw [hml1]; exact hall x (List.mem_cons_of_mem _ hx))
      refine ⟨?_, ?_, ?_, ?_⟩
      · show (tr.update_series s).2.2 ++ (runUpdates (tr.update_series s).2.1 rest).2 = []
        rw [htoast1, hrest.1]
        rfl
      · exact hrest.2.1
      · show (runUpdates (tr.update_series s).2.1 rest).1.max_length = tr.max_length
        rw [hrest.2.2.1, hml1]
      · show (runUpdates (tr.update_series s).2.1 rest).1.name = tr.name
        rw [hrest.2.2.2, hname1]

def c3Series3 : PSeries :=
  { datetimeIndexed := true, numericDtype := true
    index := [0, 10, 20], values := [⟨0, 0⟩, ⟨1, 0⟩, ⟨2, 0⟩] }

def c3Series2 : PSeries :=
  { datetimeIndexed := true, numericDtype := true
    index := [0, 10], values := [⟨5, 0⟩, ⟨6, 0⟩] }

def c3Trace : Trace :=
  { name := "x", series := c3Series3, df_name := none
    colour := "C0", label := "x", visible := true
    been_warned := true, max_length := 2
    line_x := [0, 20], line_y := [⟨0, 0⟩, ⟨2, 0⟩], line_label := "x"
    line_colour := "C0", step_size := 20 }

/-- C3 counterexample: a downsampled trace (`max_length = 2`, series length
3, already warned) updated with a series of length 2 — the first update
whose length drops back to at or below `maxLength`.  The claim requires the
"shown in full" informational notice to be emitted exactly once here, but
the update emits no toast at all (`no_downsample_info` is only called from
`update_max_series_length`). -/
theorem C3_hysteresis_counterexample :
    c3Trace.max_length < c3Trace.series.values.length ∧
    c3Trace.been_warned = true ∧
    c3Series2.values.length ≤ c3Trace.max_length ∧
    (c3Trace.update_series c3Series2).1 = true ∧
    (c3Trace.update_series c3Series2).2.2 = [] := by
  exact ⟨by decide, by decide, by decide, by decide, by decide⟩

/-- C3 (amended): (a) starting from a trace displayed in full
(`_been_warned = false`, length ≤ `maxLength`), a run of updates whose
lengths all exceed `maxLength` emits the downsample warning exactly once —
on the first update of the run, carrying the new length and the target
length; (b) an effective series update that drops the length back to at or
below `maxLength` emits no toast at all and silently resets the hysteresis
flag (the "shown in full" notice is *not* emitted on series shrink); (c) the
"shown in full" notice is emitted (exactly once) when
`update_max_series_length` raises the threshold from below the stored
length to at or above it, and a repeated call with the same threshold emits
nothing and changes nothing. -/
theorem C3_hysteresis_amended
    (tr : Trace) (u : PSeries) (rest : List PSeries)
    (hw : tr.been_warned = false) (hshort : tr.series.values.length ≤ tr.max_length)
    (hall : ∀ s ∈ u :: rest, tr.max_length < s.values.length)
    (trB : Trace) (sB : PSeries)
    (hBne : ¬ (sB.index = trB.series.index ∧ sB.values = trB.series.values))
    (hBshort : sB.values.length ≤ trB.max_length)
    (trC : Trace) (ml : Nat) (hCml : 0 < ml)
    (hClong : trC.max_length < trC.series.values.length)
    (hCraise : trC.series.values.length ≤ ml) :
    ((runUpdates tr (u :: rest)).2 =
      [downsampleWarningToast tr.name u.values.length tr.max_length]) ∧
    ((trB.update_series sB).2.2 = [] ∧ (trB.update_series sB).2.1.been_warned = false) ∧
    ((trC.update_max_series_length ml).1 = true ∧
     (trC.update_max_series_length ml).2.2 = [noDownsampleToast trC.name] ∧
     (trC.update_max_series_length ml).2.1.max_length = ml ∧
     (trC.update_max_series_length ml).2.1.update_max_series_length ml =
       (false, (trC.update_max_series_length ml).2.1, [])) := by
  refine ⟨?_, ?_, ?_⟩
  · -- (a) the warning fires once, on the first update of the run
    have hu : tr.max_length < u.values.length := hall u (List.mem_cons_self u rest)
    have hvne : u.values ≠ tr.series.values :=
      values_ne_of_length_ne (by omega)
    have hne : ¬ (u.index = tr.series.index ∧ u.values = tr.series.values) :=
      fun h => hvne h.2
    have hch := update_series_changed hne
    have hg := @getDownsampled_warn { tr with series := u } hu hw
    have htoast1 : (tr.update_series u).2.2 =
        [downsampleWarningToast tr.name u.values.length tr.max_length] := by
      rw [hch.2.2.2.1]
      exact hg.1
    have hwarned1 : (tr.update_series u).2.1.been_warned = true := by
      rw [hch.2.2.1]
      exact hg.2
    have hml1 : (tr.update_series u).2.1.max_length = tr.max_length :=
      hch.2.2.2.2.2.2.2.2.2
    have hrest := runUpdates_warned rest (tr.update_series u).2.1 hwarned1
      (fun x hx => by rw [hml1]; exact hall x (List.mem_cons_of_mem _ hx))
    show (tr.update_series u).2.2 ++ (runUpdates (tr.update_series u).2.1 rest).2 = _
    rw [htoast1, hrest.1, List.append_nil]
  · -- (b) shrinking back emits nothing and resets the flag
    have hch := update_series_changed hBne
    have hg := @getDownsampled_short { trB with series := sB } hBshort
    constructor
    · rw [hch.2.2.2.1]
      exact hg.1
    · rw [hch.2.2.1, hg.2.1]
  · -- (c) raising the threshold past the length emits the notice once
    have h0 : (ml == 0) = false := by
      simp only [beq_eq_false_iff_ne, ne_eq]
      omega
    have hne' : ¬ trC.max_length = ml := by omega
    have hcond : ¬ (trC.series.values.length ≤ trC.max_length ∧
        trC.series.values.length ≤ ml) := by omega
    have hinfo : trC.max_length < trC.series.values.length ∧
        trC.series.values.length ≤ ml := ⟨hClong, hCraise⟩
    have hb := buildLineWithProps_frame ({ trC with max_length := ml } : Trace)
    have hg := @getDownsampled_short { trC with max_length := ml } hCraise
    have hres : trC.update_max_series_length ml =
        (true, ({ trC with max_length := ml } : Trace).buildLineWithProps.1,
          [noDownsampleToast trC.name] ++
            ({ trC with max_length := ml } : Trace).buildLineWithProps.2) := by
      simp only [Trace.update_max_series_length, h0, Bool.false_eq_true, if_false,
        if_neg hne', if_neg hcond, if_pos hinfo]
    have hml2 : (trC.update_max_series_length ml).2.1.max_length = ml := by
      rw [hres]
      exact hb.2.2.2.2.2.2.1
    refine ⟨by rw [hres], ?_, hml2, ?_⟩
    · rw [hres]
      show [noDownsampleToast trC.name] ++
          ({ trC with max_length := ml } : Trace).buildLineWithProps.2 = _
      rw [hb.2.2.2.2.2.2.2.2, hg.1, List.append_nil]
    · exact update_max_series_length_same h0 hml2

def c3TrFull : Trace :=
  { name := "x", series := c3Series2, df_name := none
    colour := "C0", label := "x", visible := true
    been_warned := false, max_length := 2
    line_x := [0, 10], line_y := [⟨5, 0⟩, ⟨6, 0⟩], line_label := "x"
    line_colour := "C0", step_size := 10 }

def c3SeriesB : PSeries :=
  { datetimeIndexed := true, numericDtype := true
    index := [0, 10, 20], values := [⟨7, 0⟩, ⟨8, 0⟩, ⟨9, 0⟩] }

theorem C3_hysteresis_amended_witness :
    (c3TrFull.been_warned = false ∧
     c3TrFull.series.values.length ≤ c3TrFull.max_length ∧
     (∀ s ∈ c3Series3 :: [c3SeriesB], c3TrFull.max_length < s.values.length) ∧
     ¬ (c3Series2.index = c3Trace.series.index ∧
        c3Series2.values = c3Trace.series.values) ∧
     c3Series2.values.length ≤ c3Trace.max_length ∧
     0 < 5 ∧ c3Trace.max_length < c3Trace.series.values.length ∧
     c3Trace.series.values.length ≤ 5) ∧
    (((runUpdates c3TrFull (c3Series3 :: [c3SeriesB])).2 =
      [downsampleWarningToast c3TrFull.name c3Series3.values.length c3TrFull.max_length]) ∧
     ((c3Trace.update_series c3Series2).2.2 = [] ∧
      (c3Trace.update_series c3Series2).2.1.been_warned = false) ∧
     ((c3Trace.update_max_series_length 5).1 = true ∧
      (c3Trace.update_max_series_length 5).2.2 = [noDownsampleToast c3Trace.name] ∧
      (c3Trace.update_max_series_length 5).2.1.max_length = 5 ∧
      (c3Trace.update_max_series_length 5).2.1.update_max_series_length 5 =
        (false, (c3Trace.update_max_series_length 5).2.1, []))) :=
  ⟨by decide,
   C3_hysteresis_amended c3TrFull c3Series3 [c3SeriesB] (by decide) (by decide)
     (by decide) c3Trace c3Series2 (by decide) (by decide) c3Trace 5 (by decide)
     (by decide) (by decide)⟩

/-! ## Association-list dictionary lemmas -/

theorem dictLookup_cons {α : Type} (m : String) (p : String × α) (d : Dict α) :
    dictLookup m (p :: d) = if p.1 = m then some p.2 else dictLookup m d := rfl

theorem dictLookup_mem {α : Type} {k : String} {v : α} {d : Dict α}
    (h : dictLookup k d = some v) : (k, v) ∈ d := by
  induction d with
  | nil => simp [dictLookup] at h
  | cons p rest ih =>
    obtain ⟨p1, p2⟩ := p
    rw [dictLookup_cons] at h
    by_cases hp : p1 = k
    · rw [if_pos hp] at h
      injection h with h2
      rw [← hp, ← h2]
      exact List.mem_cons_self _ _
    · rw [if_neg hp] at h
      exact List.mem_cons_of_mem _ (ih h)

theorem dictLookup_dictSet {α : Type} (m k : String) (v : α) (d : Dict α) :
    dictLookup m (dictSet k v d) =
      if m = k then (dictLookup m d).map (fun _ => v) else dictLookup m d := by
  induction d with
  | nil => by_cases hm : m = k <;> simp [dictSet, dictLookup, hm]
  | cons p rest ih =>
    obtain ⟨p1, p2⟩ := p
    show dictLookup m ((if p1 = k then (k, v) else (p1, p2)) :: dictSet k v rest) = _
    by_cases hp : p1 = k
    · rw [if_pos hp, dictLookup_cons]
      by_cases hm : m = k
      · rw [if_pos (show (k, v).1 = m from hm.symm), if_pos hm, dictLookup_cons,
          if_pos (hp.trans hm.symm)]
        rfl
      · rw [if_neg (show ¬ (k, v).1 = m from fun h => hm h.symm), if_neg hm, ih,
          if_neg hm, dictLookup_cons, if_neg (fun h : p1 = m => hm (h ▸ hp))]
    · rw [if_neg hp, dictLookup_cons]
      by_cases hm : p1 = m
      · rw [if_pos hm]
        by_cases hmk : m = k
        · exact absurd (hm.trans hmk) hp
        · rw [if_neg hmk, dictLookup_cons, if_pos hm]
      · rw [if_neg hm, ih, dictLookup_cons, if_neg hm]

theorem dictContains_dictSet {α : Type} (m k : String) (v : α) (d : Dict α) :
    dictContains m (dictSet k v d) = dictContains m d := by
  unfold dictContains
  rw [dictLookup_dictSet]
  by_cases hm : m = k
  · rw [if_pos hm]
    cases dictLookup m d <;> rfl
  · rw [if_neg hm]

theorem dictLookup_dictErase {α : Type} (m k : String) (d : Dict α) :
    dictLookup m (dictErase k d) = if m = k then none else dictLookup m d := by
  induction d with
  | nil => by_cases hm : m = k <;> simp [dictErase, dictLookup, hm]
  | cons p rest ih =>
    obtain ⟨p1, p2⟩ := p
    by_cases hp : p1 = k
    · rw [show dictErase k ((p1, p2) :: rest) = dictErase k rest from by
        simp [dictErase, List.filter_cons, hp], ih]
      by_cases hm : m = k
      · rw [if_pos hm, if_pos hm]
      · rw [if_neg hm, if_neg hm, dictLookup_cons,
          if_neg (fun h : p1 = m => hm (by rw [← h]; exact hp))]
    · rw [show dictErase k ((p1, p2) :: rest) = (p1, p2) :: dictErase k rest from by
        simp [dictErase, List.filter_cons, hp], dictLookup_cons]
      by_cases hm : p1 = m
      · rw [if_pos hm, if_neg (fun h : m = k => hp (by rw [hm]; exact h)),
          dictLookup_cons, if_pos hm]
      · rw [if_neg hm, ih]
        by_cases hmk : m = k
        · rw [if_pos hmk, if_pos hmk]
        · rw [if_neg hmk, if_neg hmk, dictLookup_cons, if_neg hm]

theorem dictContains_dictErase {α : Type} (m k : String) (d : Dict α) :
    dictContains m (dictErase k d) = if m = k then false else dictContains m d := by
  unfold dictContains
  rw [dictLookup_dictErase]
  by_cases hm : m = k
  · rw [if_pos hm, if_pos hm]
    rfl
  · rw [if_neg hm, if_neg hm]

theorem dictLookup_append {α : Type} (m : String) (d e : Dict α) :
    dictLookup m (d ++ e) =
      match dictLookup m d with
      | some v => some v
      | none => dictLookup m e := by
  induction d with
  | nil => simp [dictLookup]
  | cons p rest ih =>
    rw [List.cons_append, dictLookup_cons, dictLookup_cons]
    by_cases hm : p.1 = m
    · rw [if_pos hm, if_pos hm]
    · rw [if_neg hm, if_neg hm, ih]

theorem dictContains_append {α : Type} (m : String) (d e : Dict α) :
    dictContains m (d ++ e) = (dictContains m d || dictContains m e) := by
  unfold dictContains
  rw [dictLookup_append]
  cases dictLookup m d <;> simp

theorem dictContains_dictInsert {α : Type} (m k : String) (v : α) (d : Dict α) :
    dictContains m (dictInsert k v d) = (dictContains m d || m == k) := by
  unfold dictInsert
  by_cases hc : dictContains k d = true
  · rw [if_pos hc, dictContains_dictSet]
    by_cases hm : m = k
    · rw [hm, hc]
      simp
    · have hbeq : (m == k) = false := by simp [hm]
      rw [hbeq, Bool.or_false]
  · rw [if_neg hc, dictContains_append]
    have hsingle : dictContains m [(k, v)] = (m == k) := by
      show (if k = m then some v else none).isSome = (m == k)
      by_cases hm : k = m
      · rw [if_pos hm]
        simp [hm]
      · rw [if_neg hm]
        have hne : ¬ m = k := fun h => hm h.symm
        simp [hne]
    rw [hsingle]

theorem mem_listInsertSet {x y : String} {l : List String} :
    x ∈ listInsertSet y l ↔ x = y ∨ x ∈ l := by
  unfold listInsertSet
  by_cases hy : y ∈ l
  · rw [if_pos hy]
    constructor
    · exact Or.inr
    · rintro (rfl | h)
      · exact hy
      · exact h
  · rw [if_neg hy]
    simp [or_comm]

theorem mem_listRemove {x y : String} {l : List String} :
    x ∈ listRemove y l ↔ x ∈ l ∧ x ≠ y := by
  unfold listRemove
  simp

theorem mem_foldl_listInsertSet {x : String} (L : List String) :
    ∀ l : List String, x ∈ L.foldl (fun acc n => listInsertSet n acc) l ↔
      x ∈ L ∨ x ∈ l := by
  induction L with
  | nil => simp
  | cons y rest ih =>
    intro l
    rw [List.foldl_cons, ih, mem_listInsertSet]
    constructor
    · rintro (h | rfl | h)
      · exact Or.inl (List.mem_cons_of_mem _ h)
      · exact Or.inl (List.mem_cons_self _ _)
      · exact Or.inr h
    · rintro (h | h)
      · rcases List.mem_cons.mp h with rfl | h
        · exact Or.inr (Or.inl rfl)
        · exact Or.inl h
      · exact Or.inr (Or.inr h)

/-! ## `DTaler` step lemmas -/

namespace DTaler

theorem removeTrackedVar_fields (d : DTaler) (n : String) :
    (d.removeTrackedVar n).ignored = d.ignored ∧
    (d.removeTrackedVar n).frozen = d.frozen ∧
    (d.removeTrackedVar n).ignore_next = d.ignore_next ∧
    (d.removeTrackedVar n).show_next = d.show_next := by
  unfold removeTrackedVar
  cases dictLookup n d.tracked <;> exact ⟨rfl, rfl, rfl, rfl⟩

theorem removeTrackedVar_contains (d : DTaler) (n m : String) :
    dictContains m (d.removeTrackedVar n).tracked =
      if m = n then false else dictContains m d.tracked := by
  unfold removeTrackedVar
  cases hl : dictLookup n d.tracked with
  | none =>
    by_cases hm : m = n
    · subst hm
      simp [dictContains, hl]
    · rw [if_neg hm]
  | some vd =>
    show dictContains m (dictErase n d.tracked) = _
    rw [dictContains_dictErase]

theorem addTrackedVar_fields (d : DTaler) (n : String) (p : Nat) :
    (d.addTrackedVar n p).ignored = d.ignored ∧
    (d.addTrackedVar n p).frozen = d.frozen ∧
    (d.addTrackedVar n p).ignore_next = d.ignore_next ∧
    (d.addTrackedVar n p).show_next = d.show_next :=
  ⟨rfl, rfl, rfl, rfl⟩

theorem addTrackedVar_contains (d : DTaler) (n : String) (p : Nat) (m : String) :
    dictContains m (d.addTrackedVar n p).tracked =
      (dictContains m d.tracked || m == n) := by
  unfold addTrackedVar
  exact dictContains_dictInsert m n _ d.tracked

/-- Behaviour of the step-1.a fold: tracked names in the removal list are
gone, the removed names join the ignore list, intents are untouched. -/
theorem foldRemoveIgnore_spec (L : List String) :
    ∀ d : DTaler,
      (∀ x, x ∈ (L.foldl (fun acc n =>
          let acc1 := acc.removeTrackedVar n
          { acc1 with ignored := listInsertSet n acc1.ignored }) d).ignored ↔
        x ∈ L ∨ x ∈ d.ignored) ∧
      (∀ m, dictContains m (L.foldl (fun acc n =>
          let acc1 := acc.removeTrackedVar n
          { acc1 with ignored := listInsertSet n acc1.ignored }) d).tracked = true ↔
        dictContains m d.tracked = true ∧ ¬ m ∈ L) ∧
      (L.foldl (fun acc n =>
          let acc1 := acc.removeTrackedVar n
          { acc1 with ignored := listInsertSet n acc1.ignored }) d).frozen = d.frozen ∧
      (L.foldl (fun acc n =>
          let acc1 := acc.removeTrackedVar n
          { acc1 with ignored := listInsertSet n acc1.ignored }) d).ignore_next = d.ignore_next ∧
      (L.foldl (fun acc n =>
          let acc1 := acc.removeTrackedVar n
          { acc1 with ignored := listInsertSet n acc1.ignored }) d).show_next = d.show_next := by
  induction L with
  | nil =>
    intro d
    exact ⟨fun x => by simp, fun m => by simp, rfl, rfl, rfl⟩
  | cons y rest ih =>
    intro d
    rw [List.foldl_cons]
    have hf := removeTrackedVar_fields d y
    have ihd := ih { d.removeTrackedVar y with ignored := listInsertSet y (d.removeTrackedVar y).ignored }
    refine ⟨?_, ?_, ?_, ?_, ?_⟩
    · intro x
      rw [ihd.1 x]
      simp only [mem_listInsertSet, hf.1, List.mem_cons]
      tauto
    · intro m
      rw [ihd.2.1 m]
      show dictContains m (d.removeTrackedVar y).tracked = true ∧ _ ↔ _
      rw [removeTrackedVar_contains]
      by_cases hm : m = y
      · simp [hm]
      · simp only [if_neg hm, List.mem_cons]
        constructor
        · rintro ⟨h1, h2⟩
          exact ⟨h1, fun hc => by rcases hc with rfl | hc; exact hm rfl; exact h2 hc⟩
        · rintro ⟨h1, h2⟩
          exact ⟨h1, fun hc => h2 (Or.inr hc)⟩
    · rw [ihd.2.2.1]; exact hf.2.1
    · rw [ihd.2.2.2.1]; exact hf.2.2.1
    · rw [ihd.2.2.2.2]; exact hf.2.2.2

/-- Behaviour of the step-1.b fold: removals from both the tracked dict and
the ignore list, intents untouched. -/
theorem foldRemoveDrop_spec (L : List String) :
    ∀ d : DTaler,
      (∀ x, x ∈ (L.foldl (fun acc n =>
          let acc1 := acc.removeTrackedVar n
          { acc1 with ignored := listRemove n acc1.ignored }) d).ignored ↔
        x ∈ d.ignored ∧ ¬ x ∈ L) ∧
      (∀ m, dictContains m (L.foldl (fun acc n =>
          let acc1 := acc.removeTrackedVar n
          { acc1 with ignored := listRemove n acc1.ignored }) d).tracked = true ↔
        dictContains m d.tracked = true ∧ ¬ m ∈ L) ∧
      (L.foldl (fun acc n =>
          let acc1 := acc.removeTrackedVar n
          { acc1 with ignored := listRemove n acc1.ignored }) d).frozen = d.frozen ∧
      (L.foldl (fun acc n =>
          let acc1 := acc.removeTrackedVar n
          { acc1 with ignored := listRemove n acc1.ignored }) d).ignore_next = d.ignore_next ∧
      (L.foldl (fun acc n =>
          let acc1 := acc.removeTrackedVar n
          { acc1 with ignored := listRemove n acc1.ignored }) d).show_next = d.show_next := by
  induction L with
  | nil =>
    intro d
    exact ⟨fun x => by simp, fun m => by simp, rfl, rfl, rfl⟩
  | cons y rest ih =>
    intro d
    rw [List.foldl_cons]
    have hf := removeTrackedVar_fields d y
    have ihd := ih { d.removeTrackedVar y with ignored := listRemove y (d.removeTrackedVar y).ignored }
    refine ⟨?_, ?_, ?_, ?_, ?_⟩
    · intro x
      rw [ihd.1 x]
      show x ∈ listRemove y (d.removeTrackedVar y).ignored ∧ _ ↔ _
      rw [mem_listRemove, hf.1]
      simp only [List.mem_cons]
      constructor
      · rintro ⟨⟨h1, h2⟩, h3⟩
        exact ⟨h1, fun hc => by rcases hc with rfl | hc; exact h2 rfl; exact h3 hc⟩
      · rintro ⟨h1, h2⟩
        exact ⟨⟨h1, fun hc => h2 (Or.inl hc)⟩, fun hc => h2 (Or.inr hc)⟩
    · intro m
      rw [ihd.2.1 m]
      show dictContains m (d.removeTrackedVar y).tracked = true ∧ _ ↔ _
      rw [removeTrackedVar_contains]
      by_cases hm : m = y
      · simp [hm]
      · simp only [if_neg hm, List.mem_cons]
        constructor
        · rintro ⟨h1, h2⟩
          exact ⟨h1, fun hc => by rcases hc with rfl | hc; exact hm rfl; exact h2 hc⟩
        · rintro ⟨h1, h2⟩
          exact ⟨h1, fun hc => h2 (Or.inr hc)⟩
    · rw [ihd.2.2.1]; exact hf.2.1
    · rw [ihd.2.2.2.1]; exact hf.2.2.1
    · rw [ihd.2.2.2.2]; exact hf.2.2.2

/-- Behaviour of the step-3 fold. -/
theorem foldRemove_spec (L : List String) :
    ∀ d : DTaler,
      (L.foldl (fun acc n => acc.removeTrackedVar n) d).ignored = d.ignored ∧
      (∀ m, dictContains m (L.foldl (fun acc n => acc.removeTrackedVar n) d).tracked = true ↔
        dictContains m d.tracked = true ∧ ¬ m ∈ L) ∧
      (L.foldl (fun acc n => acc.removeTrackedVar n) d).show_next = d.show_next := by
  induction L with
  | nil =>
    intro d
    exact ⟨rfl, fun m => by simp, rfl⟩
  | cons y rest ih =>
    intro d
    rw [List.foldl_cons]
    have hf := removeTrackedVar_fields d y
    have ihd := ih (d.removeTrackedVar y)
    refine ⟨?_, ?_, ?_⟩
    · rw [ihd.1]; exact hf.1
    · intro m
      rw [ihd.2.1 m, removeTrackedVar_contains]
      by_cases hm : m = y
      · simp [hm]
      · simp only [if_neg hm, List.mem_cons]
        constructor
        · rintro ⟨h1, h2⟩
          exact ⟨h1, fun hc => by rcases hc with rfl | hc; exact hm rfl; exact h2 hc⟩
        · rintro ⟨h1, h2⟩
          exact ⟨h1, fun hc => h2 (Or.inr hc)⟩
    · rw [ihd.2.2]; exact hf.2.2.2

/-- Behaviour of the step-4 fold. -/
theorem foldAdd_spec (L : List (String × Nat)) :
    ∀ d : DTaler,
      (∀ m, dictContains m (L.foldl (fun acc nv => acc.addTrackedVar nv.1 nv.2) d).tracked = true ↔
        dictContains m d.tracked = true ∨ m ∈ L.map Prod.fst) ∧
      (L.foldl (fun acc nv => acc.addTrackedVar nv.1 nv.2) d).ignored = d.ignored ∧
      (L.foldl (fun acc nv => acc.addTrackedVar nv.1 nv.2) d).show_next = d.show_next := by
  induction L with
  | nil =>
    intro d
    exact ⟨fun m => by simp, rfl, rfl⟩
  | cons y rest ih =>
    intro d
    rw [List.foldl_cons]
    have ihd := ih (d.addTrackedVar y.1 y.2)
    refine ⟨?_, ?_, ?_⟩
    · intro m
      rw [ihd.1 m, addTrackedVar_contains]
      simp only [List.map_cons, List.mem_cons, Bool.or_eq_true, beq_iff_eq]
      tauto
    · rw [ihd.2.1]
      rfl
    · rw [ihd.2.2]
      rfl

/-- Behaviour of the step-5 fold: key set and ignore list untouched. -/
theorem foldUpdate_spec (L : DtSnapshot) :
    ∀ d : DTaler,
      (∀ m, dictContains m (dtStep5 L d).tracked = dictContains m d.tracked) ∧
      (dtStep5 L d).ignored = d.ignored ∧
      (dtStep5 L d).show_next = d.show_next := by
  induction L with
  | nil => intro d; exact ⟨fun m => rfl, rfl, rfl⟩
  | cons y rest ih =>
    intro d
    show (∀ m, dictContains m (dtStep5 rest _).tracked = _) ∧
      (dtStep5 rest _).ignored = _ ∧ (dtStep5 rest _).show_next = _
    cases hl : dictLookup y.1 d.tracked with
    | none =>
      have ihd := ih d
      simp only [hl]
      exact ihd
    | some vd =>
      by_cases hp : ¬ vd.pdf = y.2
      · have ihd := ih { d with
          tracked := dictSet y.1 ⟨y.2, vd.dataId⟩ d.tracked
          updated := d.updated ++ [vd.dataId] }
        simp only [hl, if_pos hp]
        refine ⟨?_, ihd.2.1, ihd.2.2⟩
        intro m
        rw [ihd.1 m]
        exact dictContains_dictSet m y.1 _ d.tracked
      · have ihd := ih d
        simp only [hl, if_neg hp]
        exact ihd


/-- Wrapper specs for the named step functions. -/
theorem dtStep1a_spec (d : DTaler) :
    (∀ x, x ∈ (dtStep1a d).ignored ↔ x ∈ removedInDtale d ∨ x ∈ d.ignored) ∧
    (∀ m, dictContains m (dtStep1a d).tracked = true ↔
      dictContains m d.tracked = true ∧ ¬ m ∈ removedInDtale d) ∧
    (dtStep1a d).frozen = d.frozen ∧
    (dtStep1a d).ignore_next = d.ignore_next ∧
    (dtStep1a d).show_next = d.show_next :=
  foldRemoveIgnore_spec (removedInDtale d) d

theorem dtStep1b_spec (keys : List String) (d : DTaler) :
    (∀ x, x ∈ (dtStep1b keys d).ignored ↔
      x ∈ d.ignored ∧ ¬ x ∈ ((d.ignored ++ dictKeys d.tracked).filter
        (fun n => ¬ n ∈ keys))) ∧
    (∀ m, dictContains m (dtStep1b keys d).tracked = true ↔
      dictContains m d.tracked = true ∧ ¬ m ∈ ((d.ignored ++ dictKeys d.tracked).filter
        (fun n => ¬ n ∈ keys))) ∧
    (dtStep1b keys d).frozen = d.frozen ∧
    (dtStep1b keys d).ignore_next = d.ignore_next ∧
    (dtStep1b keys d).show_next = d.show_next :=
  foldRemoveDrop_spec _ d

theorem dtStep3_spec (d : DTaler) :
    (dtStep3 d).ignored = d.ignored ∧
    (∀ m, dictContains m (dtStep3 d).tracked = true ↔
      dictContains m d.tracked = true ∧ ¬ m ∈ d.ignored) ∧
    (dtStep3 d).show_next = d.show_next :=
  foldRemove_spec d.ignored d

theorem dtStep4_spec (snap : DtSnapshot) (d : DTaler) :
    (∀ m, dictContains m (dtStep4 snap d).tracked = true ↔
      dictContains m d.tracked = true ∨
        m ∈ (snap.filter (fun nv => ¬ (dictContains nv.1 d.tracked ||
          nv.1 ∈ d.ignored))).map Prod.fst) ∧
    (dtStep4 snap d).ignored = d.ignored ∧
    (dtStep4 snap d).show_next = d.show_next :=
  foldAdd_spec _ d

/-- Behaviour of step 2: ignore-set membership after freeze auto-ignore,
pending ignores and pending shows; tracked dict untouched; intents
consumed. -/
theorem dtStep2_spec (keys : List String) (d : DTaler) :
    (∀ x, x ∈ (dtStep2 keys d).ignored ↔
      ((x ∈ d.ignored ∨
        (d.frozen = true ∧ x ∈ keys ∧ dictContains x d.tracked = false) ∨
        x ∈ d.ignore_next) ∧ ¬ x ∈ d.show_next)) ∧
    (dtStep2 keys d).tracked = d.tracked ∧
    (dtStep2 keys d).show_next = [] ∧
    (dtStep2 keys d).frozen = d.frozen := by
  by_cases hf : d.frozen = true
  · simp only [dtStep2, if_pos hf]
    refine ⟨?_, trivial, trivial, trivial⟩
    intro x
    simp only [List.mem_filter, mem_foldl_listInsertSet, decide_not,
      Bool.not_eq_true', decide_eq_false_iff_not, decide_eq_true_eq, hf,
      true_and, Bool.not_eq_true]
    tauto
  · have hfz : d.frozen = false := by
      rcases Bool.eq_false_or_eq_true d.frozen with h | h
      · exact absurd h hf
      · exact h
    simp only [dtStep2, if_neg hf]
    refine ⟨?_, trivial, trivial, trivial⟩
    intro x
    simp only [List.mem_filter, mem_foldl_listInsertSet, decide_not,
      Bool.not_eq_true', decide_eq_false_iff_not, decide_eq_true_eq, hfz,
      Bool.false_eq_true, false_and, false_or, Bool.not_eq_true]
    tauto

/-- Step 4 tracks exactly the snapshot names that are neither tracked nor
ignored (on top of the names already tracked). -/
theorem dtStep4_contains (snap : DtSnapshot) (d : DTaler) (x : String) :
    dictContains x (dtStep4 snap d).tracked = true ↔
      (dictContains x d.tracked = true ∨
       (x ∈ snap.map Prod.fst ∧ ¬ x ∈ d.ignored)) := by
  rw [(dtStep4_spec snap d).1 x]
  constructor
  · rintro (h | h)
    · exact Or.inl h
    · rw [List.mem_map] at h
      obtain ⟨nv, hnv, rfl⟩ := h
      rw [List.mem_filter] at hnv
      simp only [decide_eq_true_eq, Bool.or_eq_true, not_or, Bool.not_eq_true,
        decide_eq_true_eq] at hnv
      exact Or.inr ⟨List.mem_map_of_mem Prod.fst hnv.1, hnv.2.2⟩
  · rintro (h | ⟨hk, hni⟩)
    · exact Or.inl h
    · by_cases hc : dictContains x d.tracked = true
      · exact Or.inl hc
      · right
        rw [List.mem_map] at hk
        obtain ⟨nv, hnv, rfl⟩ := hk
        rw [List.mem_map]
        refine ⟨nv, ?_, rfl⟩
        rw [List.mem_filter]
        refine ⟨hnv, ?_⟩
        simp only [decide_eq_true_eq, Bool.or_eq_true, not_or, Bool.not_eq_true,
          decide_eq_true_eq]
        refine ⟨?_, hni⟩
        rcases Bool.eq_false_or_eq_true (dictContains nv.1 d.tracked) with h | h
        · exact absurd h hc
        · exact h

/-- A name with a pending show intent that is present in the snapshot ends
the cycle tracked and unignored ("show wins": the evaluation order is
`ignored |= ignore_next; ignored -= show_next`, then the tracking loop). -/
theorem dtaler_show_wins {d : DTaler} {snap : DtSnapshot} {x : String}
    (hshow : x ∈ d.show_next) (hsnap : x ∈ snap.map Prod.fst) :
    dictContains x (d.update_variables snap).tracked = true ∧
    ¬ x ∈ (d.update_variables snap).ignored := by
  unfold DTaler.update_variables
  have h1a := dtStep1a_spec (resetDiffs d)
  have hshow1 : x ∈ (dtStep1a (resetDiffs d)).show_next := by
    rw [h1a.2.2.2.2]
    exact hshow
  have h1b := dtStep1b_spec (snap.map Prod.fst) (dtStep1a (resetDiffs d))
  have hshow2 : x ∈ (dtStep1b (snap.map Prod.fst) (dtStep1a (resetDiffs d))).show_next := by
    rw [h1b.2.2.2.2]
    exact hshow1
  set e2 := dtStep1b (snap.map Prod.fst) (dtStep1a (resetDiffs d)) with he2
  have h2 := dtStep2_spec (snap.map Prod.fst) e2
  have hni3 : ¬ x ∈ (dtStep2 (snap.map Prod.fst) e2).ignored := by
    rw [h2.1 x]
    rintro ⟨-, hn⟩
    exact hn hshow2
  set e3 := dtStep2 (snap.map Prod.fst) e2 with he3
  have h3 := dtStep3_spec e3
  have hni4 : ¬ x ∈ (dtStep3 e3).ignored := by
    rw [h3.1]
    exact hni3
  set e4 := dtStep3 e3 with he4
  have hc5 : dictContains x (dtStep4 snap e4).tracked = true := by
    rw [dtStep4_contains]
    exact Or.inr ⟨hsnap, hni4⟩
  have hni5 : ¬ x ∈ (dtStep4 snap e4).ignored := by
    rw [(dtStep4_spec snap e4).2.1]
    exact hni4
  have h5 := foldUpdate_spec snap (dtStep4 snap e4)
  constructor
  · rw [h5.1 x]
    exact hc5
  · rw [h5.2.1]
    exact hni5

/-- Steps 1.b through 5 preserve "ignored, untracked, unrequested" for a
name the snapshot still contains. -/
theorem dtaler_tail_persists {e : DTaler} {snap : DtSnapshot} {x : String}
    (hign : x ∈ e.ignored) (htr : dictContains x e.tracked = false)
    (hshow : ¬ x ∈ e.show_next) (hsnap : x ∈ snap.map Prod.fst) :
    x ∈ (dtStep5 snap (dtStep4 snap (dtStep3 (dtStep2 (snap.map Prod.fst)
      (dtStep1b (snap.map Prod.fst) e))))).ignored ∧
    dictContains x (dtStep5 snap (dtStep4 snap (dtStep3 (dtStep2 (snap.map Prod.fst)
      (dtStep1b (snap.map Prod.fst) e))))).tracked = false ∧
    ¬ x ∈ (dtStep5 snap (dtStep4 snap (dtStep3 (dtStep2 (snap.map Prod.fst)
      (dtStep1b (snap.map Prod.fst) e))))).show_next := by
  have h1b := dtStep1b_spec (snap.map Prod.fst) e
  have hxgone : ¬ x ∈ ((e.ignored ++ dictKeys e.tracked).filter
      (fun n => ¬ n ∈ snap.map Prod.fst)) := by
    intro hx
    rw [List.mem_filter] at hx
    simp only [decide_not, Bool.not_eq_eq_eq_not, Bool.not_true,
      decide_eq_false_iff_not] at hx
    exact hx.2 hsnap
  have hign2 : x ∈ (dtStep1b (snap.map Prod.fst) e).ignored := by
    rw [h1b.1 x]
    exact ⟨hign, hxgone⟩
  have htr2 : dictContains x (dtStep1b (snap.map Prod.fst) e).tracked = false := by
    rcases Bool.eq_false_or_eq_true (dictContains x (dtStep1b (snap.map Prod.fst)
      e).tracked) with h | h
    · exfalso
      have hm := ((h1b.2.1 x).mp h).1
      rw [htr] at hm
      exact Bool.false_ne_true hm
    · exact h
  have hshow2 : ¬ x ∈ (dtStep1b (snap.map Prod.fst) e).show_next := by
    rw [h1b.2.2.2.2]
    exact hshow
  set e2 := dtStep1b (snap.map Prod.fst) e with he2
  have h2 := dtStep2_spec (snap.map Prod.fst) e2
  have hign3 : x ∈ (dtStep2 (snap.map Prod.fst) e2).ignored := by
    rw [h2.1 x]
    exact ⟨Or.inl hign2, hshow2⟩
  have htr3 : dictContains x (dtStep2 (snap.map Prod.fst) e2).tracked = false := by
    rw [h2.2.1]
    exact htr2
  set e3 := dtStep2 (snap.map Prod.fst) e2 with he3
  have h3 := dtStep3_spec e3
  have hign4 : x ∈ (dtStep3 e3).ignored := by
    rw [h3.1]
    exact hign3
  have htr4 : dictContains x (dtStep3 e3).tracked = false := by
    rcases Bool.eq_false_or_eq_true (dictContains x (dtStep3 e3).tracked) with h | h
    · exfalso
      have hm := ((h3.2.1 x).mp h).1
      rw [htr3] at hm
      exact Bool.false_ne_true hm
    · exact h
  set e4 := dtStep3 e3 with he4
  have hign5 : x ∈ (dtStep4 snap e4).ignored := by
    rw [(dtStep4_spec snap e4).2.1]
    exact hign4
  have htr5 : dictContains x (dtStep4 snap e4).tracked = false := by
    rcases Bool.eq_false_or_eq_true (dictContains x (dtStep4 snap e4).tracked) with h | h
    · exfalso
      rcases (dtStep4_contains snap e4 x).mp h with hc | ⟨-, hni⟩
      · rw [htr4] at hc
        exact Bool.false_ne_true hc
      · exact hni hign4
    · exact h
  have hshow4 : ¬ x ∈ (dtStep4 snap e4).show_next := by
    rw [(dtStep4_spec snap e4).2.2, h3.2.2, h2.2.2.1]
    exact List.not_mem_nil x
  have h5 := foldUpdate_spec snap (dtStep4 snap e4)
  refine ⟨?_, ?_, ?_⟩
  · rw [h5.2.1]
    exact hign5
  · rw [h5.1 x]
    exact htr5
  · rw [h5.2.2]
    exact hshow4

/-- An ignored, untracked name with no pending show intent stays ignored,
untracked, and unrequested across an update cycle whose snapshot still
contains it. -/
theorem dtaler_ignored_persists {d : DTaler} {snap : DtSnapshot} {x : String}
    (hign : x ∈ d.ignored) (htr : dictContains x d.tracked = false)
    (hshow : ¬ x ∈ d.show_next) (hsnap : x ∈ snap.map Prod.fst) :
    x ∈ (d.update_variables snap).ignored ∧
    dictContains x (d.update_variables snap).tracked = false ∧
    ¬ x ∈ (d.update_variables snap).show_next := by
  unfold DTaler.update_variables
  have h1a := dtStep1a_spec (resetDiffs d)
  apply dtaler_tail_persists
  · rw [h1a.1 x]
    exact Or.inr hign
  · rcases Bool.eq_false_or_eq_true (dictContains x (dtStep1a (resetDiffs d)).tracked)
      with h | h
    · exfalso
      have hm := ((h1a.2.1 x).mp h).1
      rw [show (resetDiffs d).tracked = d.tracked from rfl, htr] at hm
      exact Bool.false_ne_true hm
    · exact h
  · rw [h1a.2.2.2.2]
    exact hshow
  · exact hsnap

/-- The cycle immediately after an external dtale deletion moves the name
from tracked to ignored (and consumes no show intent for it). -/
theorem dtaler_ext_deleted_ignored {d : DTaler} {snap : DtSnapshot} {x : String}
    {vd : VarData}
    (hvd : dictLookup x d.tracked = some vd) (hdel : ¬ vd.dataId ∈ d.store.live)
    (hsnap : x ∈ snap.map Prod.fst) (hshow : ¬ x ∈ d.show_next) :
    x ∈ (d.update_variables snap).ignored ∧
    dictContains x (d.update_variables snap).tracked = false ∧
    ¬ x ∈ (d.update_variables snap).show_next := by
  unfold DTaler.update_variables
  have h1a := dtStep1a_spec (resetDiffs d)
  have hrem : x ∈ removedInDtale (resetDiffs d) := by
    unfold removedInDtale
    have hmem : (x, vd) ∈ (resetDiffs d).tracked := dictLookup_mem hvd
    refine List.mem_map_of_mem Prod.fst (List.mem_filter.mpr ⟨hmem, ?_⟩)
    simp only [decide_not, Bool.not_eq_eq_eq_not, Bool.not_true, decide_eq_false_iff_not]
    exact hdel
  apply dtaler_tail_persists
  · rw [h1a.1 x]
    exact Or.inl hrem
  · rcases Bool.eq_false_or_eq_true (dictContains x (dtStep1a (resetDiffs d)).tracked)
      with h | h
    · exfalso
      exact ((h1a.2.1 x).mp h).2 hrem
    · exact h
  · rw [h1a.2.2.2.2]
    exact hshow
  · exact hsnap

/-- A name newly appearing under freeze, with no pending show intent, ends
the cycle ignored and untracked. -/
theorem dtaler_frozen_new_ignored {d : DTaler} {snap : DtSnapshot} {m : String}
    (hf : d.frozen = true) (hm : m ∈ snap.map Prod.fst)
    (hmtr : dictContains m d.tracked = false) (hmshow : ¬ m ∈ d.show_next) :
    m ∈ (d.update_variables snap).ignored ∧
    dictContains m (d.update_variables snap).tracked = false := by
  unfold DTaler.update_variables
  have h1a := dtStep1a_spec (resetDiffs d)
  have htr1 : dictContains m (dtStep1a (resetDiffs d)).tracked = false := by
    rcases Bool.eq_false_or_eq_true (dictContains m (dtStep1a (resetDiffs d)).tracked)
      with h | h
    · exfalso
      have hmm := ((h1a.2.1 m).mp h).1
      rw [show (resetDiffs d).tracked = d.tracked from rfl, hmtr] at hmm
      exact Bool.false_ne_true hmm
    · exact h
  have hshow1 : ¬ m ∈ (dtStep1a (resetDiffs d)).show_next := by
    rw [h1a.2.2.2.2]
    exact hmshow
  have h1b := dtStep1b_spec (snap.map Prod.fst) (dtStep1a (resetDiffs d))
  have htr2 : dictContains m (dtStep1b (snap.map Prod.fst)
      (dtStep1a (resetDiffs d))).tracked = false := by
    rcases Bool.eq_false_or_eq_true (dictContains m (dtStep1b (snap.map Prod.fst)
      (dtStep1a (resetDiffs d))).tracked) with h | h
    · exfalso
      have hmm := ((h1b.2.1 m).mp h).1
      rw [htr1] at hmm
      exact Bool.false_ne_true hmm
    · exact h
  have hshow2 : ¬ m ∈ (dtStep1b (snap.map Prod.fst)
      (dtStep1a (resetDiffs d))).show_next := by
    rw [h1b.2.2.2.2]
    exact hshow1
  have hfz2 : (dtStep1b (snap.map Prod.fst) (dtStep1a (resetDiffs d))).frozen = true := by
    rw [h1b.2.2.1, h1a.2.2.1]
    exact hf
  set e2 := dtStep1b (snap.map Prod.fst) (dtStep1a (resetDiffs d)) with he2
  have h2 := dtStep2_spec (snap.map Prod.fst) e2
  have hign3 : m ∈ (dtStep2 (snap.map Prod.fst) e2).ignored := by
    rw [h2.1 m]
    exact ⟨Or.inr (Or.inl ⟨hfz2, hm, htr2⟩), hshow2⟩
  have htr3 : dictContains m (dtStep2 (snap.map Prod.fst) e2).tracked = false := by
    rw [h2.2.1]
    exact htr2
  set e3 := dtStep2 (snap.map Prod.fst) e2 with he3
  have h3 := dtStep3_spec e3
  have hign4 : m ∈ (dtStep3 e3).ignored := by
    rw [h3.1]
    exact hign3
  have htr4 : dictContains m (dtStep3 e3).tracked = false := by
    rcases Bool.eq_false_or_eq_true (dictContains m (dtStep3 e3).tracked) with h | h
    · exfalso
      have hmm := ((h3.2.1 m).mp h).1
      rw [htr3] at hmm
      exact Bool.false_ne_true hmm
    · exact h
  set e4 := dtStep3 e3 with he4
  have hign5 : m ∈ (dtStep4 snap e4).ignored := by
    rw [(dtStep4_spec snap e4).2.1]
    exact hign4
  have htr5 : dictContains m (dtStep4 snap e4).tracked = false := by
    rcases Bool.eq_false_or_eq_true (dictContains m (dtStep4 snap e4).tracked) with h | h
    · exfalso
      rcases (dtStep4_contains snap e4 m).mp h with hc | ⟨-, hni⟩
      · rw [htr4] at hc
        exact Bool.false_ne_true hc
      · exact hni hign4
    · exact h
  have h5 := foldUpdate_spec snap (dtStep4 snap e4)
  constructor
  · rw [h5.2.1]
    exact hign5
  · rw [h5.1 m]
    exact htr5

end DTaler

/-- The command/event alphabet of the dtale view between reconciliation
cycles: an update cycle, a queued ignore or show intent, or an external
deletion performed directly on the dtale backend. -/
inductive DtOp
  | cycle (snap : DtSnapshot)
  | ignoreCmd (n : String)
  | showCmd (n : String)
  | extDel (id : Nat)

def applyDtOp (d : DTaler) : DtOp → DTaler
  | DtOp.cycle snap => d.update_variables snap
  | DtOp.ignoreCmd n => d.ignore_variable n
  | DtOp.showCmd n => d.show_variable n
  | DtOp.extDel id => d.externalDelete id

/-- The side condition of the non-resurrection claim: every cycle's
namespace still supplies `x`, and no explicit show request for `x` is
issued. -/
def dtOpAvoids (x : String) : DtOp → Prop
  | DtOp.cycle snap => x ∈ snap.map Prod.fst
  | DtOp.showCmd n => ¬ n = x
  | _ => True

instance (x : String) : (op : DtOp) → Decidable (dtOpAvoids x op)
  | DtOp.cycle snap => inferInstanceAs (Decidable (x ∈ snap.map Prod.fst))
  | DtOp.ignoreCmd _ => inferInstanceAs (Decidable True)
  | DtOp.showCmd n => inferInstanceAs (Decidable (¬ n = x))
  | DtOp.extDel _ => inferInstanceAs (Decidable True)

/-- The "ignored, untracked, unrequested" invariant is preserved by every
operation that keeps the name in the namespace and issues no show for it. -/
theorem dtaler_invariant_step {x : String} {d : DTaler} (op : DtOp)
    (hP : x ∈ d.ignored ∧ dictContains x d.tracked = false ∧ ¬ x ∈ d.show_next)
    (hop : dtOpAvoids x op) :
    x ∈ (applyDtOp d op).ignored ∧
    dictContains x (applyDtOp d op).tracked = false ∧
    ¬ x ∈ (applyDtOp d op).show_next := by
  cases op with
  | cycle snap => exact DTaler.dtaler_ignored_persists hP.1 hP.2.1 hP.2.2 hop
  | ignoreCmd n => exact hP
  | showCmd n =>
    refine ⟨hP.1, hP.2.1, ?_⟩
    intro hx
    rcases List.mem_append.mp hx with hx | hx
    · exact hP.2.2 hx
    · rcases List.mem_singleton.mp hx with rfl
      exact hop rfl
  | extDel id => exact hP

theorem dtaler_invariant_fold {x : String} (ops : List DtOp) :
    ∀ d : DTaler,
      (x ∈ d.ignored ∧ dictContains x d.tracked = false ∧ ¬ x ∈ d.show_next) →
      (∀ op ∈ ops, dtOpAvoids x op) →
      x ∈ (ops.foldl applyDtOp d).ignored ∧
      dictContains x (ops.foldl applyDtOp d).tracked = false ∧
      ¬ x ∈ (ops.foldl applyDtOp d).show_next := by
  induction ops with
  | nil => intro d hP _; exact hP
  | cons op rest ih =>
    intro d hP hops
    rw [List.foldl_cons]
    exact ih (applyDtOp d op)
      (dtaler_invariant_step op hP (hops op (List.mem_cons_self op rest)))
      (fun o ho => hops o (List.mem_cons_of_mem _ ho))

/-- C5: external-store non-resurrection.  (i) After a record is deleted
externally (its data id is no longer live), the next cycle whose snapshot
still supplies the name moves it from tracked to ignored.  (ii) From an
ignored, untracked state with no pending show intent, any sequence of update
cycles (each still supplying the name), ignore intents, show intents for
other names, and further external deletions leaves the name ignored and
untracked — the unchanged namespace value never re-creates a tracked
record.  (iii) An explicit show request followed by a cycle whose snapshot
supplies the name resumes tracking. -/
theorem C5_no_resurrection
    (d : DTaler) (x : String) (vd : VarData) (snap : DtSnapshot)
    (hvd : dictLookup x d.tracked = some vd)
    (hdel : ¬ vd.dataId ∈ d.store.live)
    (hsnap : x ∈ snap.map Prod.fst)
    (hnoshow : ¬ x ∈ d.show_next)
    (e : DTaler) (ops : List DtOp)
    (he : x ∈ e.ignored ∧ dictContains x e.tracked = false ∧ ¬ x ∈ e.show_next)
    (hops : ∀ op ∈ ops, dtOpAvoids x op)
    (f : DTaler) (fsnap : DtSnapshot)
    (hfsnap : x ∈ fsnap.map Prod.fst) :
    (x ∈ (d.update_variables snap).ignored ∧
     dictContains x (d.update_variables snap).tracked = false ∧
     ¬ x ∈ (d.update_variables snap).show_next) ∧
    (x ∈ (ops.foldl applyDtOp e).ignored ∧
     dictContains x (ops.foldl applyDtOp e).tracked = false ∧
     ¬ x ∈ (ops.foldl applyDtOp e).show_next) ∧
    (dictContains x ((f.show_variable x).update_variables fsnap).tracked = true ∧
     ¬ x ∈ ((f.show_variable x).update_variables fsnap).ignored) := by
  refine ⟨DTaler.dtaler_ext_deleted_ignored hvd hdel hsnap hnoshow,
    dtaler_invariant_fold ops e he hops, ?_⟩
  apply DTaler.dtaler_show_wins _ hfsnap
  exact List.mem_append.mpr (Or.inr (List.mem_singleton.mpr rfl))

def c5State : DTaler :=
  { DTaler.init with
    tracked := [("x", ⟨7, 0⟩)]
    store := { live := [], nextId := 1 } }

def c5Snap : DtSnapshot := [("x", 7)]

theorem C5_no_resurrection_witness :
    (dictLookup "x" c5State.tracked = some ⟨7, 0⟩ ∧
     ¬ (0 : Nat) ∈ c5State.store.live ∧
     "x" ∈ c5Snap.map Prod.fst ∧
     ¬ "x" ∈ c5State.show_next ∧
     ("x" ∈ (c5State.update_variables c5Snap).ignored ∧
      dictContains "x" (c5State.update_variables c5Snap).tracked = false ∧
      ¬ "x" ∈ (c5State.update_variables c5Snap).show_next) ∧
     (∀ op ∈ [DtOp.cycle c5Snap, DtOp.extDel 3, DtOp.ignoreCmd "y",
        DtOp.showCmd "y", DtOp.cycle c5Snap], dtOpAvoids "x" op) ∧
     "x" ∈ c5Snap.map Prod.fst) ∧
    (("x" ∈ (c5State.update_variables c5Snap).ignored ∧
      dictContains "x" (c5State.update_variables c5Snap).tracked = false ∧
      ¬ "x" ∈ (c5State.update_variables c5Snap).show_next) ∧
     ("x" ∈ ([DtOp.cycle c5Snap, DtOp.extDel 3, DtOp.ignoreCmd "y",
        DtOp.showCmd "y", DtOp.cycle c5Snap].foldl applyDtOp
          (c5State.update_variables c5Snap)).ignored ∧
      dictContains "x" ([DtOp.cycle c5Snap, DtOp.extDel 3, DtOp.ignoreCmd "y",
        DtOp.showCmd "y", DtOp.cycle c5Snap].foldl applyDtOp
          (c5State.update_variables c5Snap)).tracked = false ∧
      ¬ "x" ∈ ([DtOp.cycle c5Snap, DtOp.extDel 3, DtOp.ignoreCmd "y",
        DtOp.showCmd "y", DtOp.cycle c5Snap].foldl applyDtOp
          (c5State.update_variables c5Snap)).show_next) ∧
     (dictContains "x" (((c5State.update_variables c5Snap).show_variable
        "x").update_variables c5Snap).tracked = true ∧
      ¬ "x" ∈ (((c5State.update_variables c5Snap).show_variable
        "x").update_variables c5Snap).ignored)) :=
  ⟨⟨by decide, by decide, by decide, by decide, by decide, by decide, by decide⟩,
   C5_no_resurrection c5State "x" ⟨7, 0⟩ c5Snap (by decide) (by decide) (by decide)
     (by decide) (c5State.update_variables c5Snap)
     [DtOp.cycle c5Snap, DtOp.extDel 3, DtOp.ignoreCmd "y",
      DtOp.showCmd "y", DtOp.cycle c5Snap]
     (by decide) (by decide) (c5State.update_variables c5Snap) c5Snap (by decide)⟩

/-- C6: with the view frozen, a name carrying a pending show request that is
present in the snapshot ends the cycle tracked and unignored (show wins over
freeze auto-ignore and over a same-cycle ignore request, because the shows
are subtracted from the ignore set after the freeze auto-ignore and the
pending ignores, and before the tracking loop); every other name newly
appearing in the snapshot is added to the ignore set and is not tracked. -/
theorem C6_freeze_show_precedence
    (d : DTaler) (snap : DtSnapshot) (n : String)
    (hf : d.frozen = true) (hshow : n ∈ d.show_next)
    (hsnap : n ∈ snap.map Prod.fst) :
    (dictContains n (d.update_variables snap).tracked = true ∧
     ¬ n ∈ (d.update_variables snap).ignored) ∧
    (∀ m, m ∈ snap.map Prod.fst → dictContains m d.tracked = false →
      ¬ m ∈ d.show_next →
      m ∈ (d.update_variables snap).ignored ∧
      dictContains m (d.update_variables snap).tracked = false) :=
  ⟨DTaler.dtaler_show_wins hshow hsnap,
   fun m hm hmtr hmshow => DTaler.dtaler_frozen_new_ignored hf hm hmtr hmshow⟩

def c6State : DTaler :=
  { DTaler.init with frozen := true, show_next := ["a"], ignore_next := ["a"] }

def c6Snap : DtSnapshot := [("a", 0), ("b", 1)]

theorem C6_freeze_show_precedence_witness :
    (c6State.frozen = true ∧ "a" ∈ c6State.show_next ∧
     "a" ∈ c6Snap.map Prod.fst) ∧
    ((dictContains "a" (c6State.update_variables c6Snap).tracked = true ∧
      ¬ "a" ∈ (c6State.update_variables c6Snap).ignored) ∧
     (∀ m, m ∈ c6Snap.map Prod.fst → dictContains m c6State.tracked = false →
       ¬ m ∈ c6State.show_next →
       m ∈ (c6State.update_variables c6Snap).ignored ∧
       dictContains m (c6State.update_variables c6Snap).tracked = false)) :=
  ⟨by decide, C6_freeze_show_precedence c6State c6Snap "a" (by decide) (by decide)
    (by decide)⟩

/-! ## C7: reachable states of the trace view, and its `force_shown`
invariants -/

theorem update_visible_result (tr : Trace) (b : Bool) :
    (tr.update_visible b).2.visible = b := by
  unfold Trace.update_visible
  by_cases h : tr.visible = b
  · rw [if_pos h]
    exact h
  · rw [if_neg h]

/-- The `force_shown ⊆ dom(traces)` invariant. -/
def PInv (p : Plotter) : Prop :=
  ∀ n ∈ p.force_shown, dictContains n p.traces = true

/-- The stronger `force_shown ⟹ visible` invariant, together with the
plotter never having been frozen. -/
def PVisInv (p : Plotter) : Prop :=
  p.frozen = false ∧
  ∀ n ∈ p.force_shown, ∃ tr, dictLookup n p.traces = some tr ∧ tr.visible = true

theorem PInv_update (p : Plotter) (name : String) (s : PSeries) (h : PInv p) :
    PInv (p.update_trace_series name s) := by
  unfold Plotter.update_trace_series
  cases hl : dictLookup name p.traces with
  | none => exact h
  | some tr =>
    by_cases hr : (tr.update_series s).1 = true
    · simp only [hr, if_true]
      intro x hx
      rw [dictContains_dictSet]
      exact h x hx
    · simp only [hr, if_false]
      exact h

theorem PInv_add_aux (p1 : Plotter) (name : String) (h1 : PInv p1) :
    PInv (match dictLookup name p1.traces with
          | none => p1
          | some tr =>
            let r := tr.update_visible (!p1.frozen)
            if r.1 then { p1 with traces := dictSet name r.2 p1.traces } else p1) := by
  cases hl : dictLookup name p1.traces with
  | none => exact h1
  | some tr =>
    show PInv (if (tr.update_visible (!p1.frozen)).1 = true then
      { p1 with traces := dictSet name (tr.update_visible (!p1.frozen)).2 p1.traces }
      else p1)
    by_cases hv : (tr.update_visible (!p1.frozen)).1 = true
    · rw [if_pos hv]
      intro x hx
      rw [dictContains_dictSet]
      exact h1 x hx
    · rw [if_neg hv]
      exact h1

theorem PInv_add (p : Plotter) (name : String) (s : PSeries) (df : Option String)
    (h : PInv p) : PInv (p.add_trace name s df) := by
  unfold Plotter.add_trace
  by_cases hc : dictContains name p.traces = true
  · rw [if_pos hc]
    exact fun x hx =>
      PInv_add_aux (p.update_trace_series name s) name (PInv_update p name s h) x hx
  · rw [if_neg hc]
    intro x hx
    rw [dictContains_append, h x hx]
    rfl

theorem PInv_hide (p : Plotter) (name : String) (h : PInv p) :
    PInv (p.hide_trace name) := by
  unfold Plotter.hide_trace
  cases hl : dictLookup name p.traces with
  | none => exact h
  | some tr =>
    by_cases hv : (tr.update_visible false).1 = true
    · simp only [hv, if_true]
      intro x hx
      rw [dictContains_dictSet]
      exact h x (mem_listRemove.mp hx).1
    · simp only [hv, if_false]
      exact h

theorem PInv_force_show (p : Plotter) (name : String) (h : PInv p) :
    PInv (p.force_show_trace name) := by
  unfold Plotter.force_show_trace
  cases hl : dictLookup name p.traces with
  | none => exact h
  | some tr =>
    by_cases hv : (tr.update_visible true).1 = true
    · simp only [hv, if_true]
      intro x hx
      rw [dictContains_dictSet]
      rcases mem_listInsertSet.mp hx with rfl | hx
      · unfold dictContains
        rw [hl]
        rfl
      · exact h x hx
    · simp only [hv, if_false]
      exact h

theorem PInv_freeze (p : Plotter) (h : PInv p) : PInv p.freeze := by
  unfold Plotter.freeze
  by_cases hf : p.frozen = true <;> simp only [hf, if_true, if_false] <;> exact h

theorem PInv_defrost (p : Plotter) (h : PInv p) : PInv p.defrost := by
  unfold Plotter.defrost
  by_cases hf : p.frozen = true <;> simp only [hf, if_true, if_false] <;> exact h

theorem PInv_plot (p : Plotter) (force : Bool) (h : PInv p) : PInv (p.plot force) := by
  unfold Plotter.plot
  split
  · exact h
  · exact h

theorem update_series_visible (tr : Trace) (s : PSeries) :
    (tr.update_series s).2.1.visible = tr.visible := by
  by_cases hne : s.index = tr.series.index ∧ s.values = tr.series.values
  · rw [update_series_skip hne.1 hne.2]
  · exact (update_series_changed hne).2.2.2.2.2.2.2.2.1

theorem PVis_update (p : Plotter) (name : String) (s : PSeries) (h : PVisInv p) :
    PVisInv (p.update_trace_series name s) := by
  unfold Plotter.update_trace_series
  cases hl : dictLookup name p.traces with
  | none => exact h
  | some tr =>
    by_cases hr : (tr.update_series s).1 = true
    · simp only [hr, if_true]
      refine ⟨h.1, ?_⟩
      intro x hx
      show ∃ tr', dictLookup x (dictSet name (tr.update_series s).2.1 p.traces) = some tr' ∧ _
      rw [dictLookup_dictSet]
      by_cases hxn : x = name
      · subst hxn
        obtain ⟨tr0, htr0, hvis0⟩ := h.2 x hx
        rw [if_pos rfl, hl]
        refine ⟨(tr.update_series s).2.1, rfl, ?_⟩
        rw [update_series_visible]
        rw [htr0] at hl
        injection hl with he
        rw [← he]
        exact hvis0
      · rw [if_neg hxn]
        exact h.2 x hx
    · simp only [hr, if_false]
      exact h

theorem PVis_add_aux (p1 : Plotter) (name : String) (h1 : PVisInv p1) :
    PVisInv (match dictLookup name p1.traces with
             | none => p1
             | some tr =>
               let r := tr.update_visible (!p1.frozen)
               if r.1 then { p1 with traces := dictSet name r.2 p1.traces } else p1) := by
  cases hl : dictLookup name p1.traces with
  | none => exact h1
  | some tr =>
    show PVisInv (if (tr.update_visible (!p1.frozen)).1 = true then
      { p1 with traces := dictSet name (tr.update_visible (!p1.frozen)).2 p1.traces }
      else p1)
    by_cases hv : (tr.update_visible (!p1.frozen)).1 = true
    · rw [if_pos hv]
      refine ⟨h1.1, ?_⟩
      intro x hx
      show ∃ tr', dictLookup x (dictSet name _ p1.traces) = some tr' ∧ tr'.visible = true
      rw [dictLookup_dictSet]
      by_cases hxn : x = name
      · subst hxn
        rw [if_pos rfl, hl]
        refine ⟨_, rfl, ?_⟩
        rw [update_visible_result, h1.1]
        rfl
      · rw [if_neg hxn]
        exact h1.2 x hx
    · rw [if_neg hv]
      exact h1

theorem PVis_add (p : Plotter) (name : String) (s : PSeries) (df : Option String)
    (h : PVisInv p) : PVisInv (p.add_trace name s df) := by
  unfold Plotter.add_trace
  by_cases hc : dictContains name p.traces = true
  · rw [if_pos hc]
    have haux := PVis_add_aux (p.update_trace_series name s) name (PVis_update p name s h)
    exact ⟨haux.1, haux.2⟩
  · rw [if_neg hc]
    refine ⟨h.1, ?_⟩
    intro x hx
    rw [dictLookup_append]
    obtain ⟨tr0, htr0, hvis0⟩ := h.2 x hx
    rw [htr0]
    exact ⟨tr0, rfl, hvis0⟩

theorem PVis_hide (p : Plotter) (name : String) (h : PVisInv p) :
    PVisInv (p.hide_trace name) := by
  unfold Plotter.hide_trace
  cases hl : dictLookup name p.traces with
  | none => exact h
  | some tr =>
    by_cases hv : (tr.update_visible false).1 = true
    · simp only [hv, if_true]
      refine ⟨h.1, ?_⟩
      intro x hx
      have hxm := mem_listRemove.mp hx
      rw [dictLookup_dictSet]
      rw [if_neg ?_]
      · exact h.2 x hxm.1
      · have : ¬ (tr.update_visible false).2.visible = true := by
          rw [update_visible_result]
          exact Bool.false_ne_true
        intro hxn
        exact hxm.2 hxn
    · simp only [hv, if_false]
      exact h

theorem PVis_force_show (p : Plotter) (name : String) (h : PVisInv p) :
    PVisInv (p.force_show_trace name) := by
  unfold Plotter.force_show_trace
  cases hl : dictLookup name p.traces with
  | none => exact h
  | some tr =>
    by_cases hv : (tr.update_visible true).1 = true
    · simp only [hv, if_true]
      refine ⟨h.1, ?_⟩
      intro x hx
      rw [dictLookup_dictSet]
      by_cases hxn : x = name
      · subst hxn
        rw [if_pos rfl, hl]
        exact ⟨_, rfl, update_visible_result tr true⟩
      · rw [if_neg hxn]
        rcases mem_listInsertSet.mp hx with hcon | hx
        · exact absurd hcon hxn
        · exact h.2 x hx
    · simp only [hv, if_false]
      exact h

theorem PVis_defrost (p : Plotter) (h : PVisInv p) : PVisInv p.defrost := by
  unfold Plotter.defrost
  by_cases hf : p.frozen = true <;> simp only [hf, if_true, if_false] <;>
    exact ⟨rfl, h.2⟩

theorem PVis_plot (p : Plotter) (force : Bool) (h : PVisInv p) : PVisInv (p.plot force) := by
  unfold Plotter.plot
  split
  · exact h
  · exact ⟨h.1, h.2⟩

/-- A plotter predicate preserved by the three operations a reconciliation
cycle performs on the plotter (`add_trace`, `update_trace_series`,
`hide_trace`). -/
def CycleClosed (Q : Plotter → Prop) : Prop :=
  (∀ p n s d, Q p → Q (Plotter.add_trace p n s d)) ∧
  (∀ p n s, Q p → Q (Plotter.update_trace_series p n s)) ∧
  (∀ p n, Q p → Q (Plotter.hide_trace p n))

theorem Q_deleteTrace_aux {Q : Plotter → Prop} (m1 : PlotterModel) (name : String)
    (h1 : Q m1.plotter) :
    Q (match dictLookup name m1.plotter.traces with
       | none => m1
       | some tr =>
         match tr.df_name with
         | none => m1
         | some d =>
           match dictLookup d m1.plotted_dfs with
           | none => m1
           | some mems =>
             let mems1 := listRemove name mems
             if mems1.isEmpty then { m1 with plotted_dfs := dictErase d m1.plotted_dfs }
             else { m1 with plotted_dfs := dictSet d mems1 m1.plotted_dfs }).plotter := by
  cases dictLookup name m1.plotter.traces with
  | none => exact h1
  | some tr =>
    show Q (match tr.df_name with
       | none => m1
       | some d =>
         match dictLookup d m1.plotted_dfs with
         | none => m1
         | some mems =>
           let mems1 := listRemove name mems
           if mems1.isEmpty then
             ({ m1 with plotted_dfs := dictErase d m1.plotted_dfs } : PlotterModel)
           else { m1 with plotted_dfs := dictSet d mems1 m1.plotted_dfs }).plotter
    cases tr.df_name with
    | none => exact h1
    | some d =>
      show Q (match dictLookup d m1.plotted_dfs with
         | none => m1
         | some mems =>
           let mems1 := listRemove name mems
           if mems1.isEmpty then
             ({ m1 with plotted_dfs := dictErase d m1.plotted_dfs } : PlotterModel)
           else { m1 with plotted_dfs := dictSet d mems1 m1.plotted_dfs }).plotter
      cases dictLookup d m1.plotted_dfs with
      | none => exact h1
      | some mems =>
        show Q (if (listRemove name mems).isEmpty = true then
            ({ m1 with plotted_dfs := dictErase d m1.plotted_dfs } : PlotterModel)
          else
            { m1 with plotted_dfs := dictSet d (listRemove name mems) m1.plotted_dfs }).plotter
        split
        · exact h1
        · exact h1

theorem Q_deleteTrace {Q : Plotter → Prop} (hQ : CycleClosed Q)
    (m : PlotterModel) (name : String) (h : Q m.plotter) :
    Q (m.deleteTrace name).plotter := by
  unfold PlotterModel.deleteTrace
  cases hl : dictLookup name m.plotted_dfs with
  | some mems =>
    have hfold : ∀ (L : List String) (mm : PlotterModel), Q mm.plotter →
        Q ((L.foldl (fun (acc : PlotterModel) (sn : String) =>
          { acc with
            plotter := acc.plotter.hide_trace sn
            series_dict := dictErase sn acc.series_dict }) mm)).plotter := by
      intro L
      induction L with
      | nil => intro mm hmm; exact hmm
      | cons a rest ih =>
        intro mm hmm
        exact ih _ (hQ.2.2 _ _ hmm)
    exact hfold mems m h
  | none =>
    exact Q_deleteTrace_aux _ name (hQ.2.2 _ _ h)

/-- The plotter component of the group-bookkeeping step at the head of
`_update_trace_if_changed` is untouched. -/
theorem updateTrace_m1_plotter (m : PlotterModel) (name d : String) :
    (match dictLookup d m.plotted_dfs with
     | some mems =>
       ({ m with plotted_dfs := dictSet d (listInsertSet name mems) m.plotted_dfs }
         : PlotterModel)
     | none =>
       if dictContains d m.series_dict then m
       else { m with plotted_dfs := m.plotted_dfs ++ [(d, [name])] }).plotter
      = m.plotter := by
  cases dictLookup d m.plotted_dfs with
  | some mems => rfl
  | none =>
    show (if dictContains d m.series_dict = true then m
      else ({ m with plotted_dfs := m.plotted_dfs ++ [(d, [name])] }
        : PlotterModel)).plotter = m.plotter
    split
    · rfl
    · rfl

theorem Q_updateTraceIfChanged_aux {Q : Plotter → Prop} (hQ : CycleClosed Q)
    (m1 : PlotterModel) (name : String) (series : PSeries) (df_name : Option String)
    (h1 : Q m1.plotter) :
    Q (if dictContains name m1.series_dict then
        ({ m1 with
           series_dict := dictSet name series m1.series_dict
           plotter := m1.plotter.update_trace_series name series } : PlotterModel)
      else
        { m1 with
          series_dict := m1.series_dict ++ [(name, series)]
          plotter := m1.plotter.add_trace name series df_name }).plotter := by
  split
  · exact hQ.2.1 _ _ _ h1
  · exact hQ.1 _ _ _ _ h1

theorem Q_updateTraceIfChanged {Q : Plotter → Prop} (hQ : CycleClosed Q)
    (m : PlotterModel) (name : String) (series : PSeries) (df_name : Option String)
    (h : Q m.plotter) :
    Q (m.updateTraceIfChanged name series df_name).plotter := by
  unfold PlotterModel.updateTraceIfChanged
  cases df_name with
  | none => exact Q_updateTraceIfChanged_aux hQ m name series none h
  | some d =>
    exact Q_updateTraceIfChanged_aux hQ
      (match dictLookup d m.plotted_dfs with
       | some mems =>
         { m with plotted_dfs := dictSet d (listInsertSet name mems) m.plotted_dfs }
       | none =>
         if dictContains d m.series_dict then m
         else { m with plotted_dfs := m.plotted_dfs ++ [(d, [name])] })
      name series (some d) ((updateTrace_m1_plotter m name d).symm ▸ h)

theorem Q_addTraceForSeries {Q : Plotter → Prop} (hQ : CycleClosed Q)
    (m : PlotterModel) (name : String) (var : PObj) (h : Q m.plotter) :
    Q ((m.addTraceForSeries name var).2).plotter := by
  unfold PlotterModel.addTraceForSeries
  cases var with
  | series s =>
    show Q ((if isPlottableSeries s = true then
        ((true,
          (if dictContains name m.plotted_dfs then m.deleteTrace name
           else m).updateTraceIfChanged name s none) : Bool × PlotterModel)
      else (false, m)).2).plotter
    split
    · show Q ((if dictContains name m.plotted_dfs = true then m.deleteTrace name
        else m).updateTraceIfChanged name s none).plotter
      have hm1 : Q (if dictContains name m.plotted_dfs = true then m.deleteTrace name
          else m).plotter := by
        split
        · exact Q_deleteTrace hQ _ _ h
        · exact h
      exact Q_updateTraceIfChanged hQ _ _ _ _ hm1
    · exact h
  | dataframe cols => exact h
  | other => exact h

theorem Q_dfFold {Q : Plotter → Prop} (hQ : CycleClosed Q) (name : String)
    (L : List (String × PSeries)) :
    ∀ mm : PlotterModel, Q mm.plotter →
    Q ((L.foldl
      (fun (acc : PlotterModel) (cs : String × PSeries) =>
        let sname := compositeName name cs.1
        let acc1 := { acc with ns_with_series := listInsertSet sname acc.ns_with_series }
        if isPlottableSeries cs.2 then acc1.updateTraceIfChanged sname cs.2 (some name)
        else if dictContains sname acc1.series_dict then acc1.deleteTrace sname
        else acc1) mm)).plotter := by
  induction L with
  | nil => intro mm hmm; exact hmm
  | cons c rest ih =>
    intro mm hmm
    rw [List.foldl_cons]
    apply ih
    show Q (if isPlottableSeries c.2 = true then
        ({ mm with ns_with_series :=
            listInsertSet (compositeName name c.1) mm.ns_with_series }
          : PlotterModel).updateTraceIfChanged (compositeName name c.1) c.2 (some name)
      else if dictContains (compositeName name c.1)
          ({ mm with ns_with_series :=
              listInsertSet (compositeName name c.1) mm.ns_with_series }
            : PlotterModel).series_dict = true then
        ({ mm with ns_with_series :=
            listInsertSet (compositeName name c.1) mm.ns_with_series }
          : PlotterModel).deleteTrace (compositeName name c.1)
      else { mm with ns_with_series :=
          listInsertSet (compositeName name c.1) mm.ns_with_series }).plotter
    split
    · exact Q_updateTraceIfChanged hQ _ _ _ _ hmm
    · split
      · exact Q_deleteTrace hQ _ _ hmm
      · exact hmm

theorem Q_addTracesForDataframe {Q : Plotter → Prop} (hQ : CycleClosed Q)
    (m : PlotterModel) (name : String) (var : PObj) (h : Q m.plotter) :
    Q ((m.addTracesForDataframe name var).2).plotter := by
  unfold PlotterModel.addTracesForDataframe
  cases var with
  | series s => exact h
  | other => exact h
  | dataframe cols =>
    have hinit : Q (if dictContains name m.series_dict = true then m.deleteTrace name
        else m).plotter := by
      split
      · exact Q_deleteTrace hQ _ _ h
      · exact h
    exact Q_dfFold hQ name cols _ hinit

theorem Q_addVarStep_aux {Q : Plotter → Prop} (hQ : CycleClosed Q)
    (m1 : PlotterModel) (nv : String × PObj) (h1 : Q m1.plotter) :
    Q (let r := m1.addTraceForSeries nv.1 nv.2
       if r.1 then r.2
       else
         let r2 := m1.addTracesForDataframe nv.1 nv.2
         if r2.1 then r2.2
         else if dictContains nv.1 m1.series_dict || dictContains nv.1 m1.plotted_dfs then
           m1.deleteTrace nv.1
         else m1).plotter := by
  show Q (if (m1.addTraceForSeries nv.1 nv.2).1 = true then
      (m1.addTraceForSeries nv.1 nv.2).2
    else if (m1.addTracesForDataframe nv.1 nv.2).1 = true then
      (m1.addTracesForDataframe nv.1 nv.2).2
    else if (dictContains nv.1 m1.series_dict || dictContains nv.1 m1.plotted_dfs)
        = true then
      m1.deleteTrace nv.1
    else m1).plotter
  split
  · exact Q_addTraceForSeries hQ _ _ _ h1
  · split
    · exact Q_addTracesForDataframe hQ _ _ _ h1
    · split
      · exact Q_deleteTrace hQ _ _ h1
      · exact h1

theorem Q_addVarStep {Q : Plotter → Prop} (hQ : CycleClosed Q)
    (m : PlotterModel) (nv : String × PObj) (h : Q m.plotter) :
    Q (m.addVarStep nv).plotter := by
  unfold PlotterModel.addVarStep
  exact Q_addVarStep_aux hQ
    { m with ns_with_series := listInsertSet nv.1 m.ns_with_series } nv h

theorem Q_addPass {Q : Plotter → Prop} (hQ : CycleClosed Q)
    (m : PlotterModel) (snap : Snapshot) (h : Q m.plotter) :
    Q (m.addPass snap).plotter := by
  unfold PlotterModel.addPass
  have hfold : ∀ (L : Snapshot) (mm : PlotterModel), Q mm.plotter →
      Q ((L.foldl PlotterModel.addVarStep mm)).plotter := by
    intro L
    induction L with
    | nil => intro mm hmm; exact hmm
    | cons nv rest ih =>
      intro mm hmm
      exact ih _ (Q_addVarStep hQ _ _ hmm)
  exact hfold snap _ h

theorem Q_hidePass {Q : Plotter → Prop} (hQ : CycleClosed Q)
    (m : PlotterModel) (h : Q m.plotter) :
    Q m.hidePass.plotter := by
  unfold PlotterModel.hidePass
  have hfold : ∀ (L : List String) (mm : PlotterModel), Q mm.plotter →
      Q ((L.foldl (fun (acc : PlotterModel) (n : String) => acc.deleteTrace n)
        mm)).plotter := by
    intro L
    induction L with
    | nil => intro mm hmm; exact hmm
    | cons n rest ih =>
      intro mm hmm
      exact ih _ (Q_deleteTrace hQ _ _ hmm)
  exact hfold _ m h

theorem Q_cycle {Q : Plotter → Prop} (hQ : CycleClosed Q)
    (m : PlotterModel) (snap : Snapshot) (h : Q m.plotter) :
    Q (m.update_variables snap).plotter :=
  Q_hidePass hQ _ (Q_addPass hQ _ snap h)

/-- The reachable states of the trace view through the public operations
named by the claim: add trace, update, hide, force-show, freeze/defrost,
and full update cycles (plus the draw step).  The Boolean index records
whether the `freeze` operation is permitted. -/
inductive PReachF : Bool → PlotterModel → Prop
  | init (allow : Bool) : PReachF allow PlotterModel.init
  | add_trace {allow : Bool} {m : PlotterModel} (h : PReachF allow m)
      (name : String) (s : PSeries) (df : Option String) :
      PReachF allow { m with plotter := m.plotter.add_trace name s df }
  | update {allow : Bool} {m : PlotterModel} (h : PReachF allow m)
      (name : String) (s : PSeries) :
      PReachF allow { m with plotter := m.plotter.update_trace_series name s }
  | hide {allow : Bool} {m : PlotterModel} (h : PReachF allow m) (name : String) :
      PReachF allow { m with plotter := m.plotter.hide_trace name }
  | force_show {allow : Bool} {m : PlotterModel} (h : PReachF allow m) (name : String) :
      PReachF allow { m with plotter := m.plotter.force_show_trace name }
  | freezeStep {m : PlotterModel} (h : PReachF true m) :
      PReachF true { m with plotter := m.plotter.freeze }
  | defrostStep {allow : Bool} {m : PlotterModel} (h : PReachF allow m) :
      PReachF allow { m with plotter := m.plotter.defrost }
  | cycle {allow : Bool} {m : PlotterModel} (h : PReachF allow m) (snap : Snapshot) :
      PReachF allow (m.update_variables snap)
  | drawStep {allow : Bool} {m : PlotterModel} (h : PReachF allow m) (force : Bool) :
      PReachF allow (m.draw force)

theorem PInv_cycleClosed : CycleClosed PInv :=
  ⟨fun p n s d => PInv_add p n s d, fun p n s => PInv_update p n s,
   fun p n => PInv_hide p n⟩

theorem PVis_cycleClosed : CycleClosed PVisInv :=
  ⟨fun p n s d => PVis_add p n s d, fun p n s => PVis_update p n s,
   fun p n => PVis_hide p n⟩

theorem PInv_init : PInv PlotterModel.init.plotter := by
  intro n hn
  exact absurd hn (List.not_mem_nil n)

theorem PVis_init : PVisInv PlotterModel.init.plotter := by
  refine ⟨rfl, ?_⟩
  intro n hn
  exact absurd hn (List.not_mem_nil n)

theorem PInv_reachableAux {allow : Bool} {m : PlotterModel} (h : PReachF allow m) :
    allow = true → PInv m.plotter := by
  induction h with
  | init => intro _; exact PInv_init
  | add_trace h name s df ih => intro ha; exact PInv_add _ name s df (ih ha)
  | update h name s ih => intro ha; exact PInv_update _ name s (ih ha)
  | hide h name ih => intro ha; exact PInv_hide _ name (ih ha)
  | force_show h name ih => intro ha; exact PInv_force_show _ name (ih ha)
  | freezeStep h ih => intro ha; exact PInv_freeze _ (ih rfl)
  | defrostStep h ih => intro ha; exact PInv_defrost _ (ih ha)
  | cycle h snap ih => intro ha; exact Q_cycle PInv_cycleClosed _ snap (ih ha)
  | drawStep h force ih => intro ha; exact PInv_plot _ force (ih ha)

theorem PVis_reachableAux {allow : Bool} {m : PlotterModel} (h : PReachF allow m) :
    allow = false → PVisInv m.plotter := by
  induction h with
  | init => intro _; exact PVis_init
  | add_trace h name s df ih => intro ha; exact PVis_add _ name s df (ih ha)
  | update h name s ih => intro ha; exact PVis_update _ name s (ih ha)
  | hide h name ih => intro ha; exact PVis_hide _ name (ih ha)
  | force_show h name ih => intro ha; exact PVis_force_show _ name (ih ha)
  | freezeStep h ih => intro ha; exact absurd ha (by decide)
  | defrostStep h ih => intro ha; exact PVis_defrost _ (ih ha)
  | cycle h snap ih => intro ha; exact Q_cycle PVis_cycleClosed _ snap (ih ha)
  | drawStep h force ih => intro ha; exact PVis_plot _ force (ih ha)

theorem PInv_reachable {m : PlotterModel} (h : PReachF true m) : PInv m.plotter :=
  PInv_reachableAux h rfl

theorem PVis_reachable {m : PlotterModel} (h : PReachF false m) : PVisInv m.plotter :=
  PVis_reachableAux h rfl

/-- A length-2 series used to exercise the force-show/freeze interaction. -/
def c7Series : PSeries :=
  { datetimeIndexed := true, numericDtype := true
    index := [0, 1], values := [⟨0, 0⟩, ⟨1, 0⟩] }

def c7m1 : PlotterModel :=
  { PlotterModel.init with
    plotter := PlotterModel.init.plotter.add_trace "x" c7Series none }

def c7m2 : PlotterModel :=
  { c7m1 with plotter := c7m1.plotter.hide_trace "x" }

def c7m3 : PlotterModel :=
  { c7m2 with plotter := c7m2.plotter.force_show_trace "x" }

def c7m4 : PlotterModel :=
  { c7m3 with plotter := c7m3.plotter.freeze }

/-- Add a trace, hide it, force-show it, freeze the plot, then re-add the
same name: the existing-trace path of `add_trace` calls
`update_visible(not frozen)` and never removes the name from
`force_shown`. -/
def c7Bad : PlotterModel :=
  { c7m4 with plotter := c7m4.plotter.add_trace "x" c7Series none }

theorem c7Bad_reach : PReachF true c7Bad :=
  PReachF.add_trace
    (PReachF.freezeStep
      (PReachF.force_show
        (PReachF.hide
          (PReachF.add_trace (PReachF.init true) "x" c7Series none) "x") "x"))
    "x" c7Series none

/-- A freeze-free run: add a trace, hide it, force-show it. -/
def c7Good : PlotterModel :=
  { c7m2 with plotter := c7m2.plotter.force_show_trace "x" }

theorem c7Good_reach : PReachF false c7Good :=
  PReachF.force_show
    (PReachF.hide
      (PReachF.add_trace (PReachF.init false) "x" c7Series none) "x") "x"

/-- C7 (counterexample): the state reached by add "x" → hide "x" →
force-show "x" → freeze → add "x" again is reachable through the claim's
public operations, yet "x" is in `force_shown` while its trace's `visible`
flag is `False`: the existing-trace branch of `Plotter.add_trace` sets
visibility to `not self._frozen` without removing the name from
`_force_shown`, so `forceShown ⟹ visible` fails once `freeze` is in play. -/
theorem C7_force_shown_counterexample :
    PReachF true c7Bad ∧ ("x" ∈ c7Bad.plotter.force_shown ∧
      Option.map Trace.visible (dictLookup "x" c7Bad.plotter.traces) = some false) :=
  ⟨c7Bad_reach, by decide⟩

/-- C7 (amended): at every state reachable through the public operations
without `freeze`, every name in `force_shown` refers to a trace whose
`visible` flag is true; when `freeze` is allowed, only the weaker invariant
holds that every `force_shown` name still refers to an existing trace. -/
theorem C7_force_shown_amended :
    (∀ m : PlotterModel, PReachF false m →
      ∀ n ∈ m.plotter.force_shown,
        ∃ tr, dictLookup n m.plotter.traces = some tr ∧ tr.visible = true) ∧
    (∀ m : PlotterModel, PReachF true m →
      ∀ n ∈ m.plotter.force_shown, dictContains n m.plotter.traces = true) :=
  ⟨fun m h n hn => (PVis_reachable h).2 n hn,
   fun m h n hn => PInv_reachable h n hn⟩

/-- C7 amended-theorem witness at the concrete freeze-free state `c7Good`
and the concrete frozen state `c7Bad`. -/
theorem C7_force_shown_amended_witness :
    (∃ tr, dictLookup "x" c7Good.plotter.traces = some tr ∧ tr.visible = true) ∧
    dictContains "x" c7Bad.plotter.traces = true :=
  ⟨C7_force_shown_amended.1 c7Good c7Good_reach "x" (by decide),
   C7_force_shown_amended.2 c7Bad c7Bad_reach "x" (by decide)⟩

/-! ## C10: the frame of a series update, and hidden traces staying hidden -/

theorem dictSet_keys {α : Type} (k : String) (v : α) (d : Dict α) :
    (dictSet k v d).map Prod.fst = d.map Prod.fst := by
  induction d with
  | nil => rfl
  | cons p rest ih =>
    show (((if p.1 = k then (k, v) else p) :: dictSet k v rest).map Prod.fst) =
      (p :: rest).map Prod.fst
    rw [List.map_cons, List.map_cons, ih]
    by_cases hp : p.1 = k
    · rw [if_pos hp, hp]
    · rw [if_neg hp]

theorem dictLookup_none_not_mem {α : Type} {k : String} {d : Dict α}
    (h : dictLookup k d = none) : k ∉ d.map Prod.fst := by
  induction d with
  | nil => intro hx; exact absurd hx (List.not_mem_nil k)
  | cons p rest ih =>
    rw [dictLookup_cons] at h
    by_cases hp : p.1 = k
    · rw [if_pos hp] at h
      exact absurd h (by simp)
    · rw [if_neg hp] at h
      intro hx
      rw [List.map_cons] at hx
      rcases List.mem_cons.mp hx with he | hx2
      · exact hp he.symm
      · exact ih h hx2

theorem dictLookup_of_mem_nodup {α : Type} {k : String} {v : α} {d : Dict α}
    (hmem : (k, v) ∈ d) (hnd : (d.map Prod.fst).Nodup) : dictLookup k d = some v := by
  induction d with
  | nil => exact absurd hmem (List.not_mem_nil _)
  | cons p rest ih =>
    obtain ⟨p1, p2⟩ := p
    rw [List.map_cons, List.nodup_cons] at hnd
    rcases List.mem_cons.mp hmem with he | hmem2
    · injection he with h1 h2
      rw [dictLookup_cons, if_pos h1.symm, h2]
    · rw [dictLookup_cons]
      by_cases hp : p1 = k
      · have hk : p1 ∈ rest.map Prod.fst := by
          rw [hp]
          exact List.mem_map.mpr ⟨(k, v), hmem2, rfl⟩
        exact absurd hk hnd.1
      · rw [if_neg hp]
        exact ih hmem2 hnd.2

theorem hidden_of_map {o : Option Trace}
    (h : Option.map Trace.visible o = some false) :
    ∃ tr, o = some tr ∧ tr.visible = false := by
  cases o with
  | none => exact absurd h (by simp)
  | some tr =>
    refine ⟨tr, rfl, ?_⟩
    have h2 : some tr.visible = some false := h
    injection h2

/-- `Trace.update_series` leaves every display attribute other than the
series, the line data, `_been_warned` and `_step_size` unchanged. -/
theorem update_series_frame (tr : Trace) (s : PSeries) :
    (tr.update_series s).2.1.name = tr.name ∧
    (tr.update_series s).2.1.df_name = tr.df_name ∧
    (tr.update_series s).2.1.colour = tr.colour ∧
    (tr.update_series s).2.1.label = tr.label ∧
    (tr.update_series s).2.1.visible = tr.visible ∧
    (tr.update_series s).2.1.max_length = tr.max_length := by
  by_cases hne : s.index = tr.series.index ∧ s.values = tr.series.values
  · rw [update_series_skip hne.1 hne.2]
    exact ⟨rfl, rfl, rfl, rfl, rfl, rfl⟩
  · have h := update_series_changed hne
    exact ⟨h.2.2.2.2.1, h.2.2.2.2.2.1, h.2.2.2.2.2.2.1, h.2.2.2.2.2.2.2.1,
      h.2.2.2.2.2.2.2.2.1, h.2.2.2.2.2.2.2.2.2⟩

/-- `Plotter.update_trace_series` leaves `force_shown`, `frozen`, the
trace-key set and every other trace untouched, and preserves the updated
trace's visibility, colour and label. -/
theorem update_trace_series_frame (p : Plotter) (name : String) (s : PSeries) :
    (p.update_trace_series name s).force_shown = p.force_shown ∧
    (p.update_trace_series name s).frozen = p.frozen ∧
    (p.update_trace_series name s).max_series_length = p.max_series_length ∧
    (p.update_trace_series name s).traces.map Prod.fst = p.traces.map Prod.fst ∧
    (∀ n, n ≠ name →
      dictLookup n (p.update_trace_series name s).traces = dictLookup n p.traces) ∧
    Option.map Trace.visible (dictLookup name (p.update_trace_series name s).traces) =
      Option.map Trace.visible (dictLookup name p.traces) ∧
    Option.map Trace.colour (dictLookup name (p.update_trace_series name s).traces) =
      Option.map Trace.colour (dictLookup name p.traces) ∧
    Option.map Trace.label (dictLookup name (p.update_trace_series name s).traces) =
      Option.map Trace.label (dictLookup name p.traces) := by
  unfold Plotter.update_trace_series
  cases hl : dictLookup name p.traces with
  | none =>
    refine ⟨rfl, rfl, rfl, rfl, fun n _ => rfl, ?_, ?_, ?_⟩
    · show Option.map Trace.visible (dictLookup name p.traces)
        = Option.map Trace.visible none
      rw [hl]
    · show Option.map Trace.colour (dictLookup name p.traces)
        = Option.map Trace.colour none
      rw [hl]
    · show Option.map Trace.label (dictLookup name p.traces)
        = Option.map Trace.label none
      rw [hl]
  | some tr =>
    by_cases hr : (tr.update_series s).1 = true
    · simp only [hr, if_true]
      refine ⟨trivial, trivial, trivial, dictSet_keys _ _ _, ?_, ?_, ?_, ?_⟩
      · intro n hn
        rw [dictLookup_dictSet, if_neg hn]
      · rw [dictLookup_dictSet, if_pos rfl, hl]
        show some ((tr.update_series s).2.1.visible) = some tr.visible
        rw [update_series_visible]
      · rw [dictLookup_dictSet, if_pos rfl, hl]
        show some ((tr.update_series s).2.1.colour) = some tr.colour
        rw [(update_series_frame tr s).2.2.1]
      · rw [dictLookup_dictSet, if_pos rfl, hl]
        show some ((tr.update_series s).2.1.label) = some tr.label
        rw [(update_series_frame tr s).2.2.2.1]
    · simp only [hr, Bool.false_eq_true, if_false]
      refine ⟨trivial, trivial, trivial, trivial, fun n hn => trivial, ?_, ?_, ?_⟩
      · rw [hl]
      · rw [hl]
      · rw [hl]

/-- A named trace exists and is hidden. -/
def hiddenTrace (x : String) (p : Plotter) : Prop :=
  ∃ tr, dictLookup x p.traces = some tr ∧ tr.visible = false

/-- The trace dict has no duplicate keys (true of every reachable plotter:
`add_trace` appends only after a containment check). -/
def tracesNodup (p : Plotter) : Prop :=
  (p.traces.map Prod.fst).Nodup

theorem update_trace_series_hidden (p : Plotter) (n x : String) (s : PSeries)
    (h : hiddenTrace x p) : hiddenTrace x (p.update_trace_series n s) := by
  by_cases hxn : x = n
  · subst hxn
    obtain ⟨tr, hl, hv⟩ := h
    have hm := (update_trace_series_frame p x s).2.2.2.2.2.1
    rw [hl] at hm
    have hm2 : Option.map Trace.visible
        (dictLookup x (p.update_trace_series x s).traces) = some false := by
      rw [hm]
      show some tr.visible = some false
      rw [hv]
    exact hidden_of_map hm2
  · obtain ⟨tr, hl, hv⟩ := h
    exact ⟨tr, by rw [(update_trace_series_frame p n s).2.2.2.2.1 x hxn]; exact hl, hv⟩

theorem update_trace_series_nodup (p : Plotter) (n : String) (s : PSeries)
    (h : tracesNodup p) : tracesNodup (p.update_trace_series n s) := by
  unfold tracesNodup
  rw [(update_trace_series_frame p n s).2.2.2.1]
  exact h

theorem hide_trace_hidden (p : Plotter) (n x : String) (h : hiddenTrace x p) :
    hiddenTrace x (p.hide_trace n) := by
  unfold Plotter.hide_trace
  cases hl : dictLookup n p.traces with
  | none => exact h
  | some tr =>
    show hiddenTrace x (if (tr.update_visible false).1 = true then
        { p with
          traces := dictSet n (tr.update_visible false).2 p.traces
          force_shown := listRemove n p.force_shown
          changed := true }
      else p)
    by_cases hv : (tr.update_visible false).1 = true
    · rw [if_pos hv]
      obtain ⟨tr', hl', hv'⟩ := h
      by_cases hxn : x = n
      · subst hxn
        rw [hl'] at hl
        injection hl with he
        rw [← he] at hv
        unfold Trace.update_visible at hv
        rw [if_pos hv'] at hv
        exact Bool.noConfusion (show false = true from hv)
      · exact ⟨tr', by rw [dictLookup_dictSet, if_neg hxn]; exact hl', hv'⟩
    · rw [if_neg hv]
      exact h

theorem hide_trace_nodup (p : Plotter) (n : String) (h : tracesNodup p) :
    tracesNodup (p.hide_trace n) := by
  unfold Plotter.hide_trace
  cases hl : dictLookup n p.traces with
  | none => exact h
  | some tr =>
    show tracesNodup (if (tr.update_visible false).1 = true then
        { p with
          traces := dictSet n (tr.update_visible false).2 p.traces
          force_shown := listRemove n p.force_shown
          changed := true }
      else p)
    by_cases hv : (tr.update_visible false).1 = true
    · rw [if_pos hv]
      show ((dictSet n (tr.update_visible false).2 p.traces).map Prod.fst).Nodup
      rw [dictSet_keys]
      exact h
    · rw [if_neg hv]
      exact h

theorem add_trace_hidden_aux {x : String} (p1 : Plotter) (n : String) (hne : x ≠ n)
    (h1 : hiddenTrace x p1) :
    hiddenTrace x (match dictLookup n p1.traces with
      | none => p1
      | some tr =>
        let r := tr.update_visible (!p1.frozen)
        if r.1 then { p1 with traces := dictSet n r.2 p1.traces } else p1) := by
  cases dictLookup n p1.traces with
  | none => exact h1
  | some tr =>
    show hiddenTrace x (if (tr.update_visible (!p1.frozen)).1 = true then
        { p1 with traces := dictSet n (tr.update_visible (!p1.frozen)).2 p1.traces }
      else p1)
    by_cases hv : (tr.update_visible (!p1.frozen)).1 = true
    · rw [if_pos hv]
      obtain ⟨tr', hl', hv'⟩ := h1
      exact ⟨tr', by rw [dictLookup_dictSet, if_neg hne]; exact hl', hv'⟩
    · rw [if_neg hv]
      exact h1

theorem add_trace_hidden (p : Plotter) (n x : String) (s : PSeries)
    (df : Option String) (hne : x ≠ n) (h : hiddenTrace x p) :
    hiddenTrace x (p.add_trace n s df) := by
  unfold Plotter.add_trace
  by_cases hc : dictContains n p.traces = true
  · rw [if_pos hc]
    exact add_trace_hidden_aux (p.update_trace_series n s) n hne
      (update_trace_series_hidden p n x s h)
  · rw [if_neg hc]
    obtain ⟨tr', hl', hv'⟩ := h
    refine ⟨tr', ?_, hv'⟩
    show dictLookup x (p.traces ++
      [(n, (Trace.init n s p.traces.length p.max_series_length (!p.frozen) df).1)])
      = some tr'
    rw [dictLookup_append, hl']

theorem add_trace_nodup_aux (p1 : Plotter) (n : String) (h1 : tracesNodup p1) :
    tracesNodup (match dictLookup n p1.traces with
      | none => p1
      | some tr =>
        let r := tr.update_visible (!p1.frozen)
        if r.1 then { p1 with traces := dictSet n r.2 p1.traces } else p1) := by
  cases dictLookup n p1.traces with
  | none => exact h1
  | some tr =>
    show tracesNodup (if (tr.update_visible (!p1.frozen)).1 = true then
        { p1 with traces := dictSet n (tr.update_visible (!p1.frozen)).2 p1.traces }
      else p1)
    by_cases hv : (tr.update_visible (!p1.frozen)).1 = true
    · rw [if_pos hv]
      show ((dictSet n (tr.update_visible (!p1.frozen)).2 p1.traces).map Prod.fst).Nodup
      rw [dictSet_keys]
      exact h1
    · rw [if_neg hv]
      exact h1

theorem add_trace_nodup (p : Plotter) (n : String) (s : PSeries) (df : Option String)
    (h : tracesNodup p) : tracesNodup (p.add_trace n s df) := by
  unfold Plotter.add_trace
  by_cases hc : dictContains n p.traces = true
  · rw [if_pos hc]
    exact add_trace_nodup_aux (p.update_trace_series n s) n
      (update_trace_series_nodup p n s h)
  · rw [if_neg hc]
    show ((p.traces ++
      [(n, (Trace.init n s p.traces.length p.max_series_length (!p.frozen) df).1)]).map
        Prod.fst).Nodup
    rw [List.map_append, List.nodup_append]
    refine ⟨h, List.nodup_singleton _, ?_⟩
    intro a ha hb
    have hb2 : a ∈ [n] := hb
    rw [List.mem_singleton] at hb2
    subst hb2
    have hnone : dictLookup a p.traces = none := by
      cases hlk : dictLookup a p.traces with
      | none => rfl
      | some v =>
        exact absurd (show dictContains a p.traces = true by
          unfold dictContains
          rw [hlk]
          rfl) hc
    exact dictLookup_none_not_mem hnone ha

/-- The invariant that keeps a trace hidden across reconciliation cycles:
the trace exists and is hidden, the trace keys are duplicate-free, the name
is tracked in `series_dict`, and no plotted dataframe lists the name as one
of its member series. -/
def HiddenInv (x : String) (m : PlotterModel) : Prop :=
  hiddenTrace x m.plotter ∧
  tracesNodup m.plotter ∧
  dictContains x m.series_dict = true ∧
  ∀ d mems, dictLookup d m.plotted_dfs = some mems → x ∉ mems

theorem deleteTrace_hiddenInv_aux {x : String} (m1 : PlotterModel) (n : String)
    (hh : hiddenTrace x m1.plotter) (hnd : tracesNodup m1.plotter)
    (hsd : dictContains x m1.series_dict = true)
    (hpdfs : ∀ d mems, dictLookup d m1.plotted_dfs = some mems → x ∉ mems) :
    HiddenInv x (match dictLookup n m1.plotter.traces with
       | none => m1
       | some tr =>
         match tr.df_name with
         | none => m1
         | some d =>
           match dictLookup d m1.plotted_dfs with
           | none => m1
           | some mems =>
             let mems1 := listRemove n mems
             if mems1.isEmpty then { m1 with plotted_dfs := dictErase d m1.plotted_dfs }
             else { m1 with plotted_dfs := dictSet d mems1 m1.plotted_dfs }) := by
  cases dictLookup n m1.plotter.traces with
  | none => exact ⟨hh, hnd, hsd, hpdfs⟩
  | some tr =>
    show HiddenInv x (match tr.df_name with
       | none => m1
       | some d =>
         match dictLookup d m1.plotted_dfs with
         | none => m1
         | some mems =>
           let mems1 := listRemove n mems
           if mems1.isEmpty then
             ({ m1 with plotted_dfs := dictErase d m1.plotted_dfs } : PlotterModel)
           else { m1 with plotted_dfs := dictSet d mems1 m1.plotted_dfs })
    cases tr.df_name with
    | none => exact ⟨hh, hnd, hsd, hpdfs⟩
    | some d =>
      show HiddenInv x (match dictLookup d m1.plotted_dfs with
         | none => m1
         | some mems =>
           let mems1 := listRemove n mems
           if mems1.isEmpty then
             ({ m1 with plotted_dfs := dictErase d m1.plotted_dfs } : PlotterModel)
           else { m1 with plotted_dfs := dictSet d mems1 m1.plotted_dfs })
      cases hld : dictLookup d m1.plotted_dfs with
      | none => exact ⟨hh, hnd, hsd, hpdfs⟩
      | some mems =>
        have hxm : x ∉ mems := hpdfs d mems hld
        show HiddenInv x (if (listRemove n mems).isEmpty = true then
            ({ m1 with plotted_dfs := dictErase d m1.plotted_dfs } : PlotterModel)
          else
            { m1 with plotted_dfs := dictSet d (listRemove n mems) m1.plotted_dfs })
        by_cases he : (listRemove n mems).isEmpty = true
        · rw [if_pos he]
          refine ⟨hh, hnd, hsd, ?_⟩
          intro d' mems' hd'
          have hd2 : dictLookup d' (dictErase d m1.plotted_dfs) = some mems' := hd'
          rw [dictLookup_dictErase] at hd2
          by_cases hdd : d' = d
          · rw [if_pos hdd] at hd2
            exact Option.noConfusion hd2
          · rw [if_neg hdd] at hd2
            exact hpdfs d' mems' hd2
        · rw [if_neg he]
          refine ⟨hh, hnd, hsd, ?_⟩
          intro d' mems' hd'
          have hd2 : dictLookup d' (dictSet d (listRemove n mems) m1.plotted_dfs)
              = some mems' := hd'
          rw [dictLookup_dictSet] at hd2
          by_cases hdd : d' = d
          · rw [if_pos hdd, hdd, hld] at hd2
            have hd3 : some (listRemove n mems) = some mems' := hd2
            injection hd3 with hme
            rw [← hme]
            intro hx2
            exact hxm (mem_listRemove.mp hx2).1
          · rw [if_neg hdd] at hd2
            exact hpdfs d' mems' hd2

theorem deleteTrace_hiddenInv {x : String} (m : PlotterModel) (n : String)
    (hok : n = x → dictContains x m.plotted_dfs = true)
    (h : HiddenInv x m) : HiddenInv x (m.deleteTrace n) := by
  unfold PlotterModel.deleteTrace
  cases hl : dictLookup n m.plotted_dfs with
  | some mems =>
    have hxm : x ∉ mems := h.2.2.2 n mems hl
    have hfold : ∀ (L : List String), (∀ a ∈ L, a ≠ x) → ∀ mm : PlotterModel,
        hiddenTrace x mm.plotter ∧ tracesNodup mm.plotter ∧
          dictContains x mm.series_dict = true →
        (hiddenTrace x ((L.foldl (fun (acc : PlotterModel) (sn : String) =>
            { acc with
              plotter := acc.plotter.hide_trace sn
              series_dict := dictErase sn acc.series_dict }) mm)).plotter ∧
         tracesNodup ((L.foldl (fun (acc : PlotterModel) (sn : String) =>
            { acc with
              plotter := acc.plotter.hide_trace sn
              series_dict := dictErase sn acc.series_dict }) mm)).plotter ∧
         dictContains x ((L.foldl (fun (acc : PlotterModel) (sn : String) =>
            { acc with
              plotter := acc.plotter.hide_trace sn
              series_dict := dictErase sn acc.series_dict }) mm)).series_dict = true) ∧
        ((L.foldl (fun (acc : PlotterModel) (sn : String) =>
            { acc with
              plotter := acc.plotter.hide_trace sn
              series_dict := dictErase sn acc.series_dict }) mm)).plotted_dfs
          = mm.plotted_dfs := by
      intro L
      induction L with
      | nil => intro _ mm hmm; exact ⟨hmm, rfl⟩
      | cons a rest ih =>
        intro hL mm hmm
        have ha : a ≠ x := hL a (List.mem_cons_self a rest)
        exact ih (fun b hb => hL b (List.mem_cons_of_mem _ hb)) _
          ⟨hide_trace_hidden mm.plotter a x hmm.1,
           hide_trace_nodup mm.plotter a hmm.2.1,
           by
             show dictContains x (dictErase a mm.series_dict) = true
             rw [dictContains_dictErase, if_neg (fun hxa => ha hxa.symm)]
             exact hmm.2.2⟩
    obtain ⟨⟨hh2, hnd2, hsd2⟩, hpd2⟩ :=
      hfold mems (fun a ha hax => hxm (hax ▸ ha)) m ⟨h.1, h.2.1, h.2.2.1⟩
    refine ⟨hh2, hnd2, hsd2, ?_⟩
    intro d' mems' hd'
    have hd2 : dictLookup d' (dictErase n m.plotted_dfs) = some mems' := by
      rw [← hpd2]
      exact hd'
    rw [dictLookup_dictErase] at hd2
    by_cases hdn : d' = n
    · rw [if_pos hdn] at hd2
      exact Option.noConfusion hd2
    · rw [if_neg hdn] at hd2
      exact h.2.2.2 d' mems' hd2
  | none =>
    have hnx : n ≠ x := by
      intro he
      have hc := hok he
      unfold dictContains at hc
      rw [← he, hl] at hc
      exact Bool.noConfusion (show false = true from hc)
    exact deleteTrace_hiddenInv_aux
      { m with
        plotter := m.plotter.hide_trace n
        series_dict := dictErase n m.series_dict } n
      (hide_trace_hidden m.plotter n x h.1)
      (hide_trace_nodup m.plotter n h.2.1)
      (by
        show dictContains x (dictErase n m.series_dict) = true
        rw [dictContains_dictErase, if_neg (fun hxn => hnx hxn.symm)]
        exact h.2.2.1)
      h.2.2.2

theorem updateTraceIfChanged_hiddenInv_aux {x : String} (m1 : PlotterModel)
    (name : String) (series : PSeries) (df_name : Option String)
    (h1 : HiddenInv x m1) :
    HiddenInv x (if dictContains name m1.series_dict then
        ({ m1 with
           series_dict := dictSet name series m1.series_dict
           plotter := m1.plotter.update_trace_series name series } : PlotterModel)
      else
        { m1 with
          series_dict := m1.series_dict ++ [(name, series)]
          plotter := m1.plotter.add_trace name series df_name }) := by
  by_cases hc : dictContains name m1.series_dict = true
  · rw [if_pos hc]
    exact ⟨update_trace_series_hidden m1.plotter name x series h1.1,
      update_trace_series_nodup m1.plotter name series h1.2.1,
      by
        show dictContains x (dictSet name series m1.series_dict) = true
        rw [dictContains_dictSet]
        exact h1.2.2.1,
      h1.2.2.2⟩
  · rw [if_neg hc]
    have hne : x ≠ name := fun he => hc (he ▸ h1.2.2.1)
    exact ⟨add_trace_hidden m1.plotter name x series df_name hne h1.1,
      add_trace_nodup m1.plotter name series df_name h1.2.1,
      by
        show dictContains x (m1.series_dict ++ [(name, series)]) = true
        rw [dictContains_append, h1.2.2.1]
        rfl,
      h1.2.2.2⟩

theorem updateTraceIfChanged_m1_inv {x : String} (m : PlotterModel) (name d : String)
    (hnd : name ≠ x) (h : HiddenInv x m) :
    HiddenInv x (match dictLookup d m.plotted_dfs with
     | some mems =>
       ({ m with plotted_dfs := dictSet d (listInsertSet name mems) m.plotted_dfs }
         : PlotterModel)
     | none =>
       if dictContains d m.series_dict then m
       else { m with plotted_dfs := m.plotted_dfs ++ [(d, [name])] }) := by
  cases hld : dictLookup d m.plotted_dfs with
  | some mems =>
    refine ⟨h.1, h.2.1, h.2.2.1, ?_⟩
    intro d' mems' hd'
    have hd2 : dictLookup d' (dictSet d (listInsertSet name mems) m.plotted_dfs)
        = some mems' := hd'
    rw [dictLookup_dictSet] at hd2
    by_cases hdd : d' = d
    · rw [if_pos hdd, hdd, hld] at hd2
      have hd3 : some (listInsertSet name mems) = some mems' := hd2
      injection hd3 with hme
      rw [← hme]
      intro hx2
      rcases mem_listInsertSet.mp hx2 with he2 | hx3
      · exact hnd he2.symm
      · exact h.2.2.2 d mems hld hx3
    · rw [if_neg hdd] at hd2
      exact h.2.2.2 d' mems' hd2
  | none =>
    show HiddenInv x (if dictContains d m.series_dict = true then m
      else ({ m with plotted_dfs := m.plotted_dfs ++ [(d, [name])] } : PlotterModel))
    by_cases hc : dictContains d m.series_dict = true
    · rw [if_pos hc]
      exact h
    · rw [if_neg hc]
      refine ⟨h.1, h.2.1, h.2.2.1, ?_⟩
      intro d' mems' hd'
      have hd2 : dictLookup d' (m.plotted_dfs ++ [(d, [name])]) = some mems' := hd'
      rw [dictLookup_append] at hd2
      cases hl2 : dictLookup d' m.plotted_dfs with
      | some v =>
        rw [hl2] at hd2
        have hd3 : some v = some mems' := hd2
        injection hd3 with hme
        rw [← hme]
        exact h.2.2.2 d' v hl2
      | none =>
        rw [hl2] at hd2
        have hd3 : (if d = d' then some [name] else none) = some mems' := hd2
        by_cases hdd : d = d'
        · rw [if_pos hdd] at hd3
          injection hd3 with hme
          rw [← hme]
          intro hx2
          rw [List.mem_singleton] at hx2
          exact hnd hx2.symm
        · rw [if_neg hdd] at hd3
          exact Option.noConfusion hd3

theorem updateTraceIfChanged_hiddenInv {x : String} (m : PlotterModel)
    (name : String) (series : PSeries) (df_name : Option String)
    (hxdf : name = x → df_name = none)
    (h : HiddenInv x m) :
    HiddenInv x (m.updateTraceIfChanged name series df_name) := by
  unfold PlotterModel.updateTraceIfChanged
  cases df_name with
  | none => exact updateTraceIfChanged_hiddenInv_aux m name series none h
  | some d =>
    have hnd : name ≠ x := fun he => Option.noConfusion (hxdf he)
    exact updateTraceIfChanged_hiddenInv_aux
      (match dictLookup d m.plotted_dfs with
       | some mems =>
         { m with plotted_dfs := dictSet d (listInsertSet name mems) m.plotted_dfs }
       | none =>
         if dictContains d m.series_dict then m
         else { m with plotted_dfs := m.plotted_dfs ++ [(d, [name])] })
      name series (some d)
      (updateTraceIfChanged_m1_inv m name d hnd h)

theorem addTraceForSeries_consumes (m : PlotterModel) (n : String) (s : PSeries)
    (hp : isPlottableSeries s = true) :
    (m.addTraceForSeries n (PObj.series s)).1 = true := by
  unfold PlotterModel.addTraceForSeries
  show ((if isPlottableSeries s = true then
      ((true, (if dictContains n m.plotted_dfs then m.deleteTrace n
        else m).updateTraceIfChanged n s none) : Bool × PlotterModel)
    else (false, m)).1) = true
  rw [if_pos hp]

theorem addTraceForSeries_hiddenInv {x : String} (m : PlotterModel) (n : String)
    (v : PObj) (h : HiddenInv x m) : HiddenInv x (m.addTraceForSeries n v).2 := by
  unfold PlotterModel.addTraceForSeries
  cases v with
  | series s =>
    show HiddenInv x ((if isPlottableSeries s = true then
        ((true, (if dictContains n m.plotted_dfs then m.deleteTrace n
          else m).updateTraceIfChanged n s none) : Bool × PlotterModel)
      else (false, m)).2)
    by_cases hp : isPlottableSeries s = true
    · rw [if_pos hp]
      show HiddenInv x ((if dictContains n m.plotted_dfs then m.deleteTrace n
        else m).updateTraceIfChanged n s none)
      have hm1 : HiddenInv x (if dictContains n m.plotted_dfs then m.deleteTrace n
          else m) := by
        by_cases hc : dictContains n m.plotted_dfs = true
        · rw [if_pos hc]
          exact deleteTrace_hiddenInv m n (fun he => he ▸ hc) h
        · rw [if_neg hc]
          exact h
      exact updateTraceIfChanged_hiddenInv _ n s none (fun _ => rfl) hm1
    · rw [if_neg hp]
      exact h
  | dataframe cols => exact h
  | other => exact h

theorem dfFold_hiddenInv {x : String} (name : String) (L : List (String × PSeries)) :
    ∀ mm : PlotterModel, (∀ c ∈ L, compositeName name c.1 ≠ x) → HiddenInv x mm →
    HiddenInv x ((L.foldl
      (fun (acc : PlotterModel) (cs : String × PSeries) =>
        let sname := compositeName name cs.1
        let acc1 := { acc with ns_with_series := listInsertSet sname acc.ns_with_series }
        if isPlottableSeries cs.2 then acc1.updateTraceIfChanged sname cs.2 (some name)
        else if dictContains sname acc1.series_dict then acc1.deleteTrace sname
        else acc1) mm)) := by
  induction L with
  | nil => intro mm _ hmm; exact hmm
  | cons c rest ih =>
    intro mm hcols hmm
    rw [List.foldl_cons]
    have hcx : compositeName name c.1 ≠ x := hcols c (List.mem_cons_self _ _)
    apply ih _ (fun a ha => hcols a (List.mem_cons_of_mem _ ha))
    show HiddenInv x (if isPlottableSeries c.2 = true then
        ({ mm with ns_with_series :=
            listInsertSet (compositeName name c.1) mm.ns_with_series }
          : PlotterModel).updateTraceIfChanged (compositeName name c.1) c.2 (some name)
      else if dictContains (compositeName name c.1)
          ({ mm with ns_with_series :=
              listInsertSet (compositeName name c.1) mm.ns_with_series }
            : PlotterModel).series_dict = true then
        ({ mm with ns_with_series :=
            listInsertSet (compositeName name c.1) mm.ns_with_series }
          : PlotterModel).deleteTrace (compositeName name c.1)
      else { mm with ns_with_series :=
          listInsertSet (compositeName name c.1) mm.ns_with_series })
    have hmm1 : HiddenInv x ({ mm with
        ns_with_series := listInsertSet (compositeName name c.1) mm.ns_with_series }
      : PlotterModel) := hmm
    by_cases hp : isPlottableSeries c.2 = true
    · rw [if_pos hp]
      exact updateTraceIfChanged_hiddenInv _ _ _ _ (fun he => absurd he hcx) hmm1
    · rw [if_neg hp]
      by_cases hc : dictContains (compositeName name c.1)
          ({ mm with
            ns_with_series := listInsertSet (compositeName name c.1) mm.ns_with_series }
            : PlotterModel).series_dict = true
      · rw [if_pos hc]
        exact deleteTrace_hiddenInv _ _ (fun he => absurd he hcx) hmm1
      · rw [if_neg hc]
        exact hmm1

theorem addTracesForDataframe_hiddenInv {x : String} (m : PlotterModel) (n : String)
    (v : PObj)
    (hdf : ∀ cols, v = PObj.dataframe cols →
      n ≠ x ∧ ∀ c ∈ cols, compositeName n c.1 ≠ x)
    (h : HiddenInv x m) : HiddenInv x (m.addTracesForDataframe n v).2 := by
  unfold PlotterModel.addTracesForDataframe
  cases v with
  | series s => exact h
  | other => exact h
  | dataframe cols =>
    obtain ⟨hnx, hcols⟩ := hdf cols rfl
    have hm1 : HiddenInv x (if dictContains n m.series_dict = true then m.deleteTrace n
        else m) := by
      by_cases hc : dictContains n m.series_dict = true
      · rw [if_pos hc]
        exact deleteTrace_hiddenInv m n (fun he => absurd he hnx) h
      · rw [if_neg hc]
        exact h
    exact dfFold_hiddenInv n cols _ hcols hm1

/-- One snapshot entry is safe for the hidden name `x`: any value bound to
`x` itself is a plottable Series, and no dataframe entry produces composite
column name `x`. -/
def snapEntryOK (x : String) (nv : String × PObj) : Prop :=
  (nv.1 = x → ∃ s, nv.2 = PObj.series s ∧ isPlottableSeries s = true) ∧
  (∀ cols, nv.2 = PObj.dataframe cols →
    nv.1 ≠ x ∧ ∀ c ∈ cols, compositeName nv.1 c.1 ≠ x)

def SnapOK (x : String) (snap : Snapshot) : Prop :=
  ∀ nv ∈ snap, snapEntryOK x nv

theorem addVarStep_hiddenInv_aux {x : String} (m1 : PlotterModel)
    (nv : String × PObj) (hok : snapEntryOK x nv) (h1 : HiddenInv x m1) :
    HiddenInv x (let r := m1.addTraceForSeries nv.1 nv.2
       if r.1 then r.2
       else
         let r2 := m1.addTracesForDataframe nv.1 nv.2
         if r2.1 then r2.2
         else if dictContains nv.1 m1.series_dict || dictContains nv.1 m1.plotted_dfs then
           m1.deleteTrace nv.1
         else m1) := by
  show HiddenInv x (if (m1.addTraceForSeries nv.1 nv.2).1 = true then
      (m1.addTraceForSeries nv.1 nv.2).2
    else if (m1.addTracesForDataframe nv.1 nv.2).1 = true then
      (m1.addTracesForDataframe nv.1 nv.2).2
    else if (dictContains nv.1 m1.series_dict || dictContains nv.1 m1.plotted_dfs)
        = true then
      m1.deleteTrace nv.1
    else m1)
  by_cases h1c : (m1.addTraceForSeries nv.1 nv.2).1 = true
  · rw [if_pos h1c]
    exact addTraceForSeries_hiddenInv m1 nv.1 nv.2 h1
  · rw [if_neg h1c]
    have hnvx : nv.1 ≠ x := by
      intro he
      obtain ⟨s, hs, hps⟩ := hok.1 he
      exact h1c (by rw [hs]; exact addTraceForSeries_consumes m1 nv.1 s hps)
    by_cases h2c : (m1.addTracesForDataframe nv.1 nv.2).1 = true
    · rw [if_pos h2c]
      exact addTracesForDataframe_hiddenInv m1 nv.1 nv.2 hok.2 h1
    · rw [if_neg h2c]
      by_cases h3c : (dictContains nv.1 m1.series_dict ||
          dictContains nv.1 m1.plotted_dfs) = true
      · rw [if_pos h3c]
        exact deleteTrace_hiddenInv m1 nv.1 (fun he => absurd he hnvx) h1
      · rw [if_neg h3c]
        exact h1

theorem addVarStep_hiddenInv {x : String} (m : PlotterModel) (nv : String × PObj)
    (hok : snapEntryOK x nv) (h : HiddenInv x m) : HiddenInv x (m.addVarStep nv) := by
  unfold PlotterModel.addVarStep
  exact addVarStep_hiddenInv_aux
    { m with ns_with_series := listInsertSet nv.1 m.ns_with_series } nv hok h

theorem addPass_hiddenInv {x : String} (m : PlotterModel) (snap : Snapshot)
    (hs : SnapOK x snap) (h : HiddenInv x m) : HiddenInv x (m.addPass snap) := by
  unfold PlotterModel.addPass
  have hfold : ∀ (L : Snapshot), (∀ nv ∈ L, snapEntryOK x nv) → ∀ mm : PlotterModel,
      HiddenInv x mm → HiddenInv x ((L.foldl PlotterModel.addVarStep mm)) := by
    intro L
    induction L with
    | nil => intro _ mm hmm; exact hmm
    | cons nv rest ih =>
      intro hL mm hmm
      exact ih (fun a ha => hL a (List.mem_cons_of_mem _ ha)) _
        (addVarStep_hiddenInv mm nv (hL nv (List.mem_cons_self _ _)) hmm)
  exact hfold snap hs _ h

theorem hidden_not_visible {x : String} (p : Plotter)
    (hH : hiddenTrace x p) (hnd : tracesNodup p) : x ∉ p.get_visible := by
  intro hx
  unfold Plotter.get_visible at hx
  obtain ⟨pair, hmem, hfst⟩ := List.mem_map.mp hx
  have hfil := List.mem_filter.mp hmem
  obtain ⟨tr, hl, hv⟩ := hH
  have hlk : dictLookup pair.1 p.traces = some pair.2 :=
    dictLookup_of_mem_nodup hfil.1 hnd
  rw [hfst, hl] at hlk
  injection hlk with he
  have hvt : pair.2.visible = true := hfil.2
  rw [← he, hv] at hvt
  exact Bool.noConfusion hvt

theorem hidePass_hiddenInv {x : String} (m : PlotterModel) (h : HiddenInv x m) :
    HiddenInv x m.hidePass := by
  unfold PlotterModel.hidePass
  have hfold : ∀ (L : List String), (∀ a ∈ L, a ≠ x) → ∀ mm : PlotterModel,
      HiddenInv x mm →
      HiddenInv x ((L.foldl (fun (acc : PlotterModel) (n : String) =>
        acc.deleteTrace n) mm)) := by
    intro L
    induction L with
    | nil => intro _ mm hmm; exact hmm
    | cons a rest ih =>
      intro hL mm hmm
      exact ih (fun b hb => hL b (List.mem_cons_of_mem _ hb)) _
        (deleteTrace_hiddenInv mm a
          (fun he => absurd he (hL a (List.mem_cons_self _ _))) hmm)
  show HiddenInv x (((m.plotter.get_visible).filter
      (fun n => !(n ∈ m.ns_with_series) && !(n ∈ m.plotter.force_shown))).foldl
      (fun acc n => acc.deleteTrace n) m)
  refine hfold _ ?_ m h
  intro a ha hax
  have hamem := (List.mem_filter.mp ha).1
  rw [hax] at hamem
  exact hidden_not_visible m.plotter h.1 h.2.1 hamem

theorem draw_hiddenInv {x : String} (m : PlotterModel) (force : Bool)
    (h : HiddenInv x m) : HiddenInv x (m.draw force) := by
  unfold PlotterModel.draw Plotter.plot
  split
  · exact h
  · exact h

/-- One full reconciliation cycle as run by `ViewManager.redraw`:
`update_variables` then `draw(force=False)`. -/
def cycleStep (m : PlotterModel) (snap : Snapshot) : PlotterModel :=
  (m.update_variables snap).draw false

def runCycles : PlotterModel → List Snapshot → PlotterModel
  | m, [] => m
  | m, snap :: rest => runCycles (cycleStep m snap) rest

theorem cycleStep_hiddenInv {x : String} (m : PlotterModel) (snap : Snapshot)
    (hs : SnapOK x snap) (h : HiddenInv x m) : HiddenInv x (cycleStep m snap) := by
  unfold cycleStep PlotterModel.update_variables
  exact draw_hiddenInv _ _ (hidePass_hiddenInv _ (addPass_hiddenInv m snap hs h))

theorem runCycles_hiddenInv {x : String} (snaps : List Snapshot) :
    ∀ m : PlotterModel, (∀ s ∈ snaps, SnapOK x s) → HiddenInv x m →
    HiddenInv x (runCycles m snaps) := by
  induction snaps with
  | nil => intro m _ h; exact h
  | cons snap rest ih =>
    intro m hs h
    exact ih _ (fun s hsm => hs s (List.mem_cons_of_mem _ hsm))
      (cycleStep_hiddenInv m snap (hs snap (List.mem_cons_self _ _)) h)

def c10Series3 : PSeries :=
  { datetimeIndexed := true, numericDtype := true
    index := [0, 1, 2], values := [⟨1, 0⟩, ⟨2, 0⟩, ⟨3, 0⟩] }

def c10Series2 : PSeries :=
  { datetimeIndexed := true, numericDtype := true
    index := [0, 1], values := [⟨1, 0⟩, ⟨2, 0⟩] }

/-- A hidden, previously-downsampled trace (`_been_warned = True`,
`max_length = 2`) holding a length-3 series. -/
def c10Trace : Trace :=
  { name := "x", series := c10Series3, df_name := none
    colour := "C0", label := "x", visible := false
    been_warned := true, max_length := 2
    line_x := [0, 2], line_y := [⟨1, 0⟩, ⟨3, 0⟩]
    line_label := "x", line_colour := "C0", step_size := 2 }

def c10Model : PlotterModel :=
  { plotter := { traces := [("x", c10Trace)], force_shown := [], changed := false
                 frozen := false, max_series_length := 1000, log := [] }
    series_dict := [("x", c10Series3)]
    plotted_dfs := []
    ns_with_series := ["x"] }

def c10Snap : Snapshot := [("x", PObj.series c10Series2)]

/-- C10 (counterexample): `Trace.update_series` does not modify only the
stored series, the line data and the changed flag — updating the
previously-downsampled trace `c10Trace` with a short series also flips the
`_been_warned` hysteresis flag from `True` to `False` and changes
`_step_size`. -/
theorem C10_frame_counterexample :
    c10Trace.been_warned = true ∧
    (c10Trace.update_series c10Series2).2.1.been_warned = false ∧
    c10Trace.step_size = 2 ∧
    (c10Trace.update_series c10Series2).2.1.step_size = 1 := by
  decide

/-- C10 (amended): a series update leaves the trace's visibility, colour,
label, dataframe link and length threshold unchanged (though it may also
mutate the `_been_warned` hysteresis flag and `_step_size`, beyond the
stored series, line data and changed flag); at the plotter level it
preserves `force_shown`, `frozen`, every other trace, and the updated
trace's visibility; and a hidden trace stays hidden across any number of
full reconciliation cycles provided its name keeps its plottable-Series
binding (and no dataframe column shadows it), per `HiddenInv`/`SnapOK`. -/
theorem C10_update_frame_amended :
    (∀ (tr : Trace) (s : PSeries),
      (tr.update_series s).2.1.visible = tr.visible ∧
      (tr.update_series s).2.1.colour = tr.colour ∧
      (tr.update_series s).2.1.label = tr.label ∧
      (tr.update_series s).2.1.df_name = tr.df_name ∧
      (tr.update_series s).2.1.max_length = tr.max_length) ∧
    (∀ (p : Plotter) (name : String) (s : PSeries),
      (p.update_trace_series name s).force_shown = p.force_shown ∧
      (p.update_trace_series name s).frozen = p.frozen ∧
      (∀ n, n ≠ name →
        dictLookup n (p.update_trace_series name s).traces = dictLookup n p.traces) ∧
      Option.map Trace.visible (dictLookup name (p.update_trace_series name s).traces) =
        Option.map Trace.visible (dictLookup name p.traces)) ∧
    (∀ (x : String) (m : PlotterModel) (snaps : List Snapshot),
      (∀ s ∈ snaps, SnapOK x s) → HiddenInv x m →
      ∃ tr, dictLookup x (runCycles m snaps).plotter.traces = some tr ∧
        tr.visible = false) :=
  ⟨fun tr s =>
    ⟨(update_series_frame tr s).2.2.2.2.1, (update_series_frame tr s).2.2.1,
     (update_series_frame tr s).2.2.2.1, (update_series_frame tr s).2.1,
     (update_series_frame tr s).2.2.2.2.2⟩,
   fun p name s =>
    ⟨(update_trace_series_frame p name s).1, (update_trace_series_frame p name s).2.1,
     (update_trace_series_frame p name s).2.2.2.2.1,
     (update_trace_series_frame p name s).2.2.2.2.2.1⟩,
   fun x m snaps hs h => (runCycles_hiddenInv snaps m hs h).1⟩

/-- C10 amended-theorem witness at the concrete hidden trace `c10Trace`,
model `c10Model` and one-cycle snapshot list `[c10Snap]`. -/
theorem C10_update_frame_amended_witness :
    (c10Trace.update_series c10Series2).2.1.visible = c10Trace.visible ∧
    (c10Model.plotter.update_trace_series "x" c10Series2).force_shown =
      c10Model.plotter.force_shown ∧
    ∃ tr, dictLookup "x" (runCycles c10Model [c10Snap]).plotter.traces = some tr ∧
      tr.visible = false :=
  ⟨(C10_update_frame_amended.1 c10Trace c10Series2).1,
   (C10_update_frame_amended.2.1 c10Model.plotter "x" c10Series2).1,
   C10_update_frame_amended.2.2 "x" c10Model [c10Snap]
     (fun s hs => by
        rw [List.mem_singleton] at hs
        subst hs
        intro nv hnv
        have hnv2 : nv = ("x", PObj.series c10Series2) := by
          have hm : nv ∈ [("x", PObj.series c10Series2)] := hnv
          rw [List.mem_singleton] at hm
          exact hm
        subst hnv2
        exact ⟨fun _ => ⟨c10Series2, rfl, by decide⟩,
          fun cols hc => PObj.noConfusion hc⟩)
     ⟨⟨c10Trace, rfl, rfl⟩,
      by
        show ((c10Model.plotter.traces.map Prod.fst)).Nodup
        decide,
      rfl, fun d mems hd => Option.noConfusion hd⟩⟩

/-! ## C1: idempotence of the reconciliation cycle

`Stable snap m` captures the state the first cycle leaves behind; a stable
state is a fixed point of `update_variables`/`draw` (S1), and one cycle from
any well-formed state produces a stable state (S2). -/

/-- All names an entry contributes to `ns_with_series`: the variable name
and, for a DataFrame, each composite column name. -/
def entryNames (nv : String × PObj) : List String :=
  nv.1 :: (match nv.2 with
    | PObj.dataframe cols => cols.map (fun c => compositeName nv.1 c.1)
    | _ => [])

def nsNames (snap : Snapshot) : List String :=
  (snap.map entryNames).flatten

/-- The `ns_with_series` insertions one entry performs. -/
def insertEntry (acc : List String) (nv : String × PObj) : List String :=
  match nv.2 with
  | PObj.dataframe cols =>
    cols.foldl (fun a c => listInsertSet (compositeName nv.1 c.1) a)
      (listInsertSet nv.1 acc)
  | _ => listInsertSet nv.1 acc

/-- The `ns_with_series` set rebuilt from scratch by one add pass. -/
def nsBuild (snap : Snapshot) : List String := snap.foldl insertEntry []

/-- The stored trace for `a` (if any) holds exactly the series data `s`. -/
def TraceMatches (m : PlotterModel) (a : String) (s : PSeries) : Prop :=
  ∀ tr, dictLookup a m.plotter.traces = some tr →
    s.index = tr.series.index ∧ s.values = tr.series.values

/-- The per-entry fixed-point conditions of the reconciler. -/
def EntryStable (m : PlotterModel) (nv : String × PObj) : Prop :=
  match nv.2 with
  | PObj.series s =>
    (isPlottableSeries s = true →
      dictLookup nv.1 m.series_dict = some s ∧
      dictContains nv.1 m.plotted_dfs = false ∧
      TraceMatches m nv.1 s) ∧
    (isPlottableSeries s = false →
      dictContains nv.1 m.series_dict = false ∧
      dictContains nv.1 m.plotted_dfs = false)
  | PObj.dataframe cols =>
    dictContains nv.1 m.series_dict = false ∧
    ∀ c ∈ cols,
      (isPlottableSeries c.2 = true →
        dictLookup (compositeName nv.1 c.1) m.series_dict = some c.2 ∧
        (∃ mems, dictLookup nv.1 m.plotted_dfs = some mems ∧
          compositeName nv.1 c.1 ∈ mems) ∧
        TraceMatches m (compositeName nv.1 c.1) c.2) ∧
      (isPlottableSeries c.2 = false →
        dictContains (compositeName nv.1 c.1) m.series_dict = false)
  | PObj.other =>
    dictContains nv.1 m.series_dict = false ∧
    dictContains nv.1 m.plotted_dfs = false

/-- The fixed-point description of a reconciled state. -/
def Stable (snap : Snapshot) (m : PlotterModel) : Prop :=
  m.ns_with_series = nsBuild snap ∧
  (m.series_dict.map Prod.fst).Nodup ∧
  (m.plotted_dfs.map Prod.fst).Nodup ∧
  (∀ n ∈ m.plotter.get_visible, n ∈ m.ns_with_series ∨ n ∈ m.plotter.force_shown) ∧
  ∀ nv ∈ snap, EntryStable m nv

theorem dictSet_not_mem {α : Type} {k : String} (v : α) {d : Dict α}
    (h : k ∉ d.map Prod.fst) : dictSet k v d = d := by
  induction d with
  | nil => rfl
  | cons p rest ih =>
    rw [List.map_cons, List.mem_cons] at h
    push_neg at h
    show (if p.1 = k then (k, v) else p) :: dictSet k v rest = p :: rest
    rw [if_neg (fun he => h.1 he.symm), ih h.2]

theorem dictSet_self {α : Type} {k : String} {v : α} {d : Dict α}
    (hnd : (d.map Prod.fst).Nodup) (h : dictLookup k d = some v) :
    dictSet k v d = d := by
  induction d with
  | nil => rfl
  | cons p rest ih =>
    obtain ⟨p1, p2⟩ := p
    rw [List.map_cons, List.nodup_cons] at hnd
    rw [dictLookup_cons] at h
    show (if p1 = k then (k, v) else (p1, p2)) :: dictSet k v rest = (p1, p2) :: rest
    by_cases hp : p1 = k
    · rw [if_pos hp] at h
      injection h with h2
      have h3 : p2 = v := h2
      have h4 : p1 ∉ List.map Prod.fst rest := hnd.1
      rw [if_pos hp, ← hp, ← h3, dictSet_not_mem p2 h4]
    · rw [if_neg hp] at h
      rw [if_neg hp, ih hnd.2 h]

theorem listInsertSet_mem {x : String} {l : List String} (h : x ∈ l) :
    listInsertSet x l = l := by
  unfold listInsertSet
  rw [if_pos h]

theorem filter_nil_of_false {p : String → Bool} {l : List String}
    (h : ∀ a ∈ l, p a = false) : l.filter p = [] := by
  induction l with
  | nil => rfl
  | cons a rest ih =>
    rw [List.filter_cons, h a (List.mem_cons_self _ _),
      if_neg (show ¬(false = true) by decide)]
    exact ih (fun b hb => h b (List.mem_cons_of_mem _ hb))

/-- `update_trace_series` is a no-op when the stored trace (if any) already
holds the new data. -/
theorem update_trace_series_skip (p : Plotter) (n : String) (s : PSeries)
    (h : ∀ tr, dictLookup n p.traces = some tr →
      s.index = tr.series.index ∧ s.values = tr.series.values) :
    p.update_trace_series n s = p := by
  unfold Plotter.update_trace_series
  cases hl : dictLookup n p.traces with
  | none => rfl
  | some tr =>
    have he := h tr hl
    show (if (tr.update_series s).1 = true then
        ({ p with
           traces := dictSet n (tr.update_series s).2.1 p.traces
           log := p.log ++ (tr.update_series s).2.2
           changed := if (tr.update_series s).2.1.visible then true else p.changed }
          : Plotter)
      else p) = p
    rw [update_series_skip he.1 he.2]
    rfl

/-- `_update_trace_if_changed` for a tracked standalone series with
unchanged data is the identity. -/
theorem updateTraceIfChanged_id (m : PlotterModel) (n : String) (s : PSeries)
    (hnd : (m.series_dict.map Prod.fst).Nodup)
    (hsd : dictLookup n m.series_dict = some s)
    (htr : TraceMatches m n s) :
    m.updateTraceIfChanged n s none = m := by
  unfold PlotterModel.updateTraceIfChanged
  have hc : dictContains n m.series_dict = true := by
    unfold dictContains
    rw [hsd]
    rfl
  show (if dictContains n m.series_dict then
      ({ m with
         series_dict := dictSet n s m.series_dict
         plotter := m.plotter.update_trace_series n s } : PlotterModel)
    else
      { m with
        series_dict := m.series_dict ++ [(n, s)]
        plotter := m.plotter.add_trace n s none }) = m
  rw [if_pos hc, dictSet_self hnd hsd, update_trace_series_skip m.plotter n s htr]

/-- `_update_trace_if_changed` for a tracked dataframe column with
unchanged data is the identity. -/
theorem updateTraceIfChanged_df_id (m : PlotterModel) (n sname : String)
    (s : PSeries) (mems : List String)
    (hsdnd : (m.series_dict.map Prod.fst).Nodup)
    (hpdnd : (m.plotted_dfs.map Prod.fst).Nodup)
    (hpd : dictLookup n m.plotted_dfs = some mems)
    (hmem : sname ∈ mems)
    (hsd : dictLookup sname m.series_dict = some s)
    (htr : TraceMatches m sname s) :
    m.updateTraceIfChanged sname s (some n) = m := by
  unfold PlotterModel.updateTraceIfChanged
  have hc : dictContains sname m.series_dict = true := by
    unfold dictContains
    rw [hsd]
    rfl
  have hm1 : (match dictLookup n m.plotted_dfs with
     | some mems2 =>
       ({ m with plotted_dfs := dictSet n (listInsertSet sname mems2) m.plotted_dfs }
         : PlotterModel)
     | none =>
       if dictContains n m.series_dict then m
       else { m with plotted_dfs := m.plotted_dfs ++ [(n, [sname])] }) = m := by
    rw [hpd]
    show ({ m with plotted_dfs := dictSet n (listInsertSet sname mems) m.plotted_dfs }
      : PlotterModel) = m
    rw [listInsertSet_mem hmem, dictSet_self hpdnd hpd]
  show (if dictContains sname (match dictLookup n m.plotted_dfs with
     | some mems2 =>
       ({ m with plotted_dfs := dictSet n (listInsertSet sname mems2) m.plotted_dfs }
         : PlotterModel)
     | none =>
       if dictContains n m.series_dict then m
       else { m with plotted_dfs := m.plotted_dfs ++ [(n, [sname])] }).series_dict then
      { (match dictLookup n m.plotted_dfs with
         | some mems2 =>
           ({ m with plotted_dfs := dictSet n (listInsertSet sname mems2) m.plotted_dfs }
             : PlotterModel)
         | none =>
           if dictContains n m.series_dict then m
           else { m with plotted_dfs := m.plotted_dfs ++ [(n, [sname])] }) with
        series_dict := dictSet sname s (match dictLookup n m.plotted_dfs with
         | some mems2 =>
           ({ m with plotted_dfs := dictSet n (listInsertSet sname mems2) m.plotted_dfs }
             : PlotterModel)
         | none =>
           if dictContains n m.series_dict then m
           else { m with plotted_dfs := m.plotted_dfs ++ [(n, [sname])] }).series_dict
        plotter := (match dictLookup n m.plotted_dfs with
         | some mems2 =>
           ({ m with plotted_dfs := dictSet n (listInsertSet sname mems2) m.plotted_dfs }
             : PlotterModel)
         | none =>
           if dictContains n m.series_dict then m
           else { m with plotted_dfs := m.plotted_dfs ++ [(n, [sname])] }).plotter.update_trace_series
          sname s }
    else
      { (match dictLookup n m.plotted_dfs with
         | some mems2 =>
           ({ m with plotted_dfs := dictSet n (listInsertSet sname mems2) m.plotted_dfs }
             : PlotterModel)
         | none =>
           if dictContains n m.series_dict then m
           else { m with plotted_dfs := m.plotted_dfs ++ [(n, [sname])] }) with
        series_dict := (match dictLookup n m.plotted_dfs with
         | some mems2 =>
           ({ m with plotted_dfs := dictSet n (listInsertSet sname mems2) m.plotted_dfs }
             : PlotterModel)
         | none =>
           if dictContains n m.series_dict then m
           else { m with plotted_dfs := m.plotted_dfs ++ [(n, [sname])] }).series_dict
          ++ [(sname, s)]
        plotter := (match dictLookup n m.plotted_dfs with
         | some mems2 =>
           ({ m with plotted_dfs := dictSet n (listInsertSet sname mems2) m.plotted_dfs }
             : PlotterModel)
         | none =>
           if dictContains n m.series_dict then m
           else { m with plotted_dfs := m.plotted_dfs ++ [(n, [sname])] }).plotter.add_trace
          sname s (some n) }) = m
  rw [hm1, if_pos hc, dictSet_self hsdnd hsd, update_trace_series_skip m.plotter sname s htr]

/-- The per-column fixed-point conditions for a tracked dataframe. -/
def ColOK (m : PlotterModel) (n : String) (c : String × PSeries) : Prop :=
  (isPlottableSeries c.2 = true →
    dictLookup (compositeName n c.1) m.series_dict = some c.2 ∧
    (∃ mems, dictLookup n m.plotted_dfs = some mems ∧
      compositeName n c.1 ∈ mems) ∧
    TraceMatches m (compositeName n c.1) c.2) ∧
  (isPlottableSeries c.2 = false →
    dictContains (compositeName n c.1) m.series_dict = false)

theorem bool_false_of_not_true {b : Bool} (h : ¬ b = true) : b = false := by
  cases hb : b
  · rfl
  · exact absurd hb h

theorem addTraceForSeries_series_id (m : PlotterModel) (n : String) (s : PSeries)
    (hp : isPlottableSeries s = true)
    (hnd : (m.series_dict.map Prod.fst).Nodup)
    (hsd : dictLookup n m.series_dict = some s)
    (hpd : dictContains n m.plotted_dfs = false)
    (htr : TraceMatches m n s) :
    m.addTraceForSeries n (PObj.series s) = (true, m) := by
  unfold PlotterModel.addTraceForSeries
  show (if isPlottableSeries s = true then
      ((true, (if dictContains n m.plotted_dfs then m.deleteTrace n
        else m).updateTraceIfChanged n s none) : Bool × PlotterModel)
    else (false, m)) = (true, m)
  rw [if_pos hp, hpd, if_neg (show ¬(false = true) by decide),
    updateTraceIfChanged_id m n s hnd hsd htr]

theorem addTraceForSeries_notplot (m : PlotterModel) (n : String) (s : PSeries)
    (hp : isPlottableSeries s = false) :
    m.addTraceForSeries n (PObj.series s) = (false, m) := by
  unfold PlotterModel.addTraceForSeries
  show (if isPlottableSeries s = true then
      ((true, (if dictContains n m.plotted_dfs then m.deleteTrace n
        else m).updateTraceIfChanged n s none) : Bool × PlotterModel)
    else (false, m)) = (false, m)
  rw [hp, if_neg (show ¬(false = true) by decide)]

/-- The composite-name insertion a dataframe column performs on
`ns_with_series`. -/
def colInsert (n : String) (a : List String) (c : String × PSeries) : List String :=
  listInsertSet (compositeName n c.1) a

theorem addTracesForDataframe_df_id (m : PlotterModel) (n : String)
    (cols : List (String × PSeries))
    (hsdnd : (m.series_dict.map Prod.fst).Nodup)
    (hpdnd : (m.plotted_dfs.map Prod.fst).Nodup)
    (hnsd : dictContains n m.series_dict = false)
    (hcols : ∀ c ∈ cols, ColOK m n c) :
    m.addTracesForDataframe n (PObj.dataframe cols)
      = (true, { m with ns_with_series := cols.foldl (colInsert n) m.ns_with_series }) := by
  unfold PlotterModel.addTracesForDataframe
  have hfold : ∀ (L : List (String × PSeries)), (∀ c ∈ L, ColOK m n c) →
      ∀ l : List String,
      L.foldl
        (fun (acc : PlotterModel) (cs : String × PSeries) =>
          let sname := compositeName n cs.1
          let acc1 := { acc with ns_with_series := listInsertSet sname acc.ns_with_series }
          if isPlottableSeries cs.2 then acc1.updateTraceIfChanged sname cs.2 (some n)
          else if dictContains sname acc1.series_dict then acc1.deleteTrace sname
          else acc1)
        ({ m with ns_with_series := l } : PlotterModel)
        = { m with ns_with_series := L.foldl (colInsert n) l } := by
    intro L
    induction L with
    | nil => intro _ l; rfl
    | cons c rest ih =>
      intro hL l
      have hbody : (fun (acc : PlotterModel) (cs : String × PSeries) =>
          let sname := compositeName n cs.1
          let acc1 := { acc with ns_with_series := listInsertSet sname acc.ns_with_series }
          if isPlottableSeries cs.2 then acc1.updateTraceIfChanged sname cs.2 (some n)
          else if dictContains sname acc1.series_dict then acc1.deleteTrace sname
          else acc1) ({ m with ns_with_series := l } : PlotterModel) c
          = ({ m with ns_with_series :=
              listInsertSet (compositeName n c.1) l } : PlotterModel) := by
        show (if isPlottableSeries c.2 = true then
            ({ m with ns_with_series := listInsertSet (compositeName n c.1) l }
              : PlotterModel).updateTraceIfChanged (compositeName n c.1) c.2 (some n)
          else if dictContains (compositeName n c.1) m.series_dict = true then
            ({ m with ns_with_series := listInsertSet (compositeName n c.1) l }
              : PlotterModel).deleteTrace (compositeName n c.1)
          else { m with ns_with_series := listInsertSet (compositeName n c.1) l })
          = ({ m with ns_with_series := listInsertSet (compositeName n c.1) l }
            : PlotterModel)
        obtain ⟨hcp, hcnp⟩ := hL c (List.mem_cons_self _ _)
        by_cases hp : isPlottableSeries c.2 = true
        · rw [if_pos hp]
          obtain ⟨hsd, ⟨mems, hpd, hmem⟩, htr⟩ := hcp hp
          exact updateTraceIfChanged_df_id _ n _ c.2 mems hsdnd hpdnd hpd hmem hsd htr
        · have hnp := bool_false_of_not_true hp
          rw [if_neg hp, hcnp hnp, if_neg (show ¬(false = true) by decide)]
      refine Eq.trans (congrArg (fun z => List.foldl
          (fun (acc : PlotterModel) (cs : String × PSeries) =>
            let sname := compositeName n cs.1
            let acc1 := { acc with ns_with_series := listInsertSet sname acc.ns_with_series }
            if isPlottableSeries cs.2 then acc1.updateTraceIfChanged sname cs.2 (some n)
            else if dictContains sname acc1.series_dict then acc1.deleteTrace sname
            else acc1) z rest) hbody) ?_
      exact ih (fun b hb => hL b (List.mem_cons_of_mem _ hb)) (colInsert n l c)
  show (true, cols.foldl
      (fun (acc : PlotterModel) (cs : String × PSeries) =>
        let sname := compositeName n cs.1
        let acc1 := { acc with ns_with_series := listInsertSet sname acc.ns_with_series }
        if isPlottableSeries cs.2 then acc1.updateTraceIfChanged sname cs.2 (some n)
        else if dictContains sname acc1.series_dict then acc1.deleteTrace sname
        else acc1)
      (if dictContains n m.series_dict then m.deleteTrace n else m))
    = (true, { m with ns_with_series := cols.foldl (colInsert n) m.ns_with_series })
  rw [hnsd, if_neg (show ¬(false = true) by decide)]
  have h1 : cols.foldl
      (fun (acc : PlotterModel) (cs : String × PSeries) =>
        let sname := compositeName n cs.1
        let acc1 := { acc with ns_with_series := listInsertSet sname acc.ns_with_series }
        if isPlottableSeries cs.2 then acc1.updateTraceIfChanged sname cs.2 (some n)
        else if dictContains sname acc1.series_dict then acc1.deleteTrace sname
        else acc1) m
      = { m with ns_with_series := cols.foldl (colInsert n) m.ns_with_series } :=
    hfold cols hcols m.ns_with_series
  rw [h1]

theorem addVarStep_id (m : PlotterModel) (ns0 : List String) (nv : String × PObj)
    (hsdnd : (m.series_dict.map Prod.fst).Nodup)
    (hpdnd : (m.plotted_dfs.map Prod.fst).Nodup)
    (hE : EntryStable m nv) :
    PlotterModel.addVarStep ({ m with ns_with_series := ns0 } : PlotterModel) nv
      = { m with ns_with_series := insertEntry ns0 nv } := by
  obtain ⟨n, v⟩ := nv
  unfold PlotterModel.addVarStep
  cases v with
  | series s =>
    show (if ((({ m with ns_with_series := listInsertSet n ns0 }
          : PlotterModel).addTraceForSeries n (PObj.series s)).1 = true) then
        (({ m with ns_with_series := listInsertSet n ns0 }
          : PlotterModel).addTraceForSeries n (PObj.series s)).2
      else if ((({ m with ns_with_series := listInsertSet n ns0 }
          : PlotterModel).addTracesForDataframe n (PObj.series s)).1 = true) then
        (({ m with ns_with_series := listInsertSet n ns0 }
          : PlotterModel).addTracesForDataframe n (PObj.series s)).2
      else if (dictContains n m.series_dict || dictContains n m.plotted_dfs) = true then
        ({ m with ns_with_series := listInsertSet n ns0 }
          : PlotterModel).deleteTrace n
      else { m with ns_with_series := listInsertSet n ns0 })
      = { m with ns_with_series := insertEntry ns0 (n, PObj.series s) }
    by_cases hp : isPlottableSeries s = true
    · obtain ⟨hsd, hpd, htr⟩ := hE.1 hp
      rw [addTraceForSeries_series_id
        ({ m with ns_with_series := listInsertSet n ns0 } : PlotterModel) n s hp
        hsdnd hsd hpd htr]
      rfl
    · have hnp := bool_false_of_not_true hp
      obtain ⟨hs1, hp1⟩ := hE.2 hnp
      have hno1 : ¬ ((({ m with ns_with_series := listInsertSet n ns0 }
          : PlotterModel).addTraceForSeries n (PObj.series s)).1 = true) := by
        rw [addTraceForSeries_notplot _ n s hnp]
        exact fun h => Bool.noConfusion (show false = true from h)
      have hno2 : ¬ ((({ m with ns_with_series := listInsertSet n ns0 }
          : PlotterModel).addTracesForDataframe n (PObj.series s)).1 = true) :=
        fun h => Bool.noConfusion (show false = true from h)
      rw [if_neg hno1, if_neg hno2, hs1, hp1,
        if_neg (show ¬((false || false) = true) by decide)]
      rfl
  | dataframe cols =>
    show (if ((({ m with ns_with_series := listInsertSet n ns0 }
          : PlotterModel).addTraceForSeries n (PObj.dataframe cols)).1 = true) then
        (({ m with ns_with_series := listInsertSet n ns0 }
          : PlotterModel).addTraceForSeries n (PObj.dataframe cols)).2
      else if ((({ m with ns_with_series := listInsertSet n ns0 }
          : PlotterModel).addTracesForDataframe n (PObj.dataframe cols)).1 = true) then
        (({ m with ns_with_series := listInsertSet n ns0 }
          : PlotterModel).addTracesForDataframe n (PObj.dataframe cols)).2
      else if (dictContains n m.series_dict || dictContains n m.plotted_dfs) = true then
        ({ m with ns_with_series := listInsertSet n ns0 }
          : PlotterModel).deleteTrace n
      else { m with ns_with_series := listInsertSet n ns0 })
      = { m with ns_with_series := insertEntry ns0 (n, PObj.dataframe cols) }
    have hno1 : ¬ ((({ m with ns_with_series := listInsertSet n ns0 }
        : PlotterModel).addTraceForSeries n (PObj.dataframe cols)).1 = true) :=
      fun h => Bool.noConfusion (show false = true from h)
    rw [if_neg hno1]
    have hcols : ∀ c ∈ cols,
        ColOK ({ m with ns_with_series := listInsertSet n ns0 } : PlotterModel) n c := by
      intro c hc
      have h2 := hE.2 c hc
      exact ⟨h2.1, h2.2⟩
    rw [addTracesForDataframe_df_id
      ({ m with ns_with_series := listInsertSet n ns0 } : PlotterModel) n cols
      hsdnd hpdnd hE.1 hcols]
    rfl
  | other =>
    show (if ((({ m with ns_with_series := listInsertSet n ns0 }
          : PlotterModel).addTraceForSeries n PObj.other).1 = true) then
        (({ m with ns_with_series := listInsertSet n ns0 }
          : PlotterModel).addTraceForSeries n PObj.other).2
      else if ((({ m with ns_with_series := listInsertSet n ns0 }
          : PlotterModel).addTracesForDataframe n PObj.other).1 = true) then
        (({ m with ns_with_series := listInsertSet n ns0 }
          : PlotterModel).addTracesForDataframe n PObj.other).2
      else if (dictContains n m.series_dict || dictContains n m.plotted_dfs) = true then
        ({ m with ns_with_series := listInsertSet n ns0 }
          : PlotterModel).deleteTrace n
      else { m with ns_with_series := listInsertSet n ns0 })
      = { m with ns_with_series := insertEntry ns0 (n, PObj.other) }
    have hno1 : ¬ ((({ m with ns_with_series := listInsertSet n ns0 }
        : PlotterModel).addTraceForSeries n PObj.other).1 = true) :=
      fun h => Bool.noConfusion (show false = true from h)
    have hno2 : ¬ ((({ m with ns_with_series := listInsertSet n ns0 }
        : PlotterModel).addTracesForDataframe n PObj.other).1 = true) :=
      fun h => Bool.noConfusion (show false = true from h)
    rw [if_neg hno1, if_neg hno2, hE.1, hE.2,
      if_neg (show ¬((false || false) = true) by decide)]
    rfl

theorem addPass_stable (m : PlotterModel) (snap : Snapshot)
    (hsdnd : (m.series_dict.map Prod.fst).Nodup)
    (hpdnd : (m.plotted_dfs.map Prod.fst).Nodup)
    (hE : ∀ nv ∈ snap, EntryStable m nv) :
    m.addPass snap = { m with ns_with_series := nsBuild snap } := by
  unfold PlotterModel.addPass
  have hfold : ∀ (L : Snapshot), (∀ nv ∈ L, EntryStable m nv) → ∀ ns0 : List String,
      L.foldl PlotterModel.addVarStep ({ m with ns_with_series := ns0 } : PlotterModel)
        = { m with ns_with_series := L.foldl insertEntry ns0 } := by
    intro L
    induction L with
    | nil => intro _ ns0; rfl
    | cons nv rest ih =>
      intro hL ns0
      refine Eq.trans (congrArg (fun z => List.foldl PlotterModel.addVarStep z rest)
        (addVarStep_id m ns0 nv hsdnd hpdnd (hL nv (List.mem_cons_self _ _)))) ?_
      exact ih (fun b hb => hL b (List.mem_cons_of_mem _ hb)) (insertEntry ns0 nv)
  exact hfold snap hE []

theorem hidePass_id (m : PlotterModel)
    (hvis : ∀ n ∈ m.plotter.get_visible,
      n ∈ m.ns_with_series ∨ n ∈ m.plotter.force_shown) :
    m.hidePass = m := by
  unfold PlotterModel.hidePass
  show ((m.plotter.get_visible).filter
      (fun n => !(n ∈ m.ns_with_series) && !(n ∈ m.plotter.force_shown))).foldl
      (fun acc n => acc.deleteTrace n) m = m
  have hfil : (m.plotter.get_visible).filter
      (fun n => !(n ∈ m.ns_with_series) && !(n ∈ m.plotter.force_shown)) = [] := by
    apply filter_nil_of_false
    intro a ha
    rcases hvis a ha with hns | hfs
    · simp [hns]
    · simp [hfs]
  rw [hfil]
  rfl

/-- S1: a stable state is a fixed point of `update_variables`. -/
theorem update_variables_stable_id (m : PlotterModel) (snap : Snapshot)
    (h : Stable snap m) : m.update_variables snap = m := by
  unfold PlotterModel.update_variables
  have h1 : m.addPass snap = m := by
    rw [addPass_stable m snap h.2.1 h.2.2.1 h.2.2.2.2, ← h.1]
  rw [h1]
  exact hidePass_id m h.2.2.2.1

theorem plot_false_changed (p : Plotter) : (p.plot false).changed = false := by
  unfold Plotter.plot
  by_cases hc : p.changed = true
  · rw [hc]
    show ((if !true && !false then p else { p with changed := false }) : Plotter).changed
      = false
    rw [if_neg (show ¬((!true && !false) = true) by decide)]
  · have hc2 := bool_false_of_not_true hc
    rw [hc2]
    show ((if !false && !false then p else { p with changed := false }) : Plotter).changed
      = false
    rw [if_pos (show (!false && !false) = true by decide)]
    exact hc2

theorem draw_false_id (m : PlotterModel) (hc : m.plotter.changed = false) :
    m.draw false = m := by
  unfold PlotterModel.draw Plotter.plot
  rw [hc]
  show ({ m with plotter := if !false && !false then m.plotter
      else { m.plotter with changed := false } } : PlotterModel) = m
  rw [if_pos (show (!false && !false) = true by decide)]

/-- A plotted-dataframe member name is safe: either not a current namespace
name at all (stale junk the cycle may hide), or a composite column name of
its own dataframe's current entry. -/
def MemSafe (snap : Snapshot) (e a : String) : Prop :=
  a ∉ nsNames snap ∨
  ∃ cols, (e, PObj.dataframe cols) ∈ snap ∧ ∃ c ∈ cols, a = compositeName e c.1

/-- The only names allowed to be tracked in `series_dict` and keyed in
`plotted_dfs` simultaneously are plottable composite column names. -/
def PlotCompException (snap : Snapshot) (k : String) : Prop :=
  ∃ d cols, (d, PObj.dataframe cols) ∈ snap ∧
    ∃ c ∈ cols, isPlottableSeries c.2 = true ∧ k = compositeName d c.1

/-- The bookkeeping invariant maintained through a reconciliation cycle. -/
def Inv (snap : Snapshot) (m : PlotterModel) : Prop :=
  (m.series_dict.map Prod.fst).Nodup ∧
  (m.plotted_dfs.map Prod.fst).Nodup ∧
  (m.plotter.traces.map Prod.fst).Nodup ∧
  (∀ pr ∈ m.plotted_dfs, ∀ a ∈ pr.2, MemSafe snap pr.1 a) ∧
  (∀ k, dictContains k m.series_dict = true → dictContains k m.plotted_dfs = true →
    PlotCompException snap k) ∧
  (∀ pr ∈ m.plotted_dfs, pr.1 ∉ nsNames snap →
    ∀ tr, dictLookup pr.1 m.plotter.traces = some tr → tr.visible = false)

theorem nsNames_cons (nv : String × PObj) (rest : Snapshot) :
    nsNames (nv :: rest) = entryNames nv ++ nsNames rest := rfl

theorem mem_nsNames_of_entry {a : String} {nv : String × PObj} {snap : Snapshot}
    (hnv : nv ∈ snap) (ha : a ∈ entryNames nv) : a ∈ nsNames snap := by
  induction snap with
  | nil => exact absurd hnv (List.not_mem_nil _)
  | cons b rest ih =>
    rw [nsNames_cons, List.mem_append]
    rcases List.mem_cons.mp hnv with he | hmem
    · exact Or.inl (he ▸ ha)
    · exact Or.inr (ih hmem)

/-- A name-disjointness consequence bundle of `(nsNames snap).Nodup`. -/
theorem nsNames_nodup_facts {snap : Snapshot} (h : (nsNames snap).Nodup) :
    (∀ nv ∈ snap, (entryNames nv).Nodup) ∧
    (∀ nv ∈ snap, ∀ nv' ∈ snap, nv ≠ nv' →
      ∀ a ∈ entryNames nv, a ∉ entryNames nv') ∧
    snap.Nodup := by
  induction snap with
  | nil =>
    exact ⟨fun nv hnv => absurd hnv (List.not_mem_nil _),
      fun nv hnv => absurd hnv (List.not_mem_nil _), List.nodup_nil⟩
  | cons b rest ih =>
    rw [nsNames_cons, List.nodup_append] at h
    obtain ⟨hb, hrest, hdisj⟩ := h
    obtain ⟨ih1, ih2, ih3⟩ := ih hrest
    have hbrest : b ∉ rest := by
      intro hmem
      exact hdisj (List.mem_cons_self b.1 _)
        (mem_nsNames_of_entry hmem (List.mem_cons_self _ _))
    refine ⟨?_, ?_, List.nodup_cons.mpr ⟨hbrest, ih3⟩⟩
    · intro nv hnv
      rcases List.mem_cons.mp hnv with he | hmem
      · exact he ▸ hb
      · exact ih1 nv hmem
    · intro nv hnv nv' hnv' hne a ha
      rcases List.mem_cons.mp hnv with he | hmem
      · rcases List.mem_cons.mp hnv' with he' | hmem'
        · exact absurd (he.trans he'.symm) hne
        · subst he
          intro ha'
          exact hdisj ha (mem_nsNames_of_entry hmem' ha')
      · rcases List.mem_cons.mp hnv' with he' | hmem'
        · subst he'
          intro ha'
          exact hdisj ha' (mem_nsNames_of_entry hmem ha)
        · exact ih2 nv hmem nv' hmem' hne a ha

theorem mem_foldl_colInsert {a : String} (n : String)
    (L : List (String × PSeries)) :
    ∀ l : List String,
    (a ∈ L.foldl (colInsert n) l ↔
      (∃ c ∈ L, a = compositeName n c.1) ∨ a ∈ l) := by
  induction L with
  | nil =>
    intro l
    constructor
    · exact Or.inr
    · rintro (⟨c, hc, _⟩ | ha)
      · exact absurd hc (List.not_mem_nil _)
      · exact ha
  | cons c rest ih =>
    intro l
    rw [List.foldl_cons]
    constructor
    · intro ha
      rcases (ih (colInsert n l c)).mp ha with ⟨c2, hc2, he2⟩ | ha2
      · exact Or.inl ⟨c2, List.mem_cons_of_mem _ hc2, he2⟩
      · rcases mem_listInsertSet.mp ha2 with he | hl
        · exact Or.inl ⟨c, List.mem_cons_self _ _, he⟩
        · exact Or.inr hl
    · rintro (⟨c2, hc2, he2⟩ | ha)
      · rcases List.mem_cons.mp hc2 with he | hmem
        · refine (ih (colInsert n l c)).mpr (Or.inr ?_)
          exact mem_listInsertSet.mpr (Or.inl (he ▸ he2))
        · exact (ih (colInsert n l c)).mpr (Or.inl ⟨c2, hmem, he2⟩)
      · refine (ih (colInsert n l c)).mpr (Or.inr ?_)
        exact mem_listInsertSet.mpr (Or.inr ha)

theorem mem_insertEntry {a : String} {acc : List String} {nv : String × PObj} :
    a ∈ insertEntry acc nv ↔ a ∈ entryNames nv ∨ a ∈ acc := by
  obtain ⟨n, v⟩ := nv
  cases v with
  | series s =>
    show a ∈ listInsertSet n acc ↔ a ∈ [n] ++ _ ∨ a ∈ acc
    rw [mem_listInsertSet]
    constructor
    · rintro (he | ha)
      · exact Or.inl (by rw [he]; exact List.mem_cons_self _ _)
      · exact Or.inr ha
    · rintro (he | ha)
      · rcases List.mem_cons.mp he with he2 | he3
        · exact Or.inl he2
        · exact absurd he3 (List.not_mem_nil _)
      · exact Or.inr ha
  | dataframe cols =>
    show a ∈ cols.foldl (colInsert n) (listInsertSet n acc) ↔
      a ∈ n :: cols.map (fun c => compositeName n c.1) ∨ a ∈ acc
    rw [mem_foldl_colInsert, mem_listInsertSet, List.mem_cons]
    constructor
    · rintro (⟨c, hc, he⟩ | he | ha)
      · exact Or.inl (Or.inr (List.mem_map.mpr ⟨c, hc, he.symm⟩))
      · exact Or.inl (Or.inl he)
      · exact Or.inr ha
    · rintro ((he | hm) | ha)
      · exact Or.inr (Or.inl he)
      · obtain ⟨c, hc, he⟩ := List.mem_map.mp hm
        exact Or.inl ⟨c, hc, he.symm⟩
      · exact Or.inr (Or.inr ha)
  | other =>
    show a ∈ listInsertSet n acc ↔ a ∈ [n] ++ _ ∨ a ∈ acc
    rw [mem_listInsertSet]
    constructor
    · rintro (he | ha)
      · exact Or.inl (by rw [he]; exact List.mem_cons_self _ _)
      · exact Or.inr ha
    · rintro (he | ha)
      · rcases List.mem_cons.mp he with he2 | he3
        · exact Or.inl he2
        · exact absurd he3 (List.not_mem_nil _)
      · exact Or.inr ha

theorem mem_nsBuild {a : String} {snap : Snapshot} :
    a ∈ nsBuild snap ↔ a ∈ nsNames snap := by
  have hfold : ∀ (L : Snapshot) (acc : List String),
      (a ∈ L.foldl insertEntry acc ↔ a ∈ nsNames L ∨ a ∈ acc) := by
    intro L
    induction L with
    | nil =>
      intro acc
      constructor
      · exact Or.inr
      · rintro (ha | ha)
        · exact absurd ha (List.not_mem_nil _)
        · exact ha
    | cons nv rest ih =>
      intro acc
      rw [List.foldl_cons, nsNames_cons, List.mem_append]
      constructor
      · intro ha
        rcases (ih (insertEntry acc nv)).mp ha with hr | hacc
        · exact Or.inl (Or.inr hr)
        · rcases mem_insertEntry.mp hacc with he | ha2
          · exact Or.inl (Or.inl he)
          · exact Or.inr ha2
      · rintro ((he | hr) | ha)
        · exact (ih _).mpr (Or.inr (mem_insertEntry.mpr (Or.inl he)))
        · exact (ih _).mpr (Or.inl hr)
        · exact (ih _).mpr (Or.inr (mem_insertEntry.mpr (Or.inr ha)))
  have h := hfold snap []
  rw [show nsBuild snap = snap.foldl insertEntry [] from rfl]
  rw [h]
  constructor
  · rintro (ha | ha)
    · exact ha
    · exact absurd ha (List.not_mem_nil _)
  · exact Or.inl

theorem compositeName_ne_base (d c : String) : compositeName d c ≠ d := by
  intro h
  have hlen := congrArg String.length h
  unfold compositeName at hlen
  simp [String.length_append] at hlen
  have h2 : (" (" : String).length = 2 := rfl
  have h3 : (")" : String).length = 1 := rfl
  rw [h2, h3] at hlen
  omega

theorem update_visible_series (tr : Trace) (b : Bool) :
    (tr.update_visible b).2.series = tr.series := by
  unfold Trace.update_visible
  split
  · rfl
  · rfl

theorem update_series_false_eq (tr : Trace) (s : PSeries)
    (h : (tr.update_series s).1 = false) :
    s.index = tr.series.index ∧ s.values = tr.series.values := by
  by_cases hne : s.index = tr.series.index ∧ s.values = tr.series.values
  · exact hne
  · have h1 := (update_series_changed hne).1
    rw [h1] at h
    exact Bool.noConfusion h

theorem Trace_init_series (name : String) (s : PSeries) (idx ml : Nat)
    (vis : Bool) (df : Option String) :
    (Trace.init name s idx ml vis df).1.series = s := by
  unfold Trace.init
  exact (buildLineWithProps_frame
    { name := name, series := s, df_name := df
      colour := "C" ++ toString (idx % 10), label := name, visible := vis
      been_warned := false
      max_length := if ml == 0 then maxInt64 else ml
      line_x := [], line_y := [], line_label := name
      line_colour := "C" ++ toString (idx % 10)
      step_size := 1 }).2.1

theorem lookup_none_of_not_contains {α : Type} {k : String} {d : Dict α}
    (hc : ¬ dictContains k d = true) : dictLookup k d = none := by
  cases hl : dictLookup k d with
  | none => rfl
  | some v =>
    exact absurd (show dictContains k d = true by
      unfold dictContains
      rw [hl]
      rfl) hc

theorem hide_trace_lookup_ne (p : Plotter) (n a : String) (hne : a ≠ n) :
    dictLookup a (p.hide_trace n).traces = dictLookup a p.traces := by
  unfold Plotter.hide_trace
  cases hl : dictLookup n p.traces with
  | none => rfl
  | some tr =>
    show dictLookup a (if (tr.update_visible false).1 = true then
        { p with
          traces := dictSet n (tr.update_visible false).2 p.traces
          force_shown := listRemove n p.force_shown
          changed := true }
      else p).traces = dictLookup a p.traces
    by_cases hr : (tr.update_visible false).1 = true
    · rw [if_pos hr]
      show dictLookup a (dictSet n (tr.update_visible false).2 p.traces)
        = dictLookup a p.traces
      rw [dictLookup_dictSet, if_neg hne]
    · rw [if_neg hr]

theorem hide_trace_vis_mono (p : Plotter) (n a : String) (tr' : Trace)
    (h : dictLookup a (p.hide_trace n).traces = some tr')
    (hv : tr'.visible = true) : dictLookup a p.traces = some tr' := by
  revert h
  unfold Plotter.hide_trace
  cases hl : dictLookup n p.traces with
  | none => exact fun h => h
  | some tr =>
    show dictLookup a (if (tr.update_visible false).1 = true then
        { p with
          traces := dictSet n (tr.update_visible false).2 p.traces
          force_shown := listRemove n p.force_shown
          changed := true }
      else p).traces = some tr' → dictLookup a p.traces = some tr'
    by_cases hr : (tr.update_visible false).1 = true
    · rw [if_pos hr]
      intro h
      have h2 : dictLookup a (dictSet n (tr.update_visible false).2 p.traces)
          = some tr' := h
      rw [dictLookup_dictSet] at h2
      by_cases han : a = n
      · rw [if_pos han] at h2
        cases hl2 : dictLookup a p.traces with
        | none =>
          rw [hl2] at h2
          exact Option.noConfusion h2
        | some t2 =>
          rw [hl2] at h2
          have h3 : some (tr.update_visible false).2 = some tr' := h2
          injection h3 with h4
          rw [← h4, update_visible_result] at hv
          exact Bool.noConfusion hv
      · rw [if_neg han] at h2
        exact h2
    · rw [if_neg hr]
      exact fun h => h

theorem update_trace_series_vis_mono (p : Plotter) (n : String) (s : PSeries)
    (a : String) (tr' : Trace)
    (h : dictLookup a (p.update_trace_series n s).traces = some tr')
    (hv : tr'.visible = true) :
    ∃ tr, dictLookup a p.traces = some tr ∧ tr.visible = true := by
  by_cases han : a = n
  · subst han
    have hm := (update_trace_series_frame p a s).2.2.2.2.2.1
    rw [h] at hm
    cases hl2 : dictLookup a p.traces with
    | none =>
      rw [hl2] at hm
      exact absurd hm (by simp)
    | some t =>
      rw [hl2] at hm
      have h3 : some tr'.visible = some t.visible := hm
      injection h3 with h4
      exact ⟨t, rfl, by rw [← h4]; exact hv⟩
  · rw [(update_trace_series_frame p n s).2.2.2.2.1 a han] at h
    exact ⟨tr', h, hv⟩

theorem add_trace_lookup_ne_aux (p1 : Plotter) (n a : String) (hne : a ≠ n) :
    dictLookup a ((match dictLookup n p1.traces with
      | none => p1
      | some tr =>
        let r := tr.update_visible (!p1.frozen)
        if r.1 then { p1 with traces := dictSet n r.2 p1.traces } else p1)).traces
      = dictLookup a p1.traces := by
  cases dictLookup n p1.traces with
  | none => rfl
  | some tr =>
    show dictLookup a (if (tr.update_visible (!p1.frozen)).1 = true then
        { p1 with traces := dictSet n (tr.update_visible (!p1.frozen)).2 p1.traces }
      else p1).traces = dictLookup a p1.traces
    by_cases hr : (tr.update_visible (!p1.frozen)).1 = true
    · rw [if_pos hr]
      show dictLookup a (dictSet n (tr.update_visible (!p1.frozen)).2 p1.traces)
        = dictLookup a p1.traces
      rw [dictLookup_dictSet, if_neg hne]
    · rw [if_neg hr]

theorem add_trace_lookup_ne (p : Plotter) (n : String) (s : PSeries)
    (df : Option String) (a : String) (hne : a ≠ n) :
    dictLookup a (p.add_trace n s df).traces = dictLookup a p.traces := by
  unfold Plotter.add_trace
  by_cases hc : dictContains n p.traces = true
  · rw [if_pos hc]
    exact (add_trace_lookup_ne_aux (p.update_trace_series n s) n a hne).trans
      ((update_trace_series_frame p n s).2.2.2.2.1 a hne)
  · rw [if_neg hc]
    show dictLookup a (p.traces ++
      [(n, (Trace.init n s p.traces.length p.max_series_length (!p.frozen) df).1)])
      = dictLookup a p.traces
    cases hl2 : dictLookup a p.traces with
    | some v => rw [dictLookup_append, hl2]
    | none =>
      rw [dictLookup_append, hl2]
      show dictLookup a
        [(n, (Trace.init n s p.traces.length p.max_series_length (!p.frozen) df).1)]
        = none
      rw [dictLookup_cons, if_neg (fun h : n = a => hne h.symm)]
      rfl

theorem update_trace_series_matches (p : Plotter) (n : String) (s : PSeries) :
    ∀ tr', dictLookup n (p.update_trace_series n s).traces = some tr' →
      s.index = tr'.series.index ∧ s.values = tr'.series.values := by
  intro tr'
  unfold Plotter.update_trace_series
  cases hl : dictLookup n p.traces with
  | none =>
    intro h
    rw [hl] at h
    exact Option.noConfusion h
  | some tr =>
    show dictLookup n (if (tr.update_series s).1 = true then
        ({ p with
           traces := dictSet n (tr.update_series s).2.1 p.traces
           log := p.log ++ (tr.update_series s).2.2
           changed := if (tr.update_series s).2.1.visible then true else p.changed }
          : Plotter)
      else p).traces = some tr' → _
    by_cases hr : (tr.update_series s).1 = true
    · rw [if_pos hr]
      intro h
      have h2 : dictLookup n (dictSet n (tr.update_series s).2.1 p.traces)
          = some tr' := h
      rw [dictLookup_dictSet, if_pos rfl, hl] at h2
      have h3 : some (tr.update_series s).2.1 = some tr' := h2
      injection h3 with h4
      by_cases heq : s.index = tr.series.index ∧ s.values = tr.series.values
      · rw [update_series_skip heq.1 heq.2] at h4
        have h5 : tr = tr' := h4
        rw [← h5]
        exact heq
      · have hc := update_series_changed heq
        rw [← h4, hc.2.1]
        exact ⟨rfl, rfl⟩
    · rw [if_neg hr]
      intro h
      rw [hl] at h
      have h3 : tr = tr' := by injection h
      have heq := update_series_false_eq tr s (bool_false_of_not_true hr)
      rw [← h3]
      exact heq

theorem add_trace_matches_aux (p1 : Plotter) (n : String) (s : PSeries)
    (hm : ∀ tr', dictLookup n p1.traces = some tr' →
      s.index = tr'.series.index ∧ s.values = tr'.series.values) :
    ∀ tr', dictLookup n ((match dictLookup n p1.traces with
      | none => p1
      | some tr =>
        let r := tr.update_visible (!p1.frozen)
        if r.1 then { p1 with traces := dictSet n r.2 p1.traces } else p1)).traces
      = some tr' → s.index = tr'.series.index ∧ s.values = tr'.series.values := by
  cases hl : dictLookup n p1.traces with
  | none => exact hm
  | some tr =>
    show ∀ tr', dictLookup n (if (tr.update_visible (!p1.frozen)).1 = true then
        { p1 with traces := dictSet n (tr.update_visible (!p1.frozen)).2 p1.traces }
      else p1).traces = some tr' → _
    by_cases hr : (tr.update_visible (!p1.frozen)).1 = true
    · rw [if_pos hr]
      intro tr' h
      have h2 : dictLookup n (dictSet n (tr.update_visible (!p1.frozen)).2 p1.traces)
          = some tr' := h
      rw [dictLookup_dictSet, if_pos rfl, hl] at h2
      have h3 : some (tr.update_visible (!p1.frozen)).2 = some tr' := h2
      injection h3 with h4
      have hs := hm tr hl
      rw [← h4, update_visible_series]
      exact hs
    · rw [if_neg hr]
      exact hm

theorem add_trace_matches (p : Plotter) (n : String) (s : PSeries)
    (df : Option String) :
    ∀ tr', dictLookup n (p.add_trace n s df).traces = some tr' →
      s.index = tr'.series.index ∧ s.values = tr'.series.values := by
  unfold Plotter.add_trace
  by_cases hc : dictContains n p.traces = true
  · rw [if_pos hc]
    exact fun tr' h => add_trace_matches_aux (p.update_trace_series n s) n s
      (update_trace_series_matches p n s) tr' h
  · rw [if_neg hc]
    intro tr' h
    have hnone := lookup_none_of_not_contains hc
    have h2 : dictLookup n (p.traces ++
        [(n, (Trace.init n s p.traces.length p.max_series_length (!p.frozen) df).1)])
        = some tr' := h
    rw [dictLookup_append, hnone] at h2
    have h3 : dictLookup n
        [(n, (Trace.init n s p.traces.length p.max_series_length (!p.frozen) df).1)]
        = some tr' := h2
    rw [dictLookup_cons, if_pos rfl] at h3
    have h4 : some (Trace.init n s p.traces.length p.max_series_length (!p.frozen) df).1
        = some tr' := h3
    injection h4 with h5
    rw [← h5, Trace_init_series]
    exact ⟨rfl, rfl⟩

theorem mem_dictSet {α : Type} {pr : String × α} {k : String} {v : α} {d : Dict α}
    (h : pr ∈ dictSet k v d) : pr = (k, v) ∨ pr ∈ d := by
  obtain ⟨q, hq, he⟩ := List.mem_map.mp h
  by_cases hqk : q.1 = k
  · rw [if_pos hqk] at he
    exact Or.inl he.symm
  · rw [if_neg hqk] at he
    exact Or.inr (he ▸ hq)

theorem dictErase_keys_sublist {α : Type} (k : String) (d : Dict α) :
    ((dictErase k d).map Prod.fst).Sublist (d.map Prod.fst) :=
  List.Sublist.map Prod.fst (List.filter_sublist d)

theorem dictSet_contains_mono {α : Type} {k2 : String} (k : String) (v : α)
    (d : Dict α) (h : dictContains k2 (dictSet k v d) = true) :
    dictContains k2 d = true := by
  rw [dictContains, dictLookup_dictSet] at h
  by_cases hk : k2 = k
  · rw [if_pos hk] at h
    cases hl : dictLookup k2 d with
    | none => rw [hl] at h; exact Bool.noConfusion h
    | some w => rw [dictContains, hl]; rfl
  · rw [if_neg hk] at h
    exact h

theorem dictErase_contains_mono {α : Type} {k2 : String} (k : String)
    (d : Dict α) (h : dictContains k2 (dictErase k d) = true) :
    dictContains k2 d = true := by
  rw [dictContains, dictLookup_dictErase] at h
  by_cases hk : k2 = k
  · rw [if_pos hk] at h
    exact Bool.noConfusion h
  · rw [if_neg hk] at h
    exact h

theorem dictAppend_contains_mono {α : Type} {k2 : String} (k : String) (v : α)
    (d : Dict α) (h : dictContains k2 (d ++ [(k, v)]) = true) :
    dictContains k2 d = true ∨ k2 = k := by
  rw [dictContains, dictLookup_append] at h
  cases hl : dictLookup k2 d with
  | some w => exact Or.inl (by rw [dictContains, hl]; rfl)
  | none =>
    rw [hl] at h
    have h2 : dictContains k2 [(k, v)] = true := h
    rw [dictContains, dictLookup_cons] at h2
    by_cases hk : k = k2
    · exact Or.inr hk.symm
    · rw [if_neg hk] at h2
      exact Bool.noConfusion h2

/-- `hide_trace` keeps every trace's key, series data, and hidden-ness, and
leaves a still-visible trace literally unchanged. -/
theorem hide_trace_trace_rel (p : Plotter) (n : String) :
    ∀ a tr', dictLookup a (p.hide_trace n).traces = some tr' →
      ∃ tr, dictLookup a p.traces = some tr ∧ tr'.series = tr.series ∧
        (tr.visible = false → tr'.visible = false) ∧
        (tr'.visible = true → tr' = tr) := by
  intro a tr'
  unfold Plotter.hide_trace
  cases hl : dictLookup n p.traces with
  | none => exact fun h => ⟨tr', h, rfl, fun hv => hv ▸ rfl, fun _ => rfl⟩
  | some tr0 =>
    show dictLookup a (if (tr0.update_visible false).1 = true then
        { p with
          traces := dictSet n (tr0.update_visible false).2 p.traces
          force_shown := listRemove n p.force_shown
          changed := true }
      else p).traces = some tr' → _
    by_cases hr : (tr0.update_visible false).1 = true
    · rw [if_pos hr]
      intro h
      have h2 : dictLookup a (dictSet n (tr0.update_visible false).2 p.traces)
          = some tr' := h
      rw [dictLookup_dictSet] at h2
      by_cases han : a = n
      · rw [if_pos han] at h2
        cases hl2 : dictLookup a p.traces with
        | none => rw [hl2] at h2; exact Option.noConfusion h2
        | some t =>
          rw [hl2] at h2
          have h3 : some (tr0.update_visible false).2 = some tr' := h2
          injection h3 with h4
          have hvis : tr'.visible = false := by
            rw [← h4, update_visible_result]
          refine ⟨t, rfl, ?_, fun _ => hvis, fun hv => absurd hv (by rw [hvis]; decide)⟩
          rw [← h4, update_visible_series]
          have h5 : t = tr0 := by
            rw [han] at hl2
            rw [hl] at hl2
            injection hl2 with h6
            exact h6.symm
          rw [h5]
      · rw [if_neg han] at h2
        exact ⟨tr', h2, rfl, fun hv => hv ▸ rfl, fun _ => rfl⟩
    · rw [if_neg hr]
      exact fun h => ⟨tr', h, rfl, fun hv => hv ▸ rfl, fun _ => rfl⟩

/-- One member-deletion step of `_delete_trace`'s dataframe branch. -/
def delStep (acc : PlotterModel) (sn : String) : PlotterModel :=
  { acc with
    plotter := acc.plotter.hide_trace sn
    series_dict := dictErase sn acc.series_dict }

theorem hide_trace_keys (p : Plotter) (n : String) :
    (p.hide_trace n).traces.map Prod.fst = p.traces.map Prod.fst := by
  unfold Plotter.hide_trace
  cases hl : dictLookup n p.traces with
  | none => rfl
  | some tr =>
    show (if (tr.update_visible false).1 = true then
        { p with
          traces := dictSet n (tr.update_visible false).2 p.traces
          force_shown := listRemove n p.force_shown
          changed := true }
      else p).traces.map Prod.fst = p.traces.map Prod.fst
    by_cases hr : (tr.update_visible false).1 = true
    · rw [if_pos hr]
      exact dictSet_keys _ _ _
    · rw [if_neg hr]

theorem delFold_facts (L : List String) : ∀ mm : PlotterModel,
    (L.foldl delStep mm).plotted_dfs = mm.plotted_dfs ∧
    (L.foldl delStep mm).ns_with_series = mm.ns_with_series ∧
    (∀ a, a ∉ L → dictLookup a (L.foldl delStep mm).series_dict
      = dictLookup a mm.series_dict) ∧
    (∀ k, dictContains k (L.foldl delStep mm).series_dict = true →
      dictContains k mm.series_dict = true) ∧
    ((L.foldl delStep mm).series_dict.map Prod.fst).Sublist
      (mm.series_dict.map Prod.fst) ∧
    ((L.foldl delStep mm).plotter.traces.map Prod.fst
      = mm.plotter.traces.map Prod.fst) ∧
    (∀ a tr', dictLookup a (L.foldl delStep mm).plotter.traces = some tr' →
      ∃ tr, dictLookup a mm.plotter.traces = some tr ∧ tr'.series = tr.series ∧
        (tr.visible = false → tr'.visible = false) ∧
        (tr'.visible = true → tr' = tr)) := by
  induction L with
  | nil =>
    intro mm
    exact ⟨rfl, rfl, fun a _ => rfl, fun k h => h, List.Sublist.refl _, rfl,
      fun a tr' h => ⟨tr', h, rfl, fun hv => hv, fun _ => rfl⟩⟩
  | cons b rest ih =>
    intro mm
    obtain ⟨h1, h2, h3, h4, h5, h6, h7⟩ := ih (delStep mm b)
    refine ⟨h1, h2, ?_, ?_, ?_, ?_, ?_⟩
    · intro a ha
      have hab : ¬ a = b := fun he => ha (he ▸ List.mem_cons_self b rest)
      have har : a ∉ rest := fun hm => ha (List.mem_cons_of_mem _ hm)
      have hstep : dictLookup a (delStep mm b).series_dict
          = dictLookup a mm.series_dict := by
        show dictLookup a (dictErase b mm.series_dict) = dictLookup a mm.series_dict
        rw [dictLookup_dictErase, if_neg hab]
      exact (h3 a har).trans hstep
    · intro k hk
      exact dictErase_contains_mono b mm.series_dict (h4 k hk)
    · exact h5.trans (dictErase_keys_sublist b mm.series_dict)
    · exact h6.trans (hide_trace_keys mm.plotter b)
    · intro a tr' h
      obtain ⟨tr1, hl1, hs1, hv1, he1⟩ := h7 a tr' h
      obtain ⟨tr, hl, hs, hv, he⟩ := hide_trace_trace_rel mm.plotter b a tr1 hl1
      refine ⟨tr, hl, hs1.trans hs, fun h0 => hv1 (hv h0), ?_⟩
      intro hvt
      have he2 := he1 hvt
      have hvt1 : tr1.visible = true := by rw [← he2]; exact hvt
      rw [he2, he hvt1]

theorem hide_trace_self_invisible (p : Plotter) (n : String) :
    ∀ tr', dictLookup n (p.hide_trace n).traces = some tr' → tr'.visible = false := by
  intro tr'
  unfold Plotter.hide_trace
  cases hl : dictLookup n p.traces with
  | none =>
    intro h
    rw [hl] at h
    exact Option.noConfusion h
  | some tr =>
    show dictLookup n (if (tr.update_visible false).1 = true then
        { p with
          traces := dictSet n (tr.update_visible false).2 p.traces
          force_shown := listRemove n p.force_shown
          changed := true }
      else p).traces = some tr' → tr'.visible = false
    by_cases hr : (tr.update_visible false).1 = true
    · rw [if_pos hr]
      intro h
      have h2 : dictLookup n (dictSet n (tr.update_visible false).2 p.traces)
          = some tr' := h
      rw [dictLookup_dictSet, if_pos rfl, hl] at h2
      have h3 : some (tr.update_visible false).2 = some tr' := h2
      injection h3 with h4
      rw [← h4, update_visible_result]
    · rw [if_neg hr]
      intro h
      rw [hl] at h
      have h3 : tr = tr' := by injection h
      have hfl : tr.visible = false := by
        by_cases hv : tr.visible = false
        · exact hv
        · exfalso
          apply hr
          unfold Trace.update_visible
          rw [if_neg (fun he : tr.visible = false => hv he)]
      rw [← h3]
      exact hfl

theorem hide_trace_fs_rel (p : Plotter) (b nfs : String)
    (hmem : nfs ∈ p.force_shown) (tr' : Trace)
    (hl' : dictLookup nfs (p.hide_trace b).traces = some tr')
    (hv : tr'.visible = true) : nfs ∈ (p.hide_trace b).force_shown := by
  by_cases hne : nfs = b
  · subst hne
    exact absurd (hide_trace_self_invisible p nfs tr' hl') (by rw [hv]; decide)
  · revert hl'
    unfold Plotter.hide_trace
    cases hl : dictLookup b p.traces with
    | none => exact fun _ => hmem
    | some tr =>
      show dictLookup nfs (if (tr.update_visible false).1 = true then
          { p with
            traces := dictSet b (tr.update_visible false).2 p.traces
            force_shown := listRemove b p.force_shown
            changed := true }
        else p).traces = some tr' →
        nfs ∈ (if (tr.update_visible false).1 = true then
          { p with
            traces := dictSet b (tr.update_visible false).2 p.traces
            force_shown := listRemove b p.force_shown
            changed := true }
        else p).force_shown
      by_cases hr : (tr.update_visible false).1 = true
      · rw [if_pos hr]
        intro _
        show nfs ∈ listRemove b p.force_shown
        exact mem_listRemove.mpr ⟨hmem, hne⟩
      · rw [if_neg hr]
        exact fun _ => hmem

theorem delFold_Pfs (L : List String) : ∀ (mm : PlotterModel) (nfs : String),
    ((∃ tr', dictLookup nfs mm.plotter.traces = some tr' ∧ tr'.visible = true) →
      nfs ∈ mm.plotter.force_shown) →
    (∃ tr', dictLookup nfs (L.foldl delStep mm).plotter.traces = some tr' ∧
      tr'.visible = true) →
    nfs ∈ (L.foldl delStep mm).plotter.force_shown := by
  induction L with
  | nil => intro mm nfs hP h; exact hP h
  | cons b rest ih =>
    intro mm nfs hP h
    apply ih (delStep mm b) nfs
    · intro hvis
      obtain ⟨tr', hl', hv'⟩ := hvis
      obtain ⟨tr, hl, _, _, he⟩ := hide_trace_trace_rel mm.plotter b nfs tr' hl'
      have htreq := he hv'
      have hvtr : tr.visible = true := by rw [← htreq]; exact hv'
      have hmem := hP ⟨tr, hl, hvtr⟩
      exact hide_trace_fs_rel mm.plotter b nfs hmem tr' hl' hv'
    · exact h

theorem delSurgery_cases (m1 : PlotterModel) (e : String) (r : PlotterModel)
    (hr : r = (match dictLookup e m1.plotter.traces with
       | none => m1
       | some tr =>
         match tr.df_name with
         | none => m1
         | some d =>
           match dictLookup d m1.plotted_dfs with
           | none => m1
           | some mems =>
             let mems1 := listRemove e mems
             if mems1.isEmpty then { m1 with plotted_dfs := dictErase d m1.plotted_dfs }
             else { m1 with plotted_dfs := dictSet d mems1 m1.plotted_dfs })) :
    r = m1 ∨
    ∃ d mems, dictLookup d m1.plotted_dfs = some mems ∧
      (((listRemove e mems).isEmpty = true ∧
        r = { m1 with plotted_dfs := dictErase d m1.plotted_dfs }) ∨
       ((listRemove e mems).isEmpty = false ∧
        r = { m1 with plotted_dfs := dictSet d (listRemove e mems) m1.plotted_dfs })) := by
  revert hr
  cases dictLookup e m1.plotter.traces with
  | none => intro hr; exact Or.inl hr
  | some tr =>
    show r = (match tr.df_name with
       | none => m1
       | some d =>
         match dictLookup d m1.plotted_dfs with
         | none => m1
         | some mems =>
           let mems1 := listRemove e mems
           if mems1.isEmpty then
             ({ m1 with plotted_dfs := dictErase d m1.plotted_dfs } : PlotterModel)
           else { m1 with plotted_dfs := dictSet d mems1 m1.plotted_dfs }) → _
    cases tr.df_name with
    | none => intro hr; exact Or.inl hr
    | some d =>
      show r = (match dictLookup d m1.plotted_dfs with
         | none => m1
         | some mems =>
           let mems1 := listRemove e mems
           if mems1.isEmpty then
             ({ m1 with plotted_dfs := dictErase d m1.plotted_dfs } : PlotterModel)
           else { m1 with plotted_dfs := dictSet d mems1 m1.plotted_dfs }) → _
      cases hld : dictLookup d m1.plotted_dfs with
      | none => intro hr; exact Or.inl hr
      | some mems =>
        show r = (if (listRemove e mems).isEmpty = true then
            ({ m1 with plotted_dfs := dictErase d m1.plotted_dfs } : PlotterModel)
          else { m1 with plotted_dfs := dictSet d (listRemove e mems) m1.plotted_dfs })
          → _
        by_cases hie : (listRemove e mems).isEmpty = true
        · rw [if_pos hie]
          intro hr
          exact Or.inr ⟨d, mems, hld, Or.inl ⟨hie, hr⟩⟩
        · rw [if_neg hie]
          intro hr
          exact Or.inr ⟨d, mems, hld, Or.inr ⟨bool_false_of_not_true hie, hr⟩⟩

/-- The intermediate state of `_delete_trace`'s non-dataframe branch. -/
def delNoneState (m : PlotterModel) (e : String) : PlotterModel :=
  { m with
    plotter := m.plotter.hide_trace e
    series_dict := dictErase e m.series_dict }

theorem deleteTrace_eq (m : PlotterModel) (e : String) :
    (∃ mems, dictLookup e m.plotted_dfs = some mems ∧
      m.deleteTrace e = { (mems.foldl delStep m) with
        plotted_dfs := dictErase e (mems.foldl delStep m).plotted_dfs }) ∨
    (dictLookup e m.plotted_dfs = none ∧
      (m.deleteTrace e = delNoneState m e ∨
       ∃ d mems, dictLookup d (delNoneState m e).plotted_dfs = some mems ∧
         (((listRemove e mems).isEmpty = true ∧
           m.deleteTrace e = { delNoneState m e with
             plotted_dfs := dictErase d (delNoneState m e).plotted_dfs }) ∨
          ((listRemove e mems).isEmpty = false ∧
           m.deleteTrace e = { delNoneState m e with
             plotted_dfs := dictSet d (listRemove e mems)
               (delNoneState m e).plotted_dfs })))) := by
  unfold PlotterModel.deleteTrace
  cases hl : dictLookup e m.plotted_dfs with
  | some mems => exact Or.inl ⟨mems, rfl, rfl⟩
  | none => exact Or.inr ⟨rfl, delSurgery_cases (delNoneState m e) e _ rfl⟩

theorem deleteTrace_facts (m : PlotterModel) (e : String) :
    (m.deleteTrace e).ns_with_series = m.ns_with_series ∧
    (∀ a, a ≠ e → (∀ mems, dictLookup e m.plotted_dfs = some mems → a ∉ mems) →
      dictLookup a (m.deleteTrace e).series_dict = dictLookup a m.series_dict) ∧
    (∀ k, dictContains k (m.deleteTrace e).series_dict = true →
      dictContains k m.series_dict = true) ∧
    ((m.deleteTrace e).series_dict.map Prod.fst).Sublist
      (m.series_dict.map Prod.fst) ∧
    (∀ k, dictContains k (m.deleteTrace e).plotted_dfs = true →
      dictContains k m.plotted_dfs = true) ∧
    ((m.plotted_dfs.map Prod.fst).Nodup →
      ((m.deleteTrace e).plotted_dfs.map Prod.fst).Nodup) ∧
    (∀ pr' ∈ (m.deleteTrace e).plotted_dfs, ∃ pr ∈ m.plotted_dfs,
      pr.1 = pr'.1 ∧ ∀ a ∈ pr'.2, a ∈ pr.2) ∧
    dictLookup e (m.deleteTrace e).plotted_dfs = none ∧
    (∀ d2 mems2 sname, d2 ≠ e → sname ≠ e →
      dictLookup d2 m.plotted_dfs = some mems2 → sname ∈ mems2 →
      ∃ mems', dictLookup d2 (m.deleteTrace e).plotted_dfs = some mems' ∧
        sname ∈ mems') ∧
    ((m.deleteTrace e).plotter.traces.map Prod.fst
      = m.plotter.traces.map Prod.fst) ∧
    (∀ a tr', dictLookup a (m.deleteTrace e).plotter.traces = some tr' →
      ∃ tr, dictLookup a m.plotter.traces = some tr ∧ tr'.series = tr.series ∧
        (tr.visible = false → tr'.visible = false) ∧
        (tr'.visible = true → tr' = tr)) ∧
    (dictLookup e m.plotted_dfs = none →
      dictContains e (m.deleteTrace e).series_dict = false) ∧
    (∀ nfs, ((∃ tr', dictLookup nfs m.plotter.traces = some tr' ∧
        tr'.visible = true) → nfs ∈ m.plotter.force_shown) →
      (∃ tr', dictLookup nfs (m.deleteTrace e).plotter.traces = some tr' ∧
        tr'.visible = true) → nfs ∈ (m.deleteTrace e).plotter.force_shown) ∧
    (((∀ tr0, dictLookup e m.plotter.traces = some tr0 → tr0.visible = false) ∨
        dictLookup e m.plotted_dfs = none) →
      ∀ tr', dictLookup e (m.deleteTrace e).plotter.traces = some tr' →
        tr'.visible = false) := by
  rcases deleteTrace_eq m e with ⟨mems, hl, heq⟩ | ⟨hl, hsub⟩
  · obtain ⟨hfp, hfns, hfsd, hfsdc, hfsub, hfkeys, hfrel⟩ := delFold_facts mems m
    rw [heq]
    refine ⟨hfns, ?_, hfsdc, hfsub, ?_, ?_, ?_, ?_, ?_, hfkeys, hfrel, ?_, ?_, ?_⟩
    · intro a hae hmem
      exact hfsd a (hmem mems hl)
    · intro k hk
      have h2 : dictContains k (mems.foldl delStep m).plotted_dfs = true :=
        dictErase_contains_mono e _ hk
      rw [hfp] at h2
      exact h2
    · intro hnd
      have h2 : ((mems.foldl delStep m).plotted_dfs.map Prod.fst).Nodup := by
        rw [hfp]
        exact hnd
      exact List.Nodup.sublist (dictErase_keys_sublist e _) h2
    · intro pr' hpr'
      have h2 : pr' ∈ (mems.foldl delStep m).plotted_dfs :=
        List.mem_of_mem_filter hpr'
      rw [hfp] at h2
      exact ⟨pr', h2, rfl, fun a ha => ha⟩
    · show dictLookup e (dictErase e (mems.foldl delStep m).plotted_dfs) = none
      rw [dictLookup_dictErase, if_pos rfl]
    · intro d2 mems2 sname hd2 hs hld2 hmem2
      refine ⟨mems2, ?_, hmem2⟩
      show dictLookup d2 (dictErase e (mems.foldl delStep m).plotted_dfs)
        = some mems2
      rw [dictLookup_dictErase, if_neg hd2, hfp]
      exact hld2
    · intro hnone
      rw [hl] at hnone
      exact Option.noConfusion hnone
    · intro nfs hP hvis
      exact delFold_Pfs mems m nfs hP hvis
    · intro hcase tr' hl'
      rcases hcase with hinv | hnone
      · obtain ⟨tr, hlt, _, hvp, _⟩ := hfrel e tr' hl'
        exact hvp (hinv tr hlt)
      · rw [hl] at hnone
        exact Option.noConfusion hnone
  · have hcommon2 : ∀ (a : String), a ≠ e →
        dictLookup a (dictErase e m.series_dict) = dictLookup a m.series_dict := by
      intro a hae
      rw [dictLookup_dictErase, if_neg hae]
    rcases hsub with heq | ⟨d, mems, hld, hc⟩
    · rw [heq]
      refine ⟨rfl, ?_, ?_, dictErase_keys_sublist e _, fun k hk => hk,
        fun hnd => hnd, ?_, hl, ?_, hide_trace_keys m.plotter e,
        hide_trace_trace_rel m.plotter e, ?_, ?_, ?_⟩
      · intro a hae _
        exact hcommon2 a hae
      · intro k hk
        exact dictErase_contains_mono e m.series_dict hk
      · intro pr' hpr'
        exact ⟨pr', hpr', rfl, fun a ha => ha⟩
      · intro d2 mems2 sname _ _ hld2 hmem2
        exact ⟨mems2, hld2, hmem2⟩
      · intro _
        show dictContains e (dictErase e m.series_dict) = false
        rw [dictContains_dictErase, if_pos rfl]
      · intro nfs hP hvis
        obtain ⟨tr', hl', hv'⟩ := hvis
        obtain ⟨tr, hlt, _, _, he2⟩ := hide_trace_trace_rel m.plotter e nfs tr' hl'
        have htreq := he2 hv'
        have hvtr : tr.visible = true := by rw [← htreq]; exact hv'
        exact hide_trace_fs_rel m.plotter e nfs (hP ⟨tr, hlt, hvtr⟩) tr' hl' hv'
      · intro _ tr' hl'
        exact hide_trace_self_invisible m.plotter e tr' hl'
    · have hld' : dictLookup d m.plotted_dfs = some mems := hld
      rcases hc with ⟨hie, heq⟩ | ⟨hie, heq⟩
      · rw [heq]
        refine ⟨rfl, ?_, ?_, dictErase_keys_sublist e _, ?_, ?_, ?_, ?_, ?_,
          hide_trace_keys m.plotter e, hide_trace_trace_rel m.plotter e, ?_, ?_, ?_⟩
        · intro a hae _
          exact hcommon2 a hae
        · intro k hk
          exact dictErase_contains_mono e m.series_dict hk
        · intro k hk
          exact dictErase_contains_mono d m.plotted_dfs hk
        · intro hnd
          exact List.Nodup.sublist (dictErase_keys_sublist d _) hnd
        · intro pr' hpr'
          exact ⟨pr', List.mem_of_mem_filter hpr', rfl, fun a ha => ha⟩
        · show dictLookup e (dictErase d m.plotted_dfs) = none
          rw [dictLookup_dictErase]
          by_cases hed : e = d
          · rw [if_pos hed]
          · rw [if_neg hed]
            exact hl
        · intro d2 mems2 sname _ hs hld2 hmem2
          by_cases hdd : d2 = d
          · subst hdd
            rw [hld2] at hld'
            have hme : mems = mems2 := by
              injection hld' with h0
              exact h0.symm
            have hsn : sname ∈ listRemove e mems := by
              rw [hme]
              exact mem_listRemove.mpr ⟨hmem2, hs⟩
            cases hlr : listRemove e mems with
            | nil =>
              rw [hlr] at hsn
              exact absurd hsn (List.not_mem_nil _)
            | cons x xs =>
              rw [hlr] at hie
              exact Bool.noConfusion hie
          · refine ⟨mems2, ?_, hmem2⟩
            show dictLookup d2 (dictErase d m.plotted_dfs) = some mems2
            rw [dictLookup_dictErase, if_neg hdd]
            exact hld2
        · intro _
          show dictContains e (dictErase e m.series_dict) = false
          rw [dictContains_dictErase, if_pos rfl]
        · intro nfs hP hvis
          obtain ⟨tr', hl', hv'⟩ := hvis
          obtain ⟨tr, hlt, _, _, he2⟩ :=
            hide_trace_trace_rel m.plotter e nfs tr' hl'
          have htreq := he2 hv'
          have hvtr : tr.visible = true := by rw [← htreq]; exact hv'
          exact hide_trace_fs_rel m.plotter e nfs (hP ⟨tr, hlt, hvtr⟩) tr' hl' hv'
        · intro _ tr' hl'
          exact hide_trace_self_invisible m.plotter e tr' hl'
      · rw [heq]
        refine ⟨rfl, ?_, ?_, dictErase_keys_sublist e _, ?_, ?_, ?_, ?_, ?_,
          hide_trace_keys m.plotter e, hide_trace_trace_rel m.plotter e, ?_, ?_, ?_⟩
        · intro a hae _
          exact hcommon2 a hae
        · intro k hk
          exact dictErase_contains_mono e m.series_dict hk
        · intro k hk
          exact dictSet_contains_mono d (listRemove e mems) m.plotted_dfs hk
        · intro hnd
          show ((dictSet d (listRemove e mems) m.plotted_dfs).map Prod.fst).Nodup
          rw [dictSet_keys]
          exact hnd
        · intro pr' hpr'
          rcases mem_dictSet hpr' with he2 | hmem2
          · refine ⟨(d, mems), dictLookup_mem hld', ?_, ?_⟩
            · rw [he2]
            · intro a ha
              rw [he2] at ha
              exact (mem_listRemove.mp ha).1
          · exact ⟨pr', hmem2, rfl, fun a ha => ha⟩
        · show dictLookup e (dictSet d (listRemove e mems) m.plotted_dfs) = none
          rw [dictLookup_dictSet]
          by_cases hed : e = d
          · rw [if_pos hed, hl]
            rfl
          · rw [if_neg hed]
            exact hl
        · intro d2 mems2 sname _ hs hld2 hmem2
          by_cases hdd : d2 = d
          · subst hdd
            rw [hld2] at hld'
            have hme : mems = mems2 := by
              injection hld' with h0
              exact h0.symm
            refine ⟨listRemove e mems, ?_, by
              rw [hme]
              exact mem_listRemove.mpr ⟨hmem2, hs⟩⟩
            show dictLookup d2 (dictSet d2 (listRemove e mems) m.plotted_dfs)
              = some (listRemove e mems)
            rw [dictLookup_dictSet, if_pos rfl, hld2]
            rfl
          · refine ⟨mems2, ?_, hmem2⟩
            show dictLookup d2 (dictSet d (listRemove e mems) m.plotted_dfs)
              = some mems2
            rw [dictLookup_dictSet, if_neg hdd]
            exact hld2
        · intro _
          show dictContains e (dictErase e m.series_dict) = false
          rw [dictContains_dictErase, if_pos rfl]
        · intro nfs hP hvis
          obtain ⟨tr', hl', hv'⟩ := hvis
          obtain ⟨tr, hlt, _, _, he2⟩ :=
            hide_trace_trace_rel m.plotter e nfs tr' hl'
          have htreq := he2 hv'
          have hvtr : tr.visible = true := by rw [← htreq]; exact hv'
          exact hide_trace_fs_rel m.plotter e nfs (hP ⟨tr, hlt, hvtr⟩) tr' hl' hv'
        · intro _ tr' hl'
          exact hide_trace_self_invisible m.plotter e tr' hl'

theorem dictContains_false_lookup {α : Type} {k : String} {d : Dict α}
    (h : dictContains k d = false) : dictLookup k d = none := by
  cases hl : dictLookup k d with
  | none => rfl
  | some v =>
    rw [dictContains, hl] at h
    exact Bool.noConfusion h

theorem dictContains_true_lookup {α : Type} {k : String} {d : Dict α}
    (h : dictContains k d = true) : ∃ v, dictLookup k d = some v := by
  cases hl : dictLookup k d with
  | none =>
    rw [dictContains, hl] at h
    exact Bool.noConfusion h
  | some v => exact ⟨v, rfl⟩

theorem contains_of_lookup_some {α : Type} {k : String} {v : α} {d : Dict α}
    (h : dictLookup k d = some v) : dictContains k d = true := by
  rw [dictContains, h]
  rfl

theorem mem_keys_of_contains {α : Type} {k : String} {d : Dict α}
    (h : dictContains k d = true) : k ∈ d.map Prod.fst := by
  obtain ⟨v, hv⟩ := dictContains_true_lookup h
  exact List.mem_map.mpr ⟨(k, v), dictLookup_mem hv, rfl⟩

theorem compositeName_inj2 {d a b : String}
    (h : compositeName d a = compositeName d b) : a = b := by
  unfold compositeName at h
  have h0 := congrArg String.data h
  rw [String.data_append, String.data_append] at h0
  have h2 : a.data = b.data :=
    List.append_cancel_left (List.append_cancel_right h0)
  exact congrArg String.mk h2

theorem get_visible_mem {p : Plotter} {n : String}
    (hnd : (p.traces.map Prod.fst).Nodup) (h : n ∈ p.get_visible) :
    ∃ tr, dictLookup n p.traces = some tr ∧ tr.visible = true := by
  unfold Plotter.get_visible at h
  obtain ⟨pair, hmem, hfst⟩ := List.mem_map.mp h
  have hfil := List.mem_filter.mp hmem
  have hlk : dictLookup pair.1 p.traces = some pair.2 :=
    dictLookup_of_mem_nodup hfil.1 hnd
  rw [hfst] at hlk
  exact ⟨pair.2, hlk, hfil.2⟩

theorem mem_get_visible {p : Plotter} {n : String} {tr : Trace}
    (hl : dictLookup n p.traces = some tr) (hv : tr.visible = true) :
    n ∈ p.get_visible := by
  unfold Plotter.get_visible
  exact List.mem_map.mpr ⟨(n, tr), List.mem_filter.mpr ⟨dictLookup_mem hl, hv⟩, rfl⟩

/-- The frame relation of one reconciliation operation relative to a set of
protected names `P`: tracked series, trace series data, plotted-dataframe
keys and plotted-dataframe memberships at protected names are preserved. -/
def Spares (P : String → Prop) (mm mm' : PlotterModel) : Prop :=
  (∀ a, P a → dictLookup a mm'.series_dict = dictLookup a mm.series_dict) ∧
  (∀ a, P a → ∀ tr', dictLookup a mm'.plotter.traces = some tr' →
    ∃ tr, dictLookup a mm.plotter.traces = some tr ∧ tr'.series = tr.series) ∧
  (∀ k, P k → dictContains k mm'.plotted_dfs = true →
    dictContains k mm.plotted_dfs = true) ∧
  (∀ d2 mems2 a, P d2 → P a → dictLookup d2 mm.plotted_dfs = some mems2 →
    a ∈ mems2 → ∃ mems', dictLookup d2 mm'.plotted_dfs = some mems' ∧ a ∈ mems')

theorem Spares_refl (P : String → Prop) (mm : PlotterModel) : Spares P mm mm :=
  ⟨fun _ _ => rfl, fun _ _ tr' h => ⟨tr', h, rfl⟩, fun _ _ h => h,
    fun _ mems2 _ _ _ h hm => ⟨mems2, h, hm⟩⟩

theorem Spares_trans {P : String → Prop} {mm1 mm2 mm3 : PlotterModel}
    (h12 : Spares P mm1 mm2) (h23 : Spares P mm2 mm3) : Spares P mm1 mm3 := by
  obtain ⟨a12, b12, c12, d12⟩ := h12
  obtain ⟨a23, b23, c23, d23⟩ := h23
  refine ⟨fun a hP => (a23 a hP).trans (a12 a hP), ?_,
    fun k hP h => c12 k hP (c23 k hP h), ?_⟩
  · intro a hP tr3 h3
    obtain ⟨tr2, h2, hs32⟩ := b23 a hP tr3 h3
    obtain ⟨tr1, h1, hs21⟩ := b12 a hP tr2 h2
    exact ⟨tr1, h1, hs32.trans hs21⟩
  · intro d2 mems a hPd hPa h1 hm1
    obtain ⟨m2, h2, hm2⟩ := d12 d2 mems a hPd hPa h1 hm1
    exact d23 d2 m2 a hPd hPa h2 hm2

theorem EntryStable_spares {mm mm' : PlotterModel} {nv : String × PObj}
    (hsp : Spares (fun a => a ∈ entryNames nv) mm mm')
    (hes : EntryStable mm nv) : EntryStable mm' nv := by
  obtain ⟨hsd, htr, hpc, hpm⟩ := hsp
  obtain ⟨n, v⟩ := nv
  have hPn : n ∈ entryNames (n, v) := List.mem_cons_self _ _
  cases v with
  | series s =>
    obtain ⟨h1, h2⟩ := hes
    constructor
    · intro hp
      obtain ⟨ha, hb, hc⟩ := h1 hp
      refine ⟨?_, ?_, ?_⟩
      · rw [hsd n hPn]
        exact ha
      · cases hcc : dictContains n mm'.plotted_dfs with
        | false => rfl
        | true =>
          have h3 := hpc n hPn hcc
          rw [hb] at h3
          exact Bool.noConfusion h3
      · intro tr' hl'
        obtain ⟨tr, hl, hs⟩ := htr n hPn tr' hl'
        rw [hs]
        exact hc tr hl
    · intro hnp
      obtain ⟨ha, hb⟩ := h2 hnp
      constructor
      · show (dictLookup n mm'.series_dict).isSome = false
        rw [hsd n hPn]
        exact ha
      · cases hcc : dictContains n mm'.plotted_dfs with
        | false => rfl
        | true =>
          have h3 := hpc n hPn hcc
          rw [hb] at h3
          exact Bool.noConfusion h3
  | dataframe cols =>
    obtain ⟨h1, h2⟩ := hes
    refine ⟨?_, ?_⟩
    · show (dictLookup n mm'.series_dict).isSome = false
      rw [hsd n hPn]
      exact h1
    · intro c hc
      have hPc : compositeName n c.1 ∈ entryNames (n, PObj.dataframe cols) :=
        List.mem_cons_of_mem _ (List.mem_map.mpr ⟨c, hc, rfl⟩)
      obtain ⟨ha, hb⟩ := h2 c hc
      constructor
      · intro hp
        obtain ⟨hx, hy, hz⟩ := ha hp
        obtain ⟨mems, hlm, hcm⟩ := hy
        refine ⟨?_, ?_, ?_⟩
        · rw [hsd _ hPc]
          exact hx
        · exact hpm n mems _ hPn hPc hlm hcm
        · intro tr' hl'
          obtain ⟨tr, hl, hs⟩ := htr _ hPc tr' hl'
          rw [hs]
          exact hz tr hl
      · intro hnp
        show (dictLookup (compositeName n c.1) mm'.series_dict).isSome = false
        rw [hsd _ hPc]
        exact hb hnp
  | other =>
    obtain ⟨h1, h2⟩ := hes
    constructor
    · show (dictLookup n mm'.series_dict).isSome = false
      rw [hsd n hPn]
      exact h1
    · cases hcc : dictContains n mm'.plotted_dfs with
      | false => rfl
      | true =>
        have h3 := hpc n hPn hcc
        rw [h2] at h3
        exact Bool.noConfusion h3

theorem not_PlotComp_head {snap : Snapshot}
    (hcross : ∀ nv ∈ snap, ∀ nv2 ∈ snap, nv ≠ nv2 →
      ∀ a ∈ entryNames nv, a ∉ entryNames nv2)
    {nv : String × PObj} (hmem : nv ∈ snap) :
    ¬ PlotCompException snap nv.1 := by
  rintro ⟨d, cols2, hmem2, c, hc, hp, he⟩
  have hPc : compositeName d c.1 ∈ entryNames (d, PObj.dataframe cols2) :=
    List.mem_cons_of_mem _ (List.mem_map.mpr ⟨c, hc, rfl⟩)
  by_cases hne : nv = (d, PObj.dataframe cols2)
  · have hd : nv.1 = d := by rw [hne]
    rw [hd] at he
    exact compositeName_ne_base d c.1 he.symm
  · rw [← he] at hPc
    exact hcross nv hmem (d, PObj.dataframe cols2) hmem2 hne nv.1
      (List.mem_cons_self _ _) hPc

theorem not_PlotComp_nonplot {snap : Snapshot}
    (hent : ∀ nv ∈ snap, (entryNames nv).Nodup)
    (hcross : ∀ nv ∈ snap, ∀ nv2 ∈ snap, nv ≠ nv2 →
      ∀ a ∈ entryNames nv, a ∉ entryNames nv2)
    {n : String} {cols : List (String × PSeries)}
    (hmem : (n, PObj.dataframe cols) ∈ snap) {c : String × PSeries}
    (hc : c ∈ cols) (hnp : isPlottableSeries c.2 = false) :
    ¬ PlotCompException snap (compositeName n c.1) := by
  rintro ⟨d, cols2, hmem2, c2, hc2, hp2, he⟩
  by_cases hne : (n, PObj.dataframe cols) = (d, PObj.dataframe cols2)
  · injection hne with h1 h2
    injection h2 with h3
    subst h1
    subst h3
    have hceq : c.1 = c2.1 := compositeName_inj2 he
    have hnd := hent (n, PObj.dataframe cols) hmem
    have hmapnd : (cols.map (fun c3 => compositeName n c3.1)).Nodup := by
      have h4 : (n :: cols.map (fun c3 => compositeName n c3.1)).Nodup := hnd
      exact (List.nodup_cons.mp h4).2
    have hcc : c = c2 := List.inj_on_of_nodup_map hmapnd hc hc2 (by rw [hceq])
    rw [hcc, hp2] at hnp
    exact Bool.noConfusion hnp
  · have hPc1 : compositeName n c.1 ∈ entryNames (n, PObj.dataframe cols) :=
      List.mem_cons_of_mem _ (List.mem_map.mpr ⟨c, hc, rfl⟩)
    have hPc2 : compositeName d c2.1 ∈ entryNames (d, PObj.dataframe cols2) :=
      List.mem_cons_of_mem _ (List.mem_map.mpr ⟨c2, hc2, rfl⟩)
    rw [← he] at hPc2
    exact hcross _ hmem _ hmem2 hne _ hPc1 hPc2

theorem memsafe_not_ns {snap : Snapshot}
    (hcross : ∀ nv ∈ snap, ∀ nv2 ∈ snap, nv ≠ nv2 →
      ∀ a ∈ entryNames nv, a ∉ entryNames nv2)
    {e : String} {v : PObj} (hmem : (e, v) ∈ snap)
    (hnotdf : ∀ cols2, v ≠ PObj.dataframe cols2) {a : String}
    (hms : MemSafe snap e a) : a ∉ nsNames snap := by
  rcases hms with h | ⟨cols2, hmem2, _⟩
  · exact h
  · exfalso
    have hne : (e, v) ≠ (e, PObj.dataframe cols2) := by
      intro h2
      injection h2 with _ h3
      exact hnotdf cols2 h3
    exact hcross _ hmem _ hmem2 hne e (List.mem_cons_self _ _)
      (List.mem_cons_self _ _)

theorem memsafe_not_ns_of_dead {snap : Snapshot} {e a : String}
    (he : e ∉ nsNames snap) (hms : MemSafe snap e a) : a ∉ nsNames snap := by
  rcases hms with h | ⟨cols2, hmem2, _⟩
  · exact h
  · exact absurd (mem_nsNames_of_entry hmem2 (List.mem_cons_self _ _)) he

theorem plot_frame (p : Plotter) (b : Bool) :
    (p.plot b).traces = p.traces ∧ (p.plot b).force_shown = p.force_shown := by
  unfold Plotter.plot
  by_cases h : (!p.changed && !b) = true
  · rw [if_pos h]
    exact ⟨rfl, rfl⟩
  · rw [if_neg h]
    exact ⟨rfl, rfl⟩

theorem Stable_draw {snap : Snapshot} {m : PlotterModel}
    (h : Stable snap m) : Stable snap (m.draw false) := by
  obtain ⟨h1, h2, h3, h4, h5⟩ := h
  obtain ⟨ht, hf⟩ := plot_frame m.plotter false
  refine ⟨h1, h2, h3, ?_, ?_⟩
  · intro n hn
    have hg : (m.plotter.plot false).get_visible = m.plotter.get_visible := by
      unfold Plotter.get_visible
      rw [ht]
    have hn2 : n ∈ m.plotter.get_visible := by
      rw [← hg]
      exact hn
    rcases h4 n hn2 with h | h
    · exact Or.inl h
    · right
      show n ∈ (m.plotter.plot false).force_shown
      rw [hf]
      exact h
  · intro nv hnv
    apply EntryStable_spares ?_ (h5 nv hnv)
    refine ⟨fun a _ => rfl, ?_, fun k _ hk => hk,
      fun d2 mems2 a _ _ hl hm => ⟨mems2, hl, hm⟩⟩
    intro a _ tr' hl'
    refine ⟨tr', ?_, rfl⟩
    have hl2 : dictLookup a (m.plotter.plot false).traces = some tr' := hl'
    rw [ht] at hl2
    exact hl2

theorem add_trace_aux_keys (p1 : Plotter) (n : String) :
    ((match dictLookup n p1.traces with
      | none => p1
      | some tr =>
        let r := tr.update_visible (!p1.frozen)
        if r.1 then { p1 with traces := dictSet n r.2 p1.traces }
        else p1)).traces.map Prod.fst = p1.traces.map Prod.fst := by
  cases dictLookup n p1.traces with
  | none => rfl
  | some tr =>
    show (if (tr.update_visible (!p1.frozen)).1 = true then
        { p1 with traces := dictSet n (tr.update_visible (!p1.frozen)).2 p1.traces }
      else p1).traces.map Prod.fst = p1.traces.map Prod.fst
    by_cases hr : (tr.update_visible (!p1.frozen)).1 = true
    · rw [if_pos hr]
      exact dictSet_keys _ _ _
    · rw [if_neg hr]

theorem add_trace_keys_of_contains (p : Plotter) (n : String) (s : PSeries)
    (df : Option String) (hc : dictContains n p.traces = true) :
    (p.add_trace n s df).traces.map Prod.fst = p.traces.map Prod.fst := by
  unfold Plotter.add_trace
  rw [if_pos hc]
  exact (add_trace_aux_keys (p.update_trace_series n s) n).trans
    (update_trace_series_frame p n s).2.2.2.1

theorem add_trace_keys_of_not (p : Plotter) (n : String) (s : PSeries)
    (df : Option String) (hc : ¬ dictContains n p.traces = true) :
    (p.add_trace n s df).traces.map Prod.fst = p.traces.map Prod.fst ++ [n] := by
  unfold Plotter.add_trace
  rw [if_neg hc]
  show (p.traces ++
    [(n, (Trace.init n s p.traces.length p.max_series_length (!p.frozen) df).1)]).map
      Prod.fst = p.traces.map Prod.fst ++ [n]
  rw [List.map_append]
  rfl

theorem add_trace_keys_nodup (p : Plotter) (n : String) (s : PSeries)
    (df : Option String) (hnd : (p.traces.map Prod.fst).Nodup) :
    ((p.add_trace n s df).traces.map Prod.fst).Nodup := by
  by_cases hc : dictContains n p.traces = true
  · rw [add_trace_keys_of_contains p n s df hc]
    exact hnd
  · rw [add_trace_keys_of_not p n s df hc]
    refine List.nodup_append.mpr ⟨hnd, List.nodup_singleton n, ?_⟩
    intro x hx hmem
    rw [List.mem_singleton] at hmem
    subst hmem
    exact dictLookup_none_not_mem (lookup_none_of_not_contains hc) hx

/-- The second half of `_update_trace_if_changed` (after the group
bookkeeping), abstracted over the intermediate state. -/
def utStage2 (m1 : PlotterModel) (name : String) (series : PSeries)
    (df_name : Option String) : PlotterModel :=
  if dictContains name m1.series_dict then
    { m1 with
      series_dict := dictSet name series m1.series_dict
      plotter := m1.plotter.update_trace_series name series }
  else
    { m1 with
      series_dict := m1.series_dict ++ [(name, series)]
      plotter := m1.plotter.add_trace name series df_name }

theorem utStage2_facts (m1 : PlotterModel) (name : String) (series : PSeries)
    (df_name : Option String) :
    (utStage2 m1 name series df_name).ns_with_series = m1.ns_with_series ∧
    (utStage2 m1 name series df_name).plotted_dfs = m1.plotted_dfs ∧
    dictLookup name (utStage2 m1 name series df_name).series_dict = some series ∧
    (∀ a, a ≠ name → dictLookup a (utStage2 m1 name series df_name).series_dict
      = dictLookup a m1.series_dict) ∧
    ((m1.series_dict.map Prod.fst).Nodup →
      ((utStage2 m1 name series df_name).series_dict.map Prod.fst).Nodup) ∧
    (∀ k, dictContains k (utStage2 m1 name series df_name).series_dict = true →
      dictContains k m1.series_dict = true ∨ k = name) ∧
    ((m1.plotter.traces.map Prod.fst).Nodup →
      ((utStage2 m1 name series df_name).plotter.traces.map Prod.fst).Nodup) ∧
    (∀ a, a ≠ name →
      dictLookup a (utStage2 m1 name series df_name).plotter.traces
        = dictLookup a m1.plotter.traces) ∧
    (∀ tr', dictLookup name (utStage2 m1 name series df_name).plotter.traces
        = some tr' →
      series.index = tr'.series.index ∧ series.values = tr'.series.values) := by
  unfold utStage2
  by_cases hc : dictContains name m1.series_dict = true
  · rw [if_pos hc]
    obtain ⟨v, hv⟩ := dictContains_true_lookup hc
    refine ⟨rfl, rfl, ?_, ?_, ?_, ?_, ?_, ?_, ?_⟩
    · show dictLookup name (dictSet name series m1.series_dict) = some series
      rw [dictLookup_dictSet, if_pos rfl, hv]
      rfl
    · intro a ha
      show dictLookup a (dictSet name series m1.series_dict) = _
      rw [dictLookup_dictSet, if_neg ha]
    · intro hnd
      show ((dictSet name series m1.series_dict).map Prod.fst).Nodup
      rw [dictSet_keys]
      exact hnd
    · intro k hk
      exact Or.inl (dictSet_contains_mono name series m1.series_dict hk)
    · intro hnd
      show (((m1.plotter.update_trace_series name series)).traces.map Prod.fst).Nodup
      rw [(update_trace_series_frame m1.plotter name series).2.2.2.1]
      exact hnd
    · intro a ha
      exact (update_trace_series_frame m1.plotter name series).2.2.2.2.1 a ha
    · exact update_trace_series_matches m1.plotter name series
  · rw [if_neg hc]
    have hnone := lookup_none_of_not_contains hc
    refine ⟨rfl, rfl, ?_, ?_, ?_, ?_, ?_, ?_, ?_⟩
    · show dictLookup name (m1.series_dict ++ [(name, series)]) = some series
      rw [dictLookup_append, hnone]
      show dictLookup name [(name, series)] = some series
      rw [dictLookup_cons, if_pos rfl]
    · intro a ha
      show dictLookup a (m1.series_dict ++ [(name, series)]) = _
      rw [dictLookup_append]
      cases hla : dictLookup a m1.series_dict with
      | some v => rfl
      | none =>
        show dictLookup a [(name, series)] = none
        rw [dictLookup_cons, if_neg (fun h : name = a => ha h.symm)]
        rfl
    · intro hnd
      show (((m1.series_dict ++ [(name, series)])).map Prod.fst).Nodup
      rw [List.map_append]
      refine List.nodup_append.mpr ⟨hnd, List.nodup_singleton name, ?_⟩
      intro x hx hmem
      have hxn : x = name := List.mem_singleton.mp hmem
      subst hxn
      exact dictLookup_none_not_mem hnone hx
    · intro k hk
      exact dictAppend_contains_mono name series m1.series_dict hk
    · intro hnd
      exact add_trace_keys_nodup m1.plotter name series df_name hnd
    · intro a ha
      exact add_trace_lookup_ne m1.plotter name series df_name a ha
    · exact add_trace_matches m1.plotter name series df_name

theorem utic_eq_aux (m : PlotterModel) (name : String) (series : PSeries)
    (d : String) (r : PlotterModel)
    (hr : r = (let m1 :=
        match dictLookup d m.plotted_dfs with
        | some mems =>
          { m with plotted_dfs := dictSet d (listInsertSet name mems) m.plotted_dfs }
        | none =>
          if dictContains d m.series_dict then m
          else { m with plotted_dfs := m.plotted_dfs ++ [(d, [name])] }
      if dictContains name m1.series_dict then
        { m1 with
          series_dict := dictSet name series m1.series_dict
          plotter := m1.plotter.update_trace_series name series }
      else
        { m1 with
          series_dict := m1.series_dict ++ [(name, series)]
          plotter := m1.plotter.add_trace name series (some d) })) :
    ∃ pd : Dict (List String),
      r = utStage2 { m with plotted_dfs := pd } name series (some d) ∧
      ((some d = (none : Option String) ∧ pd = m.plotted_dfs) ∨
       (∃ d2, some d = some d2 ∧
         ((∃ mems, dictLookup d2 m.plotted_dfs = some mems ∧
            pd = dictSet d2 (listInsertSet name mems) m.plotted_dfs) ∨
          (dictLookup d2 m.plotted_dfs = none ∧
            dictContains d2 m.series_dict = true ∧ pd = m.plotted_dfs) ∨
          (dictLookup d2 m.plotted_dfs = none ∧
            dictContains d2 m.series_dict = false ∧
            pd = m.plotted_dfs ++ [(d2, [name])])))) := by
  revert hr
  cases hld : dictLookup d m.plotted_dfs with
  | some mems =>
    intro hr
    exact ⟨dictSet d (listInsertSet name mems) m.plotted_dfs, hr,
      Or.inr ⟨d, rfl, Or.inl ⟨mems, hld, rfl⟩⟩⟩
  | none =>
    intro hr
    by_cases hc : dictContains d m.series_dict = true
    · refine ⟨m.plotted_dfs, ?_, Or.inr ⟨d, rfl, Or.inr (Or.inl ⟨hld, hc, rfl⟩)⟩⟩
      rw [hr]
      exact congrArg (fun z => utStage2 z name series (some d)) (if_pos hc)
    · refine ⟨m.plotted_dfs ++ [(d, [name])], ?_,
        Or.inr ⟨d, rfl, Or.inr (Or.inr ⟨hld, bool_false_of_not_true hc, rfl⟩)⟩⟩
      rw [hr]
      exact congrArg (fun z => utStage2 z name series (some d)) (if_neg hc)

theorem utic_eq (m : PlotterModel) (name : String) (series : PSeries)
    (df_name : Option String) :
    ∃ pd : Dict (List String),
      m.updateTraceIfChanged name series df_name
        = utStage2 { m with plotted_dfs := pd } name series df_name ∧
      ((df_name = none ∧ pd = m.plotted_dfs) ∨
       (∃ d, df_name = some d ∧
         ((∃ mems, dictLookup d m.plotted_dfs = some mems ∧
            pd = dictSet d (listInsertSet name mems) m.plotted_dfs) ∨
          (dictLookup d m.plotted_dfs = none ∧
            dictContains d m.series_dict = true ∧ pd = m.plotted_dfs) ∨
          (dictLookup d m.plotted_dfs = none ∧
            dictContains d m.series_dict = false ∧
            pd = m.plotted_dfs ++ [(d, [name])])))) := by
  unfold PlotterModel.updateTraceIfChanged
  cases df_name with
  | none => exact ⟨m.plotted_dfs, rfl, Or.inl ⟨rfl, rfl⟩⟩
  | some d => exact utic_eq_aux m name series d _ rfl

theorem utic_facts (m : PlotterModel) (name : String) (series : PSeries)
    (df_name : Option String) :
    (m.updateTraceIfChanged name series df_name).ns_with_series
      = m.ns_with_series ∧
    dictLookup name (m.updateTraceIfChanged name series df_name).series_dict
      = some series ∧
    (∀ a, a ≠ name →
      dictLookup a (m.updateTraceIfChanged name series df_name).series_dict
        = dictLookup a m.series_dict) ∧
    ((m.series_dict.map Prod.fst).Nodup →
      ((m.updateTraceIfChanged name series df_name).series_dict.map Prod.fst).Nodup) ∧
    (∀ k, dictContains k (m.updateTraceIfChanged name series df_name).series_dict
        = true → dictContains k m.series_dict = true ∨ k = name) ∧
    ((m.plotter.traces.map Prod.fst).Nodup →
      ((m.updateTraceIfChanged name series df_name).plotter.traces.map
        Prod.fst).Nodup) ∧
    (∀ a, a ≠ name →
      dictLookup a (m.updateTraceIfChanged name series df_name).plotter.traces
        = dictLookup a m.plotter.traces) ∧
    (∀ tr', dictLookup name
        (m.updateTraceIfChanged name series df_name).plotter.traces = some tr' →
      series.index = tr'.series.index ∧ series.values = tr'.series.values) ∧
    (∀ a, (∀ d, df_name = some d → a ≠ d) →
      dictLookup a (m.updateTraceIfChanged name series df_name).plotted_dfs
        = dictLookup a m.plotted_dfs) ∧
    (∀ k, dictContains k (m.updateTraceIfChanged name series df_name).plotted_dfs
        = true → dictContains k m.plotted_dfs = true ∨ df_name = some k) ∧
    ((m.plotted_dfs.map Prod.fst).Nodup →
      ((m.updateTraceIfChanged name series df_name).plotted_dfs.map
        Prod.fst).Nodup) ∧
    (∀ d2 mems2 a, dictLookup d2 m.plotted_dfs = some mems2 → a ∈ mems2 →
      ∃ mems', dictLookup d2
        (m.updateTraceIfChanged name series df_name).plotted_dfs = some mems' ∧
        a ∈ mems') ∧
    (∀ d, df_name = some d → dictContains d m.series_dict = false →
      ∃ mems', dictLookup d
        (m.updateTraceIfChanged name series df_name).plotted_dfs = some mems' ∧
        name ∈ mems') := by
  obtain ⟨pd, heq, hspec⟩ := utic_eq m name series df_name
  rw [heq]
  obtain ⟨f1, f2, f3, f4, f5, f6, f7, f8, f9⟩ :=
    utStage2_facts { m with plotted_dfs := pd } name series df_name
  refine ⟨f1, f3, f4, f5, f6, f7, f8, f9, ?_, ?_, ?_, ?_, ?_⟩
  · intro a ha
    rw [f2]
    show dictLookup a pd = dictLookup a m.plotted_dfs
    rcases hspec with ⟨_, hpd⟩ | ⟨d, hdf, hcase⟩
    · rw [hpd]
    · have had : a ≠ d := ha d hdf
      rcases hcase with ⟨mems, _, hpd⟩ | ⟨_, _, hpd⟩ | ⟨_, _, hpd⟩
      · rw [hpd, dictLookup_dictSet, if_neg had]
      · rw [hpd]
      · rw [hpd, dictLookup_append]
        cases hla : dictLookup a m.plotted_dfs with
        | some v => rfl
        | none =>
          show dictLookup a [(d, [name])] = none
          rw [dictLookup_cons, if_neg (fun h : d = a => had h.symm)]
          rfl
  · intro k hk
    rw [f2] at hk
    have hk2 : dictContains k pd = true := hk
    rcases hspec with ⟨_, hpd⟩ | ⟨d, hdf, hcase⟩
    · rw [hpd] at hk2
      exact Or.inl hk2
    · rcases hcase with ⟨mems, _, hpd⟩ | ⟨_, _, hpd⟩ | ⟨_, _, hpd⟩
      · rw [hpd] at hk2
        exact Or.inl (dictSet_contains_mono d _ _ hk2)
      · rw [hpd] at hk2
        exact Or.inl hk2
      · rw [hpd] at hk2
        rcases dictAppend_contains_mono d [name] m.plotted_dfs hk2 with h | h
        · exact Or.inl h
        · right
          rw [hdf, h]
  · intro hnd
    rw [f2]
    show (pd.map Prod.fst).Nodup
    rcases hspec with ⟨_, hpd⟩ | ⟨d, hdf, hcase⟩
    · rw [hpd]
      exact hnd
    · rcases hcase with ⟨mems, _, hpd⟩ | ⟨_, _, hpd⟩ | ⟨hld, _, hpd⟩
      · rw [hpd, dictSet_keys]
        exact hnd
      · rw [hpd]
        exact hnd
      · rw [hpd, List.map_append]
        have hone : ([(d, [name])] : Dict (List String)).map Prod.fst = [d] := rfl
        rw [hone]
        refine List.nodup_append.mpr ⟨hnd, List.nodup_singleton d, ?_⟩
        intro x hx hmem
        have hxd : x = d := List.mem_singleton.mp hmem
        subst hxd
        exact dictLookup_none_not_mem hld hx
  · intro d2 mems2 a hl hm
    rw [f2]
    rcases hspec with ⟨_, hpd⟩ | ⟨d, hdf, hcase⟩
    · refine ⟨mems2, ?_, hm⟩
      show dictLookup d2 pd = some mems2
      rw [hpd]
      exact hl
    · rcases hcase with ⟨mems, hld, hpd⟩ | ⟨_, _, hpd⟩ | ⟨_, _, hpd⟩
      · by_cases hdd : d2 = d
        · subst hdd
          rw [hl] at hld
          have hme : mems2 = mems := by injection hld
          refine ⟨listInsertSet name mems, ?_, ?_⟩
          · show dictLookup d2 pd = some (listInsertSet name mems)
            rw [hpd, dictLookup_dictSet, if_pos rfl, hl]
            rfl
          · exact mem_listInsertSet.mpr (Or.inr (hme ▸ hm))
        · refine ⟨mems2, ?_, hm⟩
          show dictLookup d2 pd = some mems2
          rw [hpd, dictLookup_dictSet, if_neg hdd]
          exact hl
      · refine ⟨mems2, ?_, hm⟩
        show dictLookup d2 pd = some mems2
        rw [hpd]
        exact hl
      · refine ⟨mems2, ?_, hm⟩
        show dictLookup d2 pd = some mems2
        rw [hpd, dictLookup_append, hl]
  · intro d0 hdf0 hcf
    rw [f2]
    rcases hspec with ⟨hdf, _⟩ | ⟨d, hdf, hcase⟩
    · rw [hdf] at hdf0
      exact Option.noConfusion hdf0
    · rw [hdf] at hdf0
      have hd0 : d = d0 := by injection hdf0
      subst hd0
      rcases hcase with ⟨mems, hld, hpd⟩ | ⟨_, hcd, _⟩ | ⟨hld, _, hpd⟩
      · refine ⟨listInsertSet name mems, ?_, mem_listInsertSet.mpr (Or.inl rfl)⟩
        show dictLookup d pd = some (listInsertSet name mems)
        rw [hpd, dictLookup_dictSet, if_pos rfl, hld]
        rfl
      · rw [hcd] at hcf
        exact Bool.noConfusion hcf
      · refine ⟨[name], ?_, List.mem_singleton.mpr rfl⟩
        show dictLookup d pd = some [name]
        rw [hpd, dictLookup_append, hld]
        show dictLookup d [(d, [name])] = some [name]
        rw [dictLookup_cons, if_pos rfl]

theorem contains_of_mem_keys {α : Type} {k : String} {d : Dict α}
    (h : k ∈ d.map Prod.fst) : dictContains k d = true := by
  induction d with
  | nil => exact absurd h (List.not_mem_nil _)
  | cons p rest ih =>
    rw [List.map_cons] at h
    by_cases hp : p.1 = k
    · rw [dictContains, dictLookup_cons, if_pos hp]
      rfl
    · rcases List.mem_cons.mp h with he | hm
      · exact absurd he.symm hp
      · rw [dictContains, dictLookup_cons, if_neg hp]
        exact ih hm

theorem utic_members (m : PlotterModel) (name : String) (series : PSeries)
    (df_name : Option String) :
    ∀ pr' ∈ (m.updateTraceIfChanged name series df_name).plotted_dfs,
      ∀ a ∈ pr'.2, (df_name = some pr'.1 ∧ a = name) ∨
        ∃ pr ∈ m.plotted_dfs, pr.1 = pr'.1 ∧ a ∈ pr.2 := by
  obtain ⟨pd, heq, hspec⟩ := utic_eq m name series df_name
  rw [heq]
  intro pr' hpr' a ha
  have hpd' : pr' ∈ pd := by
    have h2 := (utStage2_facts { m with plotted_dfs := pd } name series df_name).2.1
    rw [h2] at hpr'
    exact hpr'
  rcases hspec with ⟨hdf, hpd⟩ | ⟨d, hdf, hcase⟩
  · rw [hpd] at hpd'
    exact Or.inr ⟨pr', hpd', rfl, ha⟩
  · rcases hcase with ⟨mems, hld, hpd⟩ | ⟨_, _, hpd⟩ | ⟨hld, _, hpd⟩
    · rw [hpd] at hpd'
      rcases mem_dictSet hpd' with he | hold
      · have ha2 : a ∈ listInsertSet name mems := by
          rw [he] at ha
          exact ha
        rcases mem_listInsertSet.mp ha2 with he2 | hmem2
        · left
          constructor
          · rw [hdf, he]
          · exact he2
        · right
          refine ⟨(d, mems), dictLookup_mem hld, ?_, hmem2⟩
          rw [he]
      · exact Or.inr ⟨pr', hold, rfl, ha⟩
    · rw [hpd] at hpd'
      exact Or.inr ⟨pr', hpd', rfl, ha⟩
    · rw [hpd] at hpd'
      rcases List.mem_append.mp hpd' with hold | hnew
      · exact Or.inr ⟨pr', hold, rfl, ha⟩
      · have he : pr' = (d, [name]) := List.mem_singleton.mp hnew
        left
        constructor
        · rw [hdf, he]
        · have ha2 : a ∈ [name] := by
            rw [he] at ha
            exact ha
          exact List.mem_singleton.mp ha2

theorem Inv_deleteTrace {snap : Snapshot} {m : PlotterModel}
    (hInv : Inv snap m) (e : String) : Inv snap (m.deleteTrace e) := by
  obtain ⟨h1, h2, h3, h4, h5, h6⟩ := hInv
  obtain ⟨g1, g2, g3, g4, g5, g6, g7, g8, g9, g10, g11, g12, g13, g14⟩ :=
    deleteTrace_facts m e
  refine ⟨List.Nodup.sublist g4 h1, g6 h2, ?_, ?_, ?_, ?_⟩
  · rw [g10]
    exact h3
  · intro pr' hpr' a ha
    obtain ⟨pr, hpr, hk, hsub⟩ := g7 pr' hpr'
    have hms := h4 pr hpr a (hsub a ha)
    rw [hk] at hms
    exact hms
  · intro k hks hkp
    exact h5 k (g3 k hks) (g5 k hkp)
  · intro pr' hpr' hns tr' hl'
    obtain ⟨pr, hpr, hk, _⟩ := g7 pr' hpr'
    obtain ⟨tr, hlt, _, hvp, _⟩ := g11 pr'.1 tr' hl'
    have hns2 : pr.1 ∉ nsNames snap := by
      rw [hk]
      exact hns
    have hlt2 : dictLookup pr.1 m.plotter.traces = some tr := by
      rw [hk]
      exact hlt
    exact hvp (h6 pr hpr hns2 tr hlt2)

theorem Inv_updateTraceIfChanged {snap : Snapshot} {m : PlotterModel}
    (hInv : Inv snap m) {name : String} {series : PSeries}
    {df_name : Option String}
    (hname_ns : name ∈ nsNames snap)
    (hne : ∀ d, df_name = some d → name ≠ d)
    (hd_ns : ∀ d, df_name = some d → d ∈ nsNames snap)
    (hms : ∀ d, df_name = some d → MemSafe snap d name)
    (hexc : dictContains name m.plotted_dfs = true → PlotCompException snap name)
    (hdsd : ∀ d, df_name = some d → dictContains d m.series_dict = false ∨
      dictContains d m.plotted_dfs = true) :
    Inv snap (m.updateTraceIfChanged name series df_name) := by
  obtain ⟨h1, h2, h3, h4, h5, h6⟩ := hInv
  obtain ⟨u1, u2, u3, u4, u5, u6, u7, u8, u9, u10, u11, u12, u13⟩ :=
    utic_facts m name series df_name
  refine ⟨u4 h1, u11 h2, u6 h3, ?_, ?_, ?_⟩
  · intro pr' hpr' a ha
    rcases utic_members m name series df_name pr' hpr' a ha with
      ⟨hdf', han⟩ | ⟨pr, hpr, hk, ha2⟩
    · rw [han]
      exact hms pr'.1 hdf'
    · have hms2 := h4 pr hpr a ha2
      rw [hk] at hms2
      exact hms2
  · intro k hks hkp
    rcases u5 k hks with hks2 | hkn
    · rcases u10 k hkp with hkp2 | hdfk
      · exact h5 k hks2 hkp2
      · rcases hdsd k hdfk with hf | ht
        · rw [hks2] at hf
          exact Bool.noConfusion hf
        · exact h5 k hks2 ht
    · subst hkn
      rcases u10 k hkp with hkp2 | hdfk
      · exact hexc hkp2
      · exact absurd rfl (hne k hdfk)
  · intro pr' hpr' hns tr' hl'
    have hck : dictContains pr'.1
        (m.updateTraceIfChanged name series df_name).plotted_dfs = true :=
      contains_of_mem_keys (List.mem_map.mpr ⟨pr', hpr', rfl⟩)
    rcases u10 pr'.1 hck with hold | hdfk
    · have hne_name : pr'.1 ≠ name := fun he => hns (he ▸ hname_ns)
      rw [u7 pr'.1 hne_name] at hl'
      obtain ⟨v, hv⟩ := dictContains_true_lookup hold
      exact h6 (pr'.1, v) (dictLookup_mem hv) hns tr' hl'
    · exact absurd (hd_ns pr'.1 hdfk) hns

/-- `ns_with_series.add(name)`. -/
def nsAdd (m : PlotterModel) (n : String) : PlotterModel :=
  { m with ns_with_series := listInsertSet n m.ns_with_series }

/-- The stale-dataframe deletion guarding `_add_trace_for_series`. -/
def staleDfDel (m : PlotterModel) (n : String) : PlotterModel :=
  if dictContains n m.plotted_dfs then m.deleteTrace n else m

/-- The stale-series deletion guarding `_add_traces_for_dataframe`, and the
stale-column deletion inside its column loop. -/
def staleSdDel (m : PlotterModel) (n : String) : PlotterModel :=
  if dictContains n m.series_dict then m.deleteTrace n else m

/-- The final delete-if-tracked fallback of
`_add_traces_for_namespace_vars`. -/
def delOrId (m : PlotterModel) (n : String) : PlotterModel :=
  if dictContains n m.series_dict || dictContains n m.plotted_dfs then
    m.deleteTrace n
  else m

/-- One column step of `_add_traces_for_dataframe`. -/
def colStep (n : String) (acc : PlotterModel) (cs : String × PSeries) :
    PlotterModel :=
  let sname := compositeName n cs.1
  let acc1 := { acc with ns_with_series := listInsertSet sname acc.ns_with_series }
  if isPlottableSeries cs.2 then acc1.updateTraceIfChanged sname cs.2 (some n)
  else if dictContains sname acc1.series_dict then acc1.deleteTrace sname
  else acc1

theorem addTraceForSeries_eq (m : PlotterModel) (n : String) (s : PSeries) :
    m.addTraceForSeries n (PObj.series s)
      = (if isPlottableSeries s = true then
          ((true, (staleDfDel m n).updateTraceIfChanged n s none)
            : Bool × PlotterModel)
        else (false, m)) := rfl

theorem addVarStep_series (m : PlotterModel) (n : String) (s : PSeries) :
    PlotterModel.addVarStep m (n, PObj.series s)
      = (if isPlottableSeries s = true then
          (staleDfDel (nsAdd m n) n).updateTraceIfChanged n s none
        else delOrId (nsAdd m n) n) := by
  unfold PlotterModel.addVarStep
  show (if ((nsAdd m n).addTraceForSeries n (PObj.series s)).1 = true then
      ((nsAdd m n).addTraceForSeries n (PObj.series s)).2
    else if ((nsAdd m n).addTracesForDataframe n (PObj.series s)).1 = true then
      ((nsAdd m n).addTracesForDataframe n (PObj.series s)).2
    else if (dictContains n (nsAdd m n).series_dict
        || dictContains n (nsAdd m n).plotted_dfs) = true then
      (nsAdd m n).deleteTrace n
    else nsAdd m n) = _
  rw [addTraceForSeries_eq]
  by_cases hp : isPlottableSeries s = true
  · rw [if_pos hp, if_pos hp]
    rfl
  · rw [if_neg hp, if_neg hp]
    rfl

theorem addVarStep_df (m : PlotterModel) (n : String)
    (cols : List (String × PSeries)) :
    PlotterModel.addVarStep m (n, PObj.dataframe cols)
      = cols.foldl (colStep n) (staleSdDel (nsAdd m n) n) := rfl

theorem addVarStep_other (m : PlotterModel) (n : String) :
    PlotterModel.addVarStep m (n, PObj.other) = delOrId (nsAdd m n) n := rfl

theorem colStep_eq (n : String) (acc : PlotterModel) (cs : String × PSeries) :
    colStep n acc cs
      = (if isPlottableSeries cs.2 = true then
          (nsAdd acc (compositeName n cs.1)).updateTraceIfChanged
            (compositeName n cs.1) cs.2 (some n)
        else staleSdDel (nsAdd acc (compositeName n cs.1))
          (compositeName n cs.1)) := rfl

theorem Spares_deleteTrace {P : String → Prop} (m : PlotterModel) (e : String)
    (hPe : ¬ P e)
    (hcasc : ∀ mems, dictLookup e m.plotted_dfs = some mems →
      ∀ a ∈ mems, ¬ P a) :
    Spares P m (m.deleteTrace e) := by
  obtain ⟨g1, g2, g3, g4, g5, g6, g7, g8, g9, g10, g11, g12, g13, g14⟩ :=
    deleteTrace_facts m e
  refine ⟨?_, ?_, fun k _ hk => g5 k hk, ?_⟩
  · intro a hPa
    exact g2 a (fun he => hPe (he ▸ hPa))
      (fun mems hl hm => hcasc mems hl a hm hPa)
  · intro a _ tr' hl'
    obtain ⟨tr, hl, hs, _, _⟩ := g11 a tr' hl'
    exact ⟨tr, hl, hs⟩
  · intro d2 mems2 a hPd hPa hl hm
    exact g9 d2 mems2 a (fun he => hPe (he ▸ hPd))
      (fun he => hPe (he ▸ hPa)) hl hm

theorem Spares_updateTraceIfChanged {P : String → Prop} (m : PlotterModel)
    (name : String) (series : PSeries) (df_name : Option String)
    (hPn : ¬ P name) (hPd : ∀ d, df_name = some d → ¬ P d) :
    Spares P m (m.updateTraceIfChanged name series df_name) := by
  obtain ⟨u1, u2, u3, u4, u5, u6, u7, u8, u9, u10, u11, u12, u13⟩ :=
    utic_facts m name series df_name
  refine ⟨?_, ?_, ?_, ?_⟩
  · intro a hPa
    exact u3 a (fun he => hPn (he ▸ hPa))
  · intro a hPa tr' hl'
    rw [u7 a (fun he => hPn (he ▸ hPa))] at hl'
    exact ⟨tr', hl', rfl⟩
  · intro k hPk hk
    rcases u10 k hk with h | h
    · exact h
    · exact absurd hPk (hPd k h)
  · intro d2 mems2 a _ _ hl hm
    exact u12 d2 mems2 a hl hm

/-- The frame of one entry's processing relative to every other current
entry: any set of protected names drawn from the namespace and disjoint
from the processed entry's own names is spared. -/
def SparesNs (snap : Snapshot) (nv : String × PObj) (mm mm' : PlotterModel) :
    Prop :=
  ∀ P : String → Prop, (∀ a, P a → a ∈ nsNames snap) →
    (∀ a, P a → a ∉ entryNames nv) → Spares P mm mm'

theorem staleDfDel_facts {snap : Snapshot} {m : PlotterModel}
    (hInv : Inv snap m) (n : String) :
    Inv snap (staleDfDel m n) ∧
    (staleDfDel m n).ns_with_series = m.ns_with_series ∧
    dictLookup n (staleDfDel m n).plotted_dfs = none := by
  unfold staleDfDel
  by_cases hc : dictContains n m.plotted_dfs = true
  · rw [if_pos hc]
    exact ⟨Inv_deleteTrace hInv n, (deleteTrace_facts m n).1,
      (deleteTrace_facts m n).2.2.2.2.2.2.2.1⟩
  · rw [if_neg hc]
    exact ⟨hInv, rfl, dictContains_false_lookup (bool_false_of_not_true hc)⟩

theorem staleSdDel_df_facts {snap : Snapshot} {m : PlotterModel}
    (hInv : Inv snap m) {n : String}
    (hnoexc : ¬ PlotCompException snap n) :
    Inv snap (staleSdDel m n) ∧
    (staleSdDel m n).ns_with_series = m.ns_with_series ∧
    dictContains n (staleSdDel m n).series_dict = false := by
  unfold staleSdDel
  by_cases hc : dictContains n m.series_dict = true
  · rw [if_pos hc]
    have hnp : dictLookup n m.plotted_dfs = none := by
      cases hcp : dictContains n m.plotted_dfs with
      | false => exact dictContains_false_lookup hcp
      | true => exact absurd (hInv.2.2.2.2.1 n hc hcp) hnoexc
    exact ⟨Inv_deleteTrace hInv n, (deleteTrace_facts m n).1,
      (deleteTrace_facts m n).2.2.2.2.2.2.2.2.2.2.2.1 hnp⟩
  · rw [if_neg hc]
    exact ⟨hInv, rfl, bool_false_of_not_true hc⟩

theorem delOrId_facts {snap : Snapshot} {m : PlotterModel}
    (hInv : Inv snap m) {n : String}
    (hnoexc : ¬ PlotCompException snap n) :
    Inv snap (delOrId m n) ∧
    (delOrId m n).ns_with_series = m.ns_with_series ∧
    dictContains n (delOrId m n).series_dict = false ∧
    dictContains n (delOrId m n).plotted_dfs = false := by
  unfold delOrId
  by_cases hc : (dictContains n m.series_dict || dictContains n m.plotted_dfs)
      = true
  · rw [if_pos hc]
    obtain ⟨g1, g2, g3, g4, g5, g6, g7, g8, g9, g10, g11, g12, g13, g14⟩ :=
      deleteTrace_facts m n
    have hpd' : dictContains n (m.deleteTrace n).plotted_dfs = false := by
      rw [dictContains, g8]
      rfl
    refine ⟨Inv_deleteTrace hInv n, g1, ?_, hpd'⟩
    cases hcs : dictContains n m.series_dict with
    | false =>
      cases hcc : dictContains n (m.deleteTrace n).series_dict with
      | false => rfl
      | true =>
        have h2 := g3 n hcc
        rw [hcs] at h2
        exact Bool.noConfusion h2
    | true =>
      have hnp : dictLookup n m.plotted_dfs = none := by
        cases hcp : dictContains n m.plotted_dfs with
        | false => exact dictContains_false_lookup hcp
        | true => exact absurd (hInv.2.2.2.2.1 n hcs hcp) hnoexc
      exact g12 hnp
  · rw [if_neg hc]
    have h2 : dictContains n m.series_dict = false ∧
        dictContains n m.plotted_dfs = false := by
      cases hcs : dictContains n m.series_dict with
      | true => exact absurd (by rw [hcs]; rfl) hc
      | false =>
        cases hcp : dictContains n m.plotted_dfs with
        | true => exact absurd (by rw [hcs, hcp]; rfl) hc
        | false => exact ⟨rfl, rfl⟩
    exact ⟨hInv, rfl, h2.1, h2.2⟩

theorem Spares_delOrId {snap : Snapshot} {P : String → Prop}
    {m : PlotterModel} {n : String} {v : PObj}
    (hcross : ∀ nv ∈ snap, ∀ nv2 ∈ snap, nv ≠ nv2 →
      ∀ a ∈ entryNames nv, a ∉ entryNames nv2)
    (hmem : (n, v) ∈ snap) (hnotdf : ∀ cols2, v ≠ PObj.dataframe cols2)
    (hInv : Inv snap m) (hPns : ∀ a, P a → a ∈ nsNames snap)
    (hPn : ¬ P n) : Spares P m (delOrId m n) := by
  unfold delOrId
  by_cases hc : (dictContains n m.series_dict || dictContains n m.plotted_dfs)
      = true
  · rw [if_pos hc]
    apply Spares_deleteTrace _ _ hPn
    intro mems hl a ha hPa
    have hms := hInv.2.2.2.1 (n, mems) (dictLookup_mem hl) a ha
    exact memsafe_not_ns hcross hmem hnotdf hms (hPns a hPa)
  · rw [if_neg hc]
    exact Spares_refl P m

theorem Spares_staleDfDel {snap : Snapshot} {P : String → Prop}
    {m : PlotterModel} {n : String} {v : PObj}
    (hcross : ∀ nv ∈ snap, ∀ nv2 ∈ snap, nv ≠ nv2 →
      ∀ a ∈ entryNames nv, a ∉ entryNames nv2)
    (hmem : (n, v) ∈ snap) (hnotdf : ∀ cols2, v ≠ PObj.dataframe cols2)
    (hInv : Inv snap m) (hPns : ∀ a, P a → a ∈ nsNames snap)
    (hPn : ¬ P n) : Spares P m (staleDfDel m n) := by
  unfold staleDfDel
  by_cases hc : dictContains n m.plotted_dfs = true
  · rw [if_pos hc]
    apply Spares_deleteTrace _ _ hPn
    intro mems hl a ha hPa
    have hms := hInv.2.2.2.1 (n, mems) (dictLookup_mem hl) a ha
    exact memsafe_not_ns hcross hmem hnotdf hms (hPns a hPa)
  · rw [if_neg hc]
    exact Spares_refl P m

theorem addVarStep_series_plot_bundle (snap : Snapshot)
    (hcross : ∀ nv ∈ snap, ∀ nv2 ∈ snap, nv ≠ nv2 →
      ∀ a ∈ entryNames nv, a ∉ entryNames nv2)
    (m : PlotterModel) (n : String) (s : PSeries)
    (hmem : (n, PObj.series s) ∈ snap) (hp : isPlottableSeries s = true)
    (hInv : Inv snap m) :
    Inv snap (PlotterModel.addVarStep m (n, PObj.series s)) ∧
    (PlotterModel.addVarStep m (n, PObj.series s)).ns_with_series
      = listInsertSet n m.ns_with_series ∧
    EntryStable (PlotterModel.addVarStep m (n, PObj.series s))
      (n, PObj.series s) ∧
    SparesNs snap (n, PObj.series s) m
      (PlotterModel.addVarStep m (n, PObj.series s)) := by
  rw [addVarStep_series, if_pos hp]
  have hInvA : Inv snap (nsAdd m n) := hInv
  obtain ⟨hInvB, hnsB, hlB⟩ := staleDfDel_facts hInvA n
  obtain ⟨u1, u2, u3, u4, u5, u6, u7, u8, u9, u10, u11, u12, u13⟩ :=
    utic_facts (staleDfDel (nsAdd m n) n) n s none
  have hnns : n ∈ nsNames snap :=
    mem_nsNames_of_entry hmem (List.mem_cons_self _ _)
  have hInvC : Inv snap ((staleDfDel (nsAdd m n) n).updateTraceIfChanged
      n s none) := Inv_updateTraceIfChanged hInvB hnns
    (fun d hd => (Option.noConfusion hd : False).elim) (fun d hd => (Option.noConfusion hd : False).elim)
    (fun d hd => (Option.noConfusion hd : False).elim)
    (fun hcp => by
      rw [dictContains, hlB] at hcp
      exact Bool.noConfusion hcp)
    (fun d hd => (Option.noConfusion hd : False).elim)
  refine ⟨hInvC, ?_, ?_, ?_⟩
  · rw [u1, hnsB]
    rfl
  · constructor
    · intro _
      refine ⟨u2, ?_, fun tr hl => u8 tr hl⟩
      cases hcc : dictContains n ((staleDfDel (nsAdd m n) n).updateTraceIfChanged
          n s none).plotted_dfs with
      | false => rfl
      | true =>
        rcases u10 n hcc with h | h
        · rw [dictContains, hlB] at h
          exact Bool.noConfusion h
        · exact Option.noConfusion h
    · intro hnp
      rw [hp] at hnp
      exact Bool.noConfusion hnp
  · intro P hPns hPd
    have hPn : ¬ P n := fun hPa => hPd n hPa (List.mem_cons_self _ _)
    have hSB : Spares P (nsAdd m n) (staleDfDel (nsAdd m n) n) :=
      Spares_staleDfDel hcross hmem (fun cols2 h => PObj.noConfusion h)
        hInvA hPns hPn
    exact Spares_trans hSB (Spares_updateTraceIfChanged _ n s none hPn
      (fun d hd => (Option.noConfusion hd : False).elim))

theorem addVarStep_series_nonplot_bundle (snap : Snapshot)
    (hcross : ∀ nv ∈ snap, ∀ nv2 ∈ snap, nv ≠ nv2 →
      ∀ a ∈ entryNames nv, a ∉ entryNames nv2)
    (m : PlotterModel) (n : String) (s : PSeries)
    (hmem : (n, PObj.series s) ∈ snap) (hp : isPlottableSeries s = false)
    (hInv : Inv snap m) :
    Inv snap (PlotterModel.addVarStep m (n, PObj.series s)) ∧
    (PlotterModel.addVarStep m (n, PObj.series s)).ns_with_series
      = listInsertSet n m.ns_with_series ∧
    EntryStable (PlotterModel.addVarStep m (n, PObj.series s))
      (n, PObj.series s) ∧
    SparesNs snap (n, PObj.series s) m
      (PlotterModel.addVarStep m (n, PObj.series s)) := by
  rw [addVarStep_series, hp, if_neg (show ¬(false = true) by decide)]
  have hInvA : Inv snap (nsAdd m n) := hInv
  have hnoexc : ¬ PlotCompException snap n := not_PlotComp_head hcross hmem
  obtain ⟨hInvD, hnsD, hsdD, hpdD⟩ := delOrId_facts hInvA hnoexc
  refine ⟨hInvD, ?_, ?_, ?_⟩
  · rw [hnsD]
    rfl
  · constructor
    · intro h
      rw [hp] at h
      exact Bool.noConfusion h
    · intro _
      exact ⟨hsdD, hpdD⟩
  · intro P hPns hPd
    have hPn : ¬ P n := fun hPa => hPd n hPa (List.mem_cons_self _ _)
    exact Spares_delOrId hcross hmem (fun cols2 h => PObj.noConfusion h)
      hInvA hPns hPn

theorem addVarStep_other_bundle (snap : Snapshot)
    (hcross : ∀ nv ∈ snap, ∀ nv2 ∈ snap, nv ≠ nv2 →
      ∀ a ∈ entryNames nv, a ∉ entryNames nv2)
    (m : PlotterModel) (n : String)
    (hmem : (n, PObj.other) ∈ snap) (hInv : Inv snap m) :
    Inv snap (PlotterModel.addVarStep m (n, PObj.other)) ∧
    (PlotterModel.addVarStep m (n, PObj.other)).ns_with_series
      = listInsertSet n m.ns_with_series ∧
    EntryStable (PlotterModel.addVarStep m (n, PObj.other)) (n, PObj.other) ∧
    SparesNs snap (n, PObj.other) m
      (PlotterModel.addVarStep m (n, PObj.other)) := by
  rw [addVarStep_other]
  have hInvA : Inv snap (nsAdd m n) := hInv
  have hnoexc : ¬ PlotCompException snap n := not_PlotComp_head hcross hmem
  obtain ⟨hInvD, hnsD, hsdD, hpdD⟩ := delOrId_facts hInvA hnoexc
  refine ⟨hInvD, ?_, ⟨hsdD, hpdD⟩, ?_⟩
  · rw [hnsD]
    rfl
  · intro P hPns hPd
    have hPn : ¬ P n := fun hPa => hPd n hPa (List.mem_cons_self _ _)
    exact Spares_delOrId hcross hmem (fun cols2 h => PObj.noConfusion h)
      hInvA hPns hPn

theorem colStep_bundle (snap : Snapshot)
    (hent : ∀ nv ∈ snap, (entryNames nv).Nodup)
    (hcross : ∀ nv ∈ snap, ∀ nv2 ∈ snap, nv ≠ nv2 →
      ∀ a ∈ entryNames nv, a ∉ entryNames nv2)
    {n : String} {cols : List (String × PSeries)}
    (hmem : (n, PObj.dataframe cols) ∈ snap)
    (acc : PlotterModel) (cs : String × PSeries) (hcs : cs ∈ cols)
    (hInv : Inv snap acc) (hW2 : dictContains n acc.series_dict = false) :
    Inv snap (colStep n acc cs) ∧
    dictContains n (colStep n acc cs).series_dict = false ∧
    (colStep n acc cs).ns_with_series
      = listInsertSet (compositeName n cs.1) acc.ns_with_series ∧
    ColOK (colStep n acc cs) n cs ∧
    (∀ c2 ∈ cols, c2 ≠ cs → ColOK acc n c2 → ColOK (colStep n acc cs) n c2) ∧
    (∀ P : String → Prop, (∀ a, P a → a ∈ nsNames snap) →
      (∀ a, P a → a ∉ entryNames (n, PObj.dataframe cols)) →
      Spares P acc (colStep n acc cs)) := by
  have hsn_en : compositeName n cs.1 ∈ entryNames (n, PObj.dataframe cols) :=
    List.mem_cons_of_mem _ (List.mem_map.mpr ⟨cs, hcs, rfl⟩)
  have hsnns : compositeName n cs.1 ∈ nsNames snap :=
    mem_nsNames_of_entry hmem hsn_en
  have hnns : n ∈ nsNames snap :=
    mem_nsNames_of_entry hmem (List.mem_cons_self _ _)
  have hmapnd : (cols.map (fun c3 => compositeName n c3.1)).Nodup :=
    (List.nodup_cons.mp
      (show (n :: cols.map (fun c3 => compositeName n c3.1)).Nodup from
        hent (n, PObj.dataframe cols) hmem)).2
  have hcompne : ∀ c2 ∈ cols, c2 ≠ cs →
      compositeName n c2.1 ≠ compositeName n cs.1 := by
    intro c2 hc2 hne he
    exact hne (List.inj_on_of_nodup_map hmapnd hc2 hcs he)
  rw [colStep_eq]
  by_cases hp : isPlottableSeries cs.2 = true
  · rw [if_pos hp]
    have hInvA : Inv snap (nsAdd acc (compositeName n cs.1)) := hInv
    have hInvC : Inv snap
        ((nsAdd acc (compositeName n cs.1)).updateTraceIfChanged
          (compositeName n cs.1) cs.2 (some n)) :=
      Inv_updateTraceIfChanged hInvA hsnns
        (fun d hd => by
          injection hd with h2
          rw [← h2]
          exact compositeName_ne_base n cs.1)
        (fun d hd => by
          injection hd with h2
          rw [← h2]
          exact hnns)
        (fun d hd => by
          injection hd with h2
          rw [← h2]
          exact Or.inr ⟨cols, hmem, cs, hcs, rfl⟩)
        (fun _ => ⟨n, cols, hmem, cs, hcs, hp, rfl⟩)
        (fun d hd => by
          injection hd with h2
          rw [← h2]
          exact Or.inl hW2)
    obtain ⟨u1, u2, u3, u4, u5, u6, u7, u8, u9, u10, u11, u12, u13⟩ :=
      utic_facts (nsAdd acc (compositeName n cs.1)) (compositeName n cs.1)
        cs.2 (some n)
    refine ⟨hInvC, ?_, ?_, ?_, ?_, ?_⟩
    · cases hcc : dictContains n
          ((nsAdd acc (compositeName n cs.1)).updateTraceIfChanged
            (compositeName n cs.1) cs.2 (some n)).series_dict with
      | false => rfl
      | true =>
        rcases u5 n hcc with h | h
        · have h2 : dictContains n acc.series_dict = true := h
          rw [hW2] at h2
          exact Bool.noConfusion h2
        · exact absurd h.symm (compositeName_ne_base n cs.1)
    · rw [u1]
      rfl
    · constructor
      · intro _
        exact ⟨u2, u13 n rfl hW2, fun tr hl => u8 tr hl⟩
      · intro hnp
        rw [hp] at hnp
        exact Bool.noConfusion hnp
    · intro c2 hc2 hne hok
      have hcne := hcompne c2 hc2 hne
      obtain ⟨hok1, hok2⟩ := hok
      constructor
      · intro hpp
        obtain ⟨ha, hy, hz⟩ := hok1 hpp
        obtain ⟨mems, hlm, hmm⟩ := hy
        refine ⟨?_, ?_, ?_⟩
        · rw [u3 _ hcne]
          exact ha
        · exact u12 n mems (compositeName n c2.1) hlm hmm
        · intro tr hl
          rw [u7 _ hcne] at hl
          exact hz tr hl
      · intro hnp
        have hcf := hok2 hnp
        cases hcc : dictContains (compositeName n c2.1)
            ((nsAdd acc (compositeName n cs.1)).updateTraceIfChanged
              (compositeName n cs.1) cs.2 (some n)).series_dict with
        | false => rfl
        | true =>
          rcases u5 _ hcc with h | h
          · have h2 : dictContains (compositeName n c2.1) acc.series_dict
                = true := h
            rw [hcf] at h2
            exact Bool.noConfusion h2
          · exact absurd h hcne
    · intro P hPns hPd
      have hPsn : ¬ P (compositeName n cs.1) := fun hPa => hPd _ hPa hsn_en
      have hPn : ¬ P n := fun hPa => hPd _ hPa (List.mem_cons_self _ _)
      exact Spares_updateTraceIfChanged _ _ _ _ hPsn
        (fun d hd => by
          injection hd with h2
          rw [← h2]
          exact hPn)
  · rw [if_neg hp]
    have hpf : isPlottableSeries cs.2 = false := bool_false_of_not_true hp
    have hnoexc : ¬ PlotCompException snap (compositeName n cs.1) :=
      not_PlotComp_nonplot hent hcross hmem hcs hpf
    unfold staleSdDel
    by_cases hcsd : dictContains (compositeName n cs.1)
        (nsAdd acc (compositeName n cs.1)).series_dict = true
    · rw [if_pos hcsd]
      have hcsd2 : dictContains (compositeName n cs.1) acc.series_dict
          = true := hcsd
      have hInvA : Inv snap (nsAdd acc (compositeName n cs.1)) := hInv
      have hcp_none : dictLookup (compositeName n cs.1) acc.plotted_dfs
          = none := by
        cases hcp : dictContains (compositeName n cs.1) acc.plotted_dfs with
        | false => exact dictContains_false_lookup hcp
        | true => exact absurd (hInv.2.2.2.2.1 _ hcsd2 hcp) hnoexc
      obtain ⟨g1, g2, g3, g4, g5, g6, g7, g8, g9, g10, g11, g12, g13, g14⟩ :=
        deleteTrace_facts (nsAdd acc (compositeName n cs.1))
          (compositeName n cs.1)
      have hnocasc : ∀ mems, dictLookup (compositeName n cs.1)
          (nsAdd acc (compositeName n cs.1)).plotted_dfs = some mems →
          False := by
        intro mems hl
        have hl2 : dictLookup (compositeName n cs.1) acc.plotted_dfs
            = some mems := hl
        rw [hcp_none] at hl2
        exact Option.noConfusion hl2
      refine ⟨Inv_deleteTrace hInvA _, ?_, ?_, ?_, ?_, ?_⟩
      · cases hcc : dictContains n
            ((nsAdd acc (compositeName n cs.1)).deleteTrace
              (compositeName n cs.1)).series_dict with
        | false => rfl
        | true =>
          have h2 : dictContains n acc.series_dict = true := g3 n hcc
          rw [hW2] at h2
          exact Bool.noConfusion h2
      · rw [g1]
        rfl
      · constructor
        · intro hpp
          rw [hpf] at hpp
          exact Bool.noConfusion hpp
        · intro _
          exact g12 hcp_none
      · intro c2 hc2 hne hok
        have hcne := hcompne c2 hc2 hne
        obtain ⟨hok1, hok2⟩ := hok
        constructor
        · intro hpp
          obtain ⟨ha, hy, hz⟩ := hok1 hpp
          obtain ⟨mems, hlm, hmm⟩ := hy
          refine ⟨?_, ?_, ?_⟩
          · rw [g2 _ hcne (fun mems2 hl2 => (hnocasc mems2 hl2).elim)]
            exact ha
          · exact g9 n mems _ (fun he => compositeName_ne_base n cs.1 he.symm)
              hcne hlm hmm
          · intro tr hl
            obtain ⟨tr0, hl0, hs0, _, _⟩ := g11 _ tr hl
            have hm0 := hz tr0 hl0
            rw [hs0]
            exact hm0
        · intro hnp
          have hcf := hok2 hnp
          cases hcc : dictContains (compositeName n c2.1)
              ((nsAdd acc (compositeName n cs.1)).deleteTrace
                (compositeName n cs.1)).series_dict with
          | false => rfl
          | true =>
            have h2 : dictContains (compositeName n c2.1) acc.series_dict
                = true := g3 _ hcc
            rw [hcf] at h2
            exact Bool.noConfusion h2
      · intro P hPns hPd
        have hPsn : ¬ P (compositeName n cs.1) := fun hPa => hPd _ hPa hsn_en
        exact Spares_deleteTrace _ _ hPsn
          (fun mems hl a ha hPa => (hnocasc mems hl).elim)
    · rw [if_neg hcsd]
      refine ⟨hInv, hW2, rfl, ?_, ?_, ?_⟩
      · constructor
        · intro hpp
          rw [hpf] at hpp
          exact Bool.noConfusion hpp
        · intro _
          exact bool_false_of_not_true hcsd
      · intro c2 hc2 hne hok
        exact hok
      · intro P hPns hPd
        exact Spares_refl P acc

theorem colFold_bundle (snap : Snapshot)
    (hent : ∀ nv ∈ snap, (entryNames nv).Nodup)
    (hcross : ∀ nv ∈ snap, ∀ nv2 ∈ snap, nv ≠ nv2 →
      ∀ a ∈ entryNames nv, a ∉ entryNames nv2)
    {n : String} {cols : List (String × PSeries)}
    (hmem : (n, PObj.dataframe cols) ∈ snap) :
    ∀ todo done : List (String × PSeries), cols = done ++ todo →
    ∀ acc : PlotterModel, Inv snap acc →
    dictContains n acc.series_dict = false →
    (∀ c ∈ done, ColOK acc n c) →
    Inv snap (todo.foldl (colStep n) acc) ∧
    dictContains n (todo.foldl (colStep n) acc).series_dict = false ∧
    (todo.foldl (colStep n) acc).ns_with_series
      = todo.foldl (colInsert n) acc.ns_with_series ∧
    (∀ c, c ∈ done ∨ c ∈ todo → ColOK (todo.foldl (colStep n) acc) n c) ∧
    (∀ P : String → Prop, (∀ a, P a → a ∈ nsNames snap) →
      (∀ a, P a → a ∉ entryNames (n, PObj.dataframe cols)) →
      Spares P acc (todo.foldl (colStep n) acc)) := by
  intro todo
  induction todo with
  | nil =>
    intro done hsplit acc h1 h2 h3
    refine ⟨h1, h2, rfl, ?_, fun P _ _ => Spares_refl P acc⟩
    intro c hc
    rcases hc with hd | ht
    · exact h3 c hd
    · exact absurd ht (List.not_mem_nil _)
  | cons cs rest ih =>
    intro done hsplit acc hInva hW2a hdone
    have hcs_mem : cs ∈ cols := by
      rw [hsplit]
      exact List.mem_append.mpr (Or.inr (List.mem_cons_self _ _))
    obtain ⟨b1, b2, b3, b4, b5, b6⟩ :=
      colStep_bundle snap hent hcross hmem acc cs hcs_mem hInva hW2a
    have hndcols : cols.Nodup := List.Nodup.of_map _
      ((List.nodup_cons.mp
        (show (n :: cols.map (fun c3 => compositeName n c3.1)).Nodup from
          hent (n, PObj.dataframe cols) hmem)).2)
    have hne_done : ∀ c ∈ done, c ≠ cs := by
      have hnd2 := hndcols
      rw [hsplit] at hnd2
      intro c hc he
      exact (List.disjoint_of_nodup_append hnd2) hc
        (he ▸ List.mem_cons_self _ _)
    have hdone' : ∀ c ∈ done ++ [cs], ColOK (colStep n acc cs) n c := by
      intro c hc
      rcases List.mem_append.mp hc with hd | hs
      · exact b5 c (by rw [hsplit]; exact List.mem_append.mpr (Or.inl hd))
          (hne_done c hd) (hdone c hd)
      · have he : c = cs := List.mem_singleton.mp hs
        rw [he]
        exact b4
    have hnext := ih (done ++ [cs]) (by rw [hsplit, List.append_assoc]; rfl)
      (colStep n acc cs) b1 b2 hdone'
    refine ⟨?_, ?_, ?_, ?_, ?_⟩
    · rw [List.foldl_cons]
      exact hnext.1
    · rw [List.foldl_cons]
      exact hnext.2.1
    · rw [List.foldl_cons, List.foldl_cons, hnext.2.2.1, b3]
      rfl
    · intro c hc
      rw [List.foldl_cons]
      rcases hc with hd | ht
      · exact hnext.2.2.2.1 c (Or.inl (List.mem_append.mpr (Or.inl hd)))
      · rcases List.mem_cons.mp ht with he | hr
        · refine hnext.2.2.2.1 c (Or.inl (List.mem_append.mpr (Or.inr ?_)))
          rw [he]
          exact List.mem_singleton.mpr rfl
        · exact hnext.2.2.2.1 c (Or.inr hr)
    · intro P hPns hPd
      rw [List.foldl_cons]
      exact Spares_trans (b6 P hPns hPd) (hnext.2.2.2.2 P hPns hPd)

theorem addVarStep_df_bundle (snap : Snapshot)
    (hent : ∀ nv ∈ snap, (entryNames nv).Nodup)
    (hcross : ∀ nv ∈ snap, ∀ nv2 ∈ snap, nv ≠ nv2 →
      ∀ a ∈ entryNames nv, a ∉ entryNames nv2)
    (m : PlotterModel) (n : String) (cols : List (String × PSeries))
    (hmem : (n, PObj.dataframe cols) ∈ snap) (hInv : Inv snap m) :
    Inv snap (PlotterModel.addVarStep m (n, PObj.dataframe cols)) ∧
    (PlotterModel.addVarStep m (n, PObj.dataframe cols)).ns_with_series
      = cols.foldl (colInsert n) (listInsertSet n m.ns_with_series) ∧
    EntryStable (PlotterModel.addVarStep m (n, PObj.dataframe cols))
      (n, PObj.dataframe cols) ∧
    SparesNs snap (n, PObj.dataframe cols) m
      (PlotterModel.addVarStep m (n, PObj.dataframe cols)) := by
  rw [addVarStep_df]
  have hnoexc : ¬ PlotCompException snap n := not_PlotComp_head hcross hmem
  have hInvA : Inv snap (nsAdd m n) := hInv
  obtain ⟨hInvB, hnsB, hW2B⟩ := staleSdDel_df_facts hInvA hnoexc
  obtain ⟨f1, f2, f3, f4, f5⟩ := colFold_bundle snap hent hcross hmem cols []
    (List.nil_append cols).symm (staleSdDel (nsAdd m n) n) hInvB hW2B
    (fun c hc => absurd hc (List.not_mem_nil _))
  refine ⟨f1, ?_, ⟨f2, fun c hc => f4 c (Or.inr hc)⟩, ?_⟩
  · rw [f3, hnsB]
    rfl
  · intro P hPns hPd
    have hPn : ¬ P n := fun hPa => hPd n hPa (List.mem_cons_self _ _)
    have hSB : Spares P (nsAdd m n) (staleSdDel (nsAdd m n) n) := by
      unfold staleSdDel
      by_cases hc : dictContains n (nsAdd m n).series_dict = true
      · rw [if_pos hc]
        apply Spares_deleteTrace _ _ hPn
        intro mems hl a ha hPa
        have hc2 : dictContains n m.series_dict = true := hc
        have hnone : dictLookup n m.plotted_dfs = none := by
          cases hcp : dictContains n m.plotted_dfs with
          | false => exact dictContains_false_lookup hcp
          | true => exact absurd (hInv.2.2.2.2.1 n hc2 hcp) hnoexc
        have hl2 : dictLookup n m.plotted_dfs = some mems := hl
        rw [hnone] at hl2
        exact Option.noConfusion hl2
      · rw [if_neg hc]
        exact Spares_refl P (nsAdd m n)
    exact Spares_trans hSB (f5 P hPns hPd)

theorem addVarStep_bundle (snap : Snapshot)
    (hent : ∀ nv ∈ snap, (entryNames nv).Nodup)
    (hcross : ∀ nv ∈ snap, ∀ nv2 ∈ snap, nv ≠ nv2 →
      ∀ a ∈ entryNames nv, a ∉ entryNames nv2)
    (m : PlotterModel) (nv : String × PObj) (hmem : nv ∈ snap)
    (hInv : Inv snap m) :
    Inv snap (m.addVarStep nv) ∧
    (m.addVarStep nv).ns_with_series = insertEntry m.ns_with_series nv ∧
    EntryStable (m.addVarStep nv) nv ∧
    SparesNs snap nv m (m.addVarStep nv) := by
  obtain ⟨n, v⟩ := nv
  cases v with
  | series s =>
    by_cases hp : isPlottableSeries s = true
    · exact addVarStep_series_plot_bundle snap hcross m n s hmem hp hInv
    · exact addVarStep_series_nonplot_bundle snap hcross m n s hmem
        (bool_false_of_not_true hp) hInv
  | dataframe cols =>
    exact addVarStep_df_bundle snap hent hcross m n cols hmem hInv
  | other => exact addVarStep_other_bundle snap hcross m n hmem hInv

theorem addPass_bundle (snap : Snapshot) (hns : (nsNames snap).Nodup)
    (m0 : PlotterModel) (hInv : Inv snap m0) :
    Inv snap (m0.addPass snap) ∧
    (m0.addPass snap).ns_with_series = nsBuild snap ∧
    (∀ nv ∈ snap, EntryStable (m0.addPass snap) nv) := by
  obtain ⟨hent, hcross, hsnodup⟩ := nsNames_nodup_facts hns
  have hfold : ∀ todo done : Snapshot, snap = done ++ todo →
      ∀ mm : PlotterModel, Inv snap mm →
      (∀ nv ∈ done, EntryStable mm nv) →
      Inv snap (todo.foldl PlotterModel.addVarStep mm) ∧
      (todo.foldl PlotterModel.addVarStep mm).ns_with_series
        = todo.foldl insertEntry mm.ns_with_series ∧
      (∀ nv, nv ∈ done ∨ nv ∈ todo →
        EntryStable (todo.foldl PlotterModel.addVarStep mm) nv) := by
    intro todo
    induction todo with
    | nil =>
      intro done hsplit mm h1 h2
      refine ⟨h1, rfl, ?_⟩
      intro nv hnv
      rcases hnv with hd | ht
      · exact h2 nv hd
      · exact absurd ht (List.not_mem_nil _)
    | cons nv' rest ih =>
      intro done hsplit mm hInvm hdone
      have hmem' : nv' ∈ snap := by
        rw [hsplit]
        exact List.mem_append.mpr (Or.inr (List.mem_cons_self _ _))
      obtain ⟨b1, b2, b3, b4⟩ := addVarStep_bundle snap hent hcross mm nv'
        hmem' hInvm
      have hdone' : ∀ nv ∈ done ++ [nv'],
          EntryStable (mm.addVarStep nv') nv := by
        intro nv hnv
        rcases List.mem_append.mp hnv with hd | hs
        · have hnvmem : nv ∈ snap := by
            rw [hsplit]
            exact List.mem_append.mpr (Or.inl hd)
          have hnene : nv ≠ nv' := by
            have hnd2 := hsnodup
            rw [hsplit] at hnd2
            intro he
            exact (List.disjoint_of_nodup_append hnd2) hd
              (he ▸ List.mem_cons_self _ _)
          exact EntryStable_spares
            (b4 (fun a => a ∈ entryNames nv)
              (fun a ha => mem_nsNames_of_entry hnvmem ha)
              (fun a ha => hcross nv hnvmem nv' hmem' hnene a ha))
            (hdone nv hd)
        · have he : nv = nv' := List.mem_singleton.mp hs
          rw [he]
          exact b3
      have hnext := ih (done ++ [nv']) (by rw [hsplit, List.append_assoc]; rfl)
        (mm.addVarStep nv') b1 hdone'
      refine ⟨?_, ?_, ?_⟩
      · rw [List.foldl_cons]
        exact hnext.1
      · rw [List.foldl_cons, List.foldl_cons, hnext.2.1, b2]
      · intro nv hnv
        rw [List.foldl_cons]
        rcases hnv with hd | ht
        · exact hnext.2.2 nv (Or.inl (List.mem_append.mpr (Or.inl hd)))
        · rcases List.mem_cons.mp ht with he | hr
          · refine hnext.2.2 nv (Or.inl (List.mem_append.mpr (Or.inr ?_)))
            rw [he]
            exact List.mem_singleton.mpr rfl
          · exact hnext.2.2 nv (Or.inr hr)
  have hres := hfold snap [] (List.nil_append snap).symm
    { m0 with ns_with_series := [] } hInv
    (fun nv hnv => absurd hnv (List.not_mem_nil _))
  exact ⟨hres.1, hres.2.1, fun nv hnv => hres.2.2 nv (Or.inr hnv)⟩

theorem delFoldDT (snap : Snapshot) : ∀ (L : List String) (mm : PlotterModel),
    Inv snap mm → (∀ e ∈ L, e ∉ nsNames snap) →
    Inv snap (L.foldl (fun acc n => acc.deleteTrace n) mm) ∧
    (L.foldl (fun acc n => acc.deleteTrace n) mm).ns_with_series
      = mm.ns_with_series ∧
    (∀ P : String → Prop, (∀ a, P a → a ∈ nsNames snap) →
      Spares P mm (L.foldl (fun acc n => acc.deleteTrace n) mm)) ∧
    (∀ a tr', dictLookup a
        (L.foldl (fun acc n => acc.deleteTrace n) mm).plotter.traces
        = some tr' → tr'.visible = true →
      dictLookup a mm.plotter.traces = some tr') ∧
    (∀ a, (∀ tr, dictLookup a mm.plotter.traces = some tr →
        tr.visible = false) →
      ∀ tr', dictLookup a
        (L.foldl (fun acc n => acc.deleteTrace n) mm).plotter.traces
        = some tr' → tr'.visible = false) ∧
    (∀ nfs, ((∃ tr', dictLookup nfs mm.plotter.traces = some tr' ∧
        tr'.visible = true) → nfs ∈ mm.plotter.force_shown) →
      (∃ tr', dictLookup nfs
        (L.foldl (fun acc n => acc.deleteTrace n) mm).plotter.traces
        = some tr' ∧ tr'.visible = true) →
      nfs ∈ (L.foldl (fun acc n => acc.deleteTrace n) mm).plotter.force_shown) ∧
    (∀ e ∈ L, ∀ tr', dictLookup e
        (L.foldl (fun acc n => acc.deleteTrace n) mm).plotter.traces
        = some tr' → tr'.visible = false) := by
  intro L
  induction L with
  | nil =>
    intro mm hInvm _
    refine ⟨hInvm, rfl, fun P _ => Spares_refl P mm, fun a tr' h _ => h,
      fun a h tr' h2 => h tr' h2, fun nfs hP h => hP h, ?_⟩
    intro e he
    exact absurd he (List.not_mem_nil _)
  | cons b rest ih =>
    intro mm hInvm hLns
    have hb_ns : b ∉ nsNames snap := hLns b (List.mem_cons_self _ _)
    have hInvB : Inv snap (mm.deleteTrace b) := Inv_deleteTrace hInvm b
    obtain ⟨g1, g2, g3, g4, g5, g6, g7, g8, g9, g10, g11, g12, g13, g14⟩ :=
      deleteTrace_facts mm b
    obtain ⟨i1, i2, i3, i4, i5, i6, i7⟩ := ih (mm.deleteTrace b) hInvB
      (fun e he => hLns e (List.mem_cons_of_mem _ he))
    have hbinv : ∀ tr', dictLookup b (mm.deleteTrace b).plotter.traces
        = some tr' → tr'.visible = false := by
      apply g14
      cases hlb : dictLookup b mm.plotted_dfs with
      | none => exact Or.inr rfl
      | some mems =>
        left
        intro tr0 hl0
        exact hInvm.2.2.2.2.2 (b, mems) (dictLookup_mem hlb) hb_ns tr0 hl0
    refine ⟨?_, ?_, ?_, ?_, ?_, ?_, ?_⟩
    · rw [List.foldl_cons]
      exact i1
    · rw [List.foldl_cons, i2, g1]
    · intro P hPns
      rw [List.foldl_cons]
      refine Spares_trans ?_ (i3 P hPns)
      apply Spares_deleteTrace _ _ (fun hPb => hb_ns (hPns b hPb))
      intro mems hl a ha hPa
      have hms := hInvm.2.2.2.1 (b, mems) (dictLookup_mem hl) a ha
      exact memsafe_not_ns_of_dead hb_ns hms (hPns a hPa)
    · intro a tr' hl' hv'
      rw [List.foldl_cons] at hl'
      have hl1 := i4 a tr' hl' hv'
      obtain ⟨tr, hl0, _, _, he⟩ := g11 a tr' hl1
      rw [← he hv'] at hl0
      exact hl0
    · intro a hinv tr' hl'
      rw [List.foldl_cons] at hl'
      refine i5 a ?_ tr' hl'
      intro tr hl0
      obtain ⟨tr0, hl1, _, hvp, _⟩ := g11 a tr hl0
      exact hvp (hinv tr0 hl1)
    · intro nfs hP h
      rw [List.foldl_cons] at h ⊢
      refine i6 nfs ?_ h
      intro hvis
      obtain ⟨tr', hl', hv'⟩ := hvis
      obtain ⟨tr, hlt, _, _, he2⟩ := g11 nfs tr' hl'
      have htreq := he2 hv'
      have hvtr : tr.visible = true := by
        rw [← htreq]
        exact hv'
      exact g13 nfs (fun _ => hP ⟨tr, hlt, hvtr⟩) ⟨tr', hl', hv'⟩
    · intro e he tr' hl'
      rw [List.foldl_cons] at hl'
      rcases List.mem_cons.mp he with heb | her
      · subst heb
        exact i5 e hbinv tr' hl'
      · exact i7 e her tr' hl'

theorem delFold_stable (snap : Snapshot) (mm : PlotterModel)
    (L : List String) (hInv : Inv snap mm)
    (hnseq : mm.ns_with_series = nsBuild snap)
    (hall : ∀ nv ∈ snap, EntryStable mm nv)
    (hLns : ∀ e ∈ L, e ∉ nsNames snap)
    (hcover : ∀ a, a ∈ mm.plotter.get_visible → a ∉ mm.ns_with_series →
      a ∉ mm.plotter.force_shown → a ∈ L) :
    Stable snap (L.foldl (fun acc n => acc.deleteTrace n) mm) := by
  obtain ⟨d1, d2, d3, d4, d5, d6, d7⟩ := delFoldDT snap L mm hInv hLns
  refine ⟨?_, d1.1, d1.2.1, ?_, ?_⟩
  · rw [d2, hnseq]
  · intro nvis hvisF
    obtain ⟨tr', hl', hv'⟩ := get_visible_mem d1.2.2.1 hvisF
    have hl0 : dictLookup nvis mm.plotter.traces = some tr' :=
      d4 nvis tr' hl' hv'
    by_cases hin : nvis ∈ mm.ns_with_series
    · left
      rw [d2]
      exact hin
    · right
      by_cases hfs : nvis ∈ mm.plotter.force_shown
      · exact d6 nvis (fun _ => hfs) ⟨tr', hl', hv'⟩
      · exfalso
        have hdel : nvis ∈ L := hcover nvis (mem_get_visible hl0 hv') hin hfs
        have hinv := d7 nvis hdel tr' hl'
        rw [hv'] at hinv
        exact Bool.noConfusion hinv
  · intro nv hnv
    exact EntryStable_spares
      (d3 (fun a => a ∈ entryNames nv)
        (fun a ha => mem_nsNames_of_entry hnv ha))
      (hall nv hnv)

theorem hidePass_stable (snap : Snapshot) (mm : PlotterModel)
    (hInv : Inv snap mm) (hnseq : mm.ns_with_series = nsBuild snap)
    (hall : ∀ nv ∈ snap, EntryStable mm nv) :
    Stable snap mm.hidePass := by
  unfold PlotterModel.hidePass
  apply delFold_stable snap mm _ hInv hnseq hall
  · intro e he
    have hf := List.mem_filter.mp he
    have hf2 : (!decide (e ∈ mm.ns_with_series)
        && !decide (e ∈ mm.plotter.force_shown)) = true := hf.2
    have h1 : e ∉ mm.ns_with_series := by
      intro hmem2
      rw [decide_eq_true hmem2] at hf2
      exact Bool.noConfusion hf2
    intro hens
    exact h1 (by rw [hnseq]; exact mem_nsBuild.mpr hens)
  · intro a hgv hin hfs
    refine List.mem_filter.mpr ⟨hgv, ?_⟩
    show (!decide (a ∈ mm.ns_with_series)
      && !decide (a ∈ mm.plotter.force_shown)) = true
    rw [decide_eq_false hin, decide_eq_false hfs]
    rfl

theorem cycle_stable (snap : Snapshot) (hns : (nsNames snap).Nodup)
    (m0 : PlotterModel) (hInv : Inv snap m0) :
    Stable snap (m0.update_variables snap) := by
  unfold PlotterModel.update_variables
  obtain ⟨a1, a2, a3⟩ := addPass_bundle snap hns m0 hInv
  exact hidePass_stable snap (m0.addPass snap) a1 a2 a3

/-- C1: Reconciliation is idempotent.  For every tracked state — a state
whose bookkeeping is well-formed: the snapshot's names (with dataframe
column names) are duplicate-free, the three bookkeeping dicts have
duplicate-free keys, `_series_dict` and `_plotted_dfs` track disjoint name
sets, every plotted-dataframe member is either stale (not a current
namespace name) or a column of its own dataframe, and plotted-dataframe
entries whose dataframe left the namespace have hidden traces — running the
update cycle (`update_variables` then `draw`) twice in a row with an
identical namespace snapshot performs no mutation on the second run
(`update_variables` and `draw` both return the state unchanged), and the
plotter's `changed` flag is `false` after the second call, so no redraw
happens. -/
theorem C1_reconcile_idempotent (m0 : PlotterModel) (snap : Snapshot)
    (h1 : (nsNames snap).Nodup)
    (h2 : (m0.series_dict.map Prod.fst).Nodup)
    (h3 : (m0.plotted_dfs.map Prod.fst).Nodup)
    (h4 : (m0.plotter.traces.map Prod.fst).Nodup)
    (h5 : List.Disjoint (m0.series_dict.map Prod.fst)
      (m0.plotted_dfs.map Prod.fst))
    (h6 : ∀ pr ∈ m0.plotted_dfs, ∀ a ∈ pr.2, MemSafe snap pr.1 a)
    (h7 : ∀ pr ∈ m0.plotted_dfs, pr.1 ∉ nsNames snap →
      ∀ tr, dictLookup pr.1 m0.plotter.traces = some tr →
        tr.visible = false) :
    ((m0.update_variables snap).draw false).update_variables snap
        = (m0.update_variables snap).draw false ∧
    (((m0.update_variables snap).draw false).update_variables snap).draw false
        = (m0.update_variables snap).draw false ∧
    ((((m0.update_variables snap).draw false).update_variables snap).draw
        false).plotter.changed = false := by
  have hdisj : ∀ k, dictContains k m0.series_dict = true →
      dictContains k m0.plotted_dfs = true → PlotCompException snap k := by
    intro k hks hkp
    exact absurd (mem_keys_of_contains hkp) (h5 (mem_keys_of_contains hks))
  have hInv : Inv snap m0 := ⟨h2, h3, h4, h6, hdisj, h7⟩
  have hst : Stable snap (m0.update_variables snap) :=
    cycle_stable snap h1 m0 hInv
  have hst1 : Stable snap ((m0.update_variables snap).draw false) :=
    Stable_draw hst
  have hch : ((m0.update_variables snap).draw false).plotter.changed
      = false := plot_false_changed (m0.update_variables snap).plotter
  have hc1 : ((m0.update_variables snap).draw false).update_variables snap
      = (m0.update_variables snap).draw false :=
    update_variables_stable_id _ snap hst1
  have hc2 : (((m0.update_variables snap).draw false).update_variables
      snap).draw false = (m0.update_variables snap).draw false := by
    rw [hc1]
    exact draw_false_id _ hch
  refine ⟨hc1, hc2, ?_⟩
  rw [hc2]
  exact hch

def c1Series : PSeries :=
  { datetimeIndexed := true, numericDtype := true
    index := [0, 1], values := [⟨1, 0⟩, ⟨2, 0⟩] }

def c1m0 : PlotterModel := PlotterModel.init

def c1snap : Snapshot := [("x", PObj.series c1Series)]

theorem C1_reconcile_idempotent_witness :
    ((c1m0.update_variables c1snap).draw false).update_variables c1snap
        = (c1m0.update_variables c1snap).draw false ∧
    (((c1m0.update_variables c1snap).draw false).update_variables
        c1snap).draw false = (c1m0.update_variables c1snap).draw false ∧
    ((((c1m0.update_variables c1snap).draw false).update_variables
        c1snap).draw false).plotter.changed = false :=
  C1_reconcile_idempotent c1m0 c1snap (by decide) (by decide) (by decide)
    (by decide) (fun a ha => absurd ha (List.not_mem_nil a))
    (fun pr hpr => absurd hpr (List.not_mem_nil pr))
    (fun pr hpr => absurd hpr (List.not_mem_nil pr))

end Autoplot
